import Mathlib

/-! Program cansniffer: a shallow embedding of `cansniffer.c`.

The per-identifier table `sniftab`, the three event handlers of the main loop
(`handle_keyb`, `handle_raw`, `handle_timeo`), the row renderer
`print_snifline` and the settings codec (`writesettings`, `readsettings`) are
translated function by function.  Global variables of the C file are the fields
of `State`; what the program obtains from its environment (bytes read from the
keyboard, the frame read from the socket, the content of a settings file) is an
explicit argument of the handler that consumes it.

Conventions
* `int`/`long` values are `Int`, flag words and identifiers are `Nat`;
  a byte (`__u8`, `char`) is `u8 = Fin 256`.
* `struct canfd_frame` keeps all its members; `data` is a total function of the
  index, of which the C array holds the indices `0..63`.
* `U64_DATA(p)` is the 64-bit word stored in `p->data[0..7]`
  (least significant byte first).
* Text written to `stdout` is a list of `Item`s: a character or one of the
  control strings of `terminal.h`.
-/

namespace Cansniffer

/-! ## Constants -/

/-- A byte: `__u8` and `char`. -/
abbrev u8 := Fin 256

/-- The constant `CAN_EFF_FLAG` of `linux/can.h`. -/
def CAN_EFF_FLAG : Nat := 0x80000000
/-- The constant `CAN_EFF_MASK` of `linux/can.h`. -/
def CAN_EFF_MASK : Nat := 0x1FFFFFFF
/-- The constant `CAN_SFF_MASK` of `linux/can.h`. -/
def CAN_SFF_MASK : Nat := 0x7FF
/-- The constant `CAN_MTU`: `sizeof(struct can_frame)`. -/
def CAN_MTU : Int := 16
/-- The constant `CANFD_MTU`: `sizeof(struct canfd_frame)`. -/
def CANFD_MTU : Int := 72

/-- Flag `ENABLE`: by filter or user. -/
def ENABLE : Nat := 1
/-- Flag `DISPLAY`: is on the screen. -/
def DISPLAY : Nat := 2
/-- Flag `UPDATE`: needs to be printed on the screen. -/
def UPDATE : Nat := 4
/-- Flag `CLRSCR`: clear screen in next loop. -/
def CLRSCR : Nat := 8

/-- Default of `timeout`, in 10ms. -/
def TIMEOUT : Int := 500
/-- Default of `hold`, in 10ms. -/
def HOLD : Int := 100
/-- Default of `loop`, in 10ms. -/
def LOOP : Int := 20

/-! ## Data model -/

/-- The C `struct timeval`. -/
structure timeval where
  tv_sec : Int
  tv_usec : Int
deriving DecidableEq

/-- The C `struct canfd_frame`. -/
structure canfd_frame where
  can_id : Nat
  len : Nat
  flags : Nat
  res0 : Nat
  res1 : Nat
  data : Nat → u8

/-- The C `struct snif`, one element of `sniftab`. -/
structure snif where
  flags : Nat
  ifnum : Int
  next_by_id : Int
  next_by_if : Int
  hold : Int
  timeout : Int
  laststamp : timeval
  currstamp : timeval
  last : canfd_frame
  current : canfd_frame
  marker : canfd_frame
  notch : canfd_frame

/-- Control strings of `terminal.h`, and the colour string of the first
interface (`ifacetab[0].colorstr`). -/
inductive Ctl where
  | CLR_SCREEN
  | CSR_HOME
  | CSR_DOWN
  | CSR_HIDE
  | CSR_SHOW
  | ATTCOLOR
  | ATTRESET
  | colorstr
deriving DecidableEq

/-- One piece of terminal output. -/
inductive Item where
  | chr (c : Char)
  | ctl (c : Ctl)
deriving DecidableEq

/-- The global variables of `cansniffer.c`, the two statics `frame_count` (of
`handle_timeo`) and `lastcms` (of `main`), the text written to `stdout` and the
settings files written so far (name and bytes). -/
structure State where
  sniftab : Nat → snif
  running : Nat
  clearscreen : Nat
  print_eff : Nat
  notch : Nat
  filter_id_only : Nat
  timeout : Int
  hold : Int
  loop : Int
  binary : Nat
  binary_gap : Nat
  color : Nat
  interface : List Item
  frame_count : Nat
  lastcms : Int
  stdout : List Item
  written : List (List u8 × List u8)

/-- The all-zero frame of static storage. -/
def zero_frame : canfd_frame :=
  { can_id := 0, len := 0, flags := 0, res0 := 0, res1 := 0, data := fun _ => 0 }

/-- The all-zero table element of static storage. -/
def zero_snif : snif :=
  { flags := 0, ifnum := 0, next_by_id := 0, next_by_if := 0, hold := 0, timeout := 0,
    laststamp := ⟨0, 0⟩, currstamp := ⟨0, 0⟩,
    last := zero_frame, current := zero_frame, marker := zero_frame, notch := zero_frame }

/-! ## Loops and the 64-bit data word -/

/-- The loop `for (i = 0; i < n; i++) body(i)` on a state. -/
def forLoop {σ : Type} : Nat → (Nat → σ → σ) → σ → σ
  | 0, _, s => s
  | n + 1, body, s => body n (forLoop n body s)

/-- The output of `for (i = 0; i < n; i++) body(i)` when `body` only prints. -/
def outLoop {α : Type} : Nat → (Nat → List α) → List α
  | 0, _ => []
  | n + 1, body => outLoop n body ++ body n

/-- Truncation to a byte. -/
def toU8 (n : Nat) : u8 := ⟨n % 256, Nat.mod_lt _ (by decide)⟩

/-- Macro `U64_DATA(p)` read: the `unsigned long long` at `p->data`. -/
def U64_DATA (p : canfd_frame) : Nat :=
  (p.data 0).val + 256 * ((p.data 1).val + 256 * ((p.data 2).val + 256 * ((p.data 3).val
    + 256 * ((p.data 4).val + 256 * ((p.data 5).val + 256 * ((p.data 6).val
    + 256 * (p.data 7).val))))))

/-- Macro `U64_DATA(p)` written: `U64_DATA(p) = w` stores the eight bytes of
`w` into `p->data[0..7]` and leaves the rest of the frame alone. -/
def U64_DATA_set (p : canfd_frame) (w : Nat) : canfd_frame :=
  { p with data := fun i => if i < 8 then toU8 (w >>> (8 * i)) else p.data i }

/-! ## Flag macros -/

/-- Macro `is_set(id, flag)`. -/
def is_set (s : State) (id flag : Nat) : Bool :=
  (s.sniftab id).flags &&& flag != 0

/-- Macro `is_clr(id, flag)`. -/
def is_clr (s : State) (id flag : Nat) : Bool :=
  (s.sniftab id).flags &&& flag == 0

/-- Store of one table element. -/
def set_snif (s : State) (id : Nat) (e : snif) : State :=
  { s with sniftab := fun k => if k = id then e else s.sniftab k }

/-- Macro `do_set(id, flag)`: `flags |= flag`. -/
def do_set (s : State) (id flag : Nat) : State :=
  set_snif s id { s.sniftab id with flags := (s.sniftab id).flags ||| flag }

/-- Macro `do_clr(id, flag)`: `flags &= ~flag`, on a 32-bit `int`. -/
def do_clr (s : State) (id flag : Nat) : State :=
  set_snif s id { s.sniftab id with flags := (s.sniftab id).flags &&& (0xFFFFFFFF ^^^ flag) }

/-- Text appended to `stdout`. -/
def emit (s : State) (o : List Item) : State :=
  { s with stdout := s.stdout ++ o }

/-- The characters of a string, as output. -/
def text (str : String) : List Item :=
  str.toList.map Item.chr

/-- A character as a byte. -/
def c2b (c : Char) : u8 := toU8 c.toNat

/-- A byte as a character. -/
def b2c (b : u8) : Char := Char.ofNat b.val

/-! ## `printf` conversions -/

/-- One digit, upper case as `%X` prints it. -/
def digitChar (d : Nat) : Char :=
  if d < 10 then Char.ofNat (48 + d) else Char.ofNat (55 + d)

/-- The digits of `n` in base `b`, most significant first, put before `acc`. -/
def digitsAux (b : Nat) : Nat → Nat → List Char → List Char
  | 0, _, acc => acc
  | fuel + 1, n, acc =>
    if n / b = 0 then digitChar (n % b) :: acc
    else digitsAux b fuel (n / b) (digitChar (n % b) :: acc)

/-- The digits of `n` in base `b`: at least one digit, no leading zero. -/
def digits (b n : Nat) : List Char := digitsAux b (n + 1) n []

/-- Zero padding on the left up to the field width. -/
def padZero (width : Nat) (l : List Char) : List Char :=
  List.replicate (width - l.length) '0' ++ l

/-- Conversion `%0<width>ld` (and `%0<width>d`, `%ld`, `%d` with width 0). -/
def fmt_ld (width : Nat) (v : Int) : List Item :=
  (if v < 0 then '-' :: padZero (width - 1) (digits 10 v.natAbs)
   else padZero width (digits 10 v.natAbs)).map Item.chr

/-- Conversion `%0<width>X`. -/
def fmt_X (width : Nat) (n : Nat) : List Item :=
  (padZero width (digits 16 n)).map Item.chr

/-- Blanks: `n` times `putchar(' ')`. -/
def blanks (n : Nat) : List Item := List.replicate n (Item.chr ' ')

/-! ## `print_snifline` -/

/-- A value of type `long` (64 bits, two's complement): the result of an
addition or a subtraction of two `long`s is the mathematical result brought
back into -2^63 .. 2^63 - 1. -/
def wrap_long (x : Int) : Int :=
  (x + 9223372036854775808) % 18446744073709551616 - 9223372036854775808

/-- Lines 598-619 of `print_snifline`: the elapsed time and the identifier.
`diffsec` and `diffusec` are `long`s: the two subtractions of line 598 and 599
and the borrow of line 604 are taken in 64 bits. -/
def print_snifline_head (s : State) (id : Nat) : List Item :=
  let e := s.sniftab id
  let diffsec0 : Int := wrap_long (e.currstamp.tv_sec - e.laststamp.tv_sec)
  let diffusec0 : Int := wrap_long (e.currstamp.tv_usec - e.laststamp.tv_usec)
  let diffsec1 := if diffusec0 < 0 then wrap_long (diffsec0 - 1) else diffsec0
  let diffusec1 := if diffusec0 < 0 then wrap_long (diffusec0 + 1000000) else diffusec0
  let diffsec2 := if diffsec1 < 0 then 0 else diffsec1
  let diffusec2 := if diffsec1 < 0 then 0 else diffusec1
  let diffsec := if diffsec2 ≥ 100 then 99 else diffsec2
  let diffusec := if diffsec2 ≥ 100 then 999999 else diffusec2
  [Item.ctl Ctl.colorstr] ++
  (if id &&& CAN_EFF_FLAG ≠ 0 then
     fmt_ld 2 diffsec ++ fmt_ld 3 (diffusec.tdiv 1000) ++ blanks 2
       ++ fmt_X 8 (id &&& CAN_EFF_MASK) ++ blanks 2
   else if s.print_eff ≠ 0 then
     fmt_ld 2 diffsec ++ fmt_ld 3 (diffusec.tdiv 1000) ++ blanks 2
       ++ fmt_X 8 (e.current.can_id &&& CAN_EFF_MASK) ++ blanks 2
   else
     fmt_ld 2 diffsec ++ fmt_ld 3 (diffusec.tdiv 1000) ++ blanks 2
       ++ fmt_X 3 (id &&& CAN_SFF_MASK) ++ blanks 2) ++
  [Item.ctl Ctl.ATTRESET]

/-- Lines 625-635: what the binary branch prints for bit `j` of byte `i`. -/
def print_bit (color : Nat) (e : snif) (i j : Nat) : List Item :=
  if color ≠ 0 ∧ (e.marker.data i).val &&& (1 <<< j) ≠ 0
      ∧ ¬ ((e.notch.data i).val &&& (1 <<< j) ≠ 0) then
    if (e.current.data i).val &&& (1 <<< j) ≠ 0 then
      [Item.ctl Ctl.ATTCOLOR, Item.chr '1', Item.ctl Ctl.ATTRESET]
    else
      [Item.ctl Ctl.ATTCOLOR, Item.chr '0', Item.ctl Ctl.ATTRESET]
  else
    if (e.current.data i).val &&& (1 <<< j) ≠ 0 then [Item.chr '1'] else [Item.chr '0']

/-- Lines 623-639: byte `i` in the binary branch, `j` running from 7 down to 0. -/
def print_bin_byte (color binary_gap : Nat) (e : snif) (i : Nat) : List Item :=
  print_bit color e i 7 ++ print_bit color e i 6 ++ print_bit color e i 5
    ++ print_bit color e i 4 ++ print_bit color e i 3 ++ print_bit color e i 2
    ++ print_bit color e i 1 ++ print_bit color e i 0
    ++ (if binary_gap ≠ 0 then [Item.chr ' '] else [])

/-- Lines 654-657: the hex pair of byte `i`. -/
def print_hex_byte (color : Nat) (e : snif) (i : Nat) : List Item :=
  if color ≠ 0 ∧ (e.marker.data i).val ≠ 0 ∧ ¬ ((e.notch.data i).val ≠ 0) then
    [Item.ctl Ctl.ATTCOLOR] ++ fmt_X 2 (e.current.data i).val
      ++ [Item.ctl Ctl.ATTRESET, Item.chr ' ']
  else
    fmt_X 2 (e.current.data i).val ++ [Item.chr ' ']

/-- Lines 663-670: the ASCII column of byte `i`. -/
def print_ascii_byte (color : Nat) (e : snif) (i : Nat) : List Item :=
  if (e.current.data i).val > 0x1F ∧ (e.current.data i).val < 0x7F then
    if color ≠ 0 ∧ (e.marker.data i).val ≠ 0 ∧ ¬ ((e.notch.data i).val ≠ 0) then
      [Item.ctl Ctl.ATTCOLOR, Item.chr (b2c (e.current.data i)), Item.ctl Ctl.ATTRESET]
    else
      [Item.chr (b2c (e.current.data i))]
  else
    [Item.chr '.']

/-- Lines 621-678 of `print_snifline`: the payload in the current render mode. -/
def print_snifline_data (s : State) (id : Nat) : List Item :=
  let e := s.sniftab id
  let dlc_diff : Int := (e.last.len : Int) - (e.current.len : Int)
  if s.binary ≠ 0 then
    outLoop e.current.len (print_bin_byte s.color s.binary_gap e)
      ++ outLoop dlc_diff.toNat
          (fun _ => blanks 8 ++ (if s.binary_gap ≠ 0 then [Item.chr ' '] else []))
  else
    outLoop e.current.len (print_hex_byte s.color e)
      ++ (if e.current.len < 8 then blanks ((8 - e.current.len) * 3) else [])
      ++ outLoop e.current.len (print_ascii_byte s.color e)
      ++ outLoop dlc_diff.toNat (fun _ => [Item.chr ' '])

/-- Function `print_snifline(id)`: one row is printed, then the marker word is
cleared. -/
def print_snifline (s : State) (id : Nat) : State :=
  let s1 := emit s (print_snifline_head s id ++ print_snifline_data s id ++ [Item.chr '\n'])
  set_snif s1 id
    { s1.sniftab id with marker := U64_DATA_set (s1.sniftab id).marker 0 }

/-! ## `handle_raw` -/

/-- Function `handle_raw(fd, currcms)`.  `nbytes` is what `read` returned, `cf`
the frame buffer after the read and `stamp` the time `SIOCGSTAMP` reports.  The
first component is the returned `int`. -/
def handle_raw (s : State) (nbytes : Int) (cf : canfd_frame) (stamp : timeval)
    (currcms : Int) : Nat × State :=
  if nbytes < 0 then (0, s)
  else
    let s1 := if s.print_eff = 0 ∧ cf.can_id &&& CAN_EFF_FLAG ≠ 0 then
                { s with print_eff := 1, clearscreen := 1 } else s
    let id := cf.can_id &&& 0x7FF
    let s2 := set_snif s1 id { s1.sniftab id with currstamp := stamp }
    if nbytes ≠ CAN_MTU ∧ nbytes ≠ CANFD_MTU then
      (0, emit s2 (text "received strange frame data length " ++ fmt_ld 0 nbytes
                    ++ text "!\n"))
    else
      let s3 := set_snif s2 id { s2.sniftab id with current := cf }
      let s4 := set_snif s3 id { s3.sniftab id with
        marker := U64_DATA_set (s3.sniftab id).marker
          (U64_DATA (s3.sniftab id).marker |||
            (U64_DATA (s3.sniftab id).current ^^^ U64_DATA (s3.sniftab id).last)) }
      let s5 := set_snif s4 id { s4.sniftab id with
        timeout := if s4.timeout ≠ 0 then currcms + s4.timeout else 0 }
      let s6 := if is_clr s5 id DISPLAY then { s5 with clearscreen := 1 } else s5
      let s7 := do_set s6 id DISPLAY
      let s8 := do_set s7 id UPDATE
      (1, s8)

/-! ## `handle_timeo` -/

/-- Lines 541-545: the header line. -/
def print_header (s : State) : List Item :=
  [Item.ctl Ctl.CLR_SCREEN, Item.ctl Ctl.CSR_HOME]
    ++ (if s.print_eff ≠ 0 then text "XX|ms  -- ID --  data ...     < "
        else text "XX|ms  ID   data ...     < ")
    ++ s.interface ++ text "# l=" ++ fmt_ld 0 s.loop ++ text " h=" ++ fmt_ld 0 s.hold
    ++ text " t=" ++ fmt_ld 0 s.timeout ++ text " >"

/-- Lines 567-579: an element on the screen is printed when it was updated or
a redraw is forced, printed without marker when its hold time is over, and
skipped otherwise. -/
def handle_timeo_draw (currcms : Int) (force_redraw : Nat) (i : Nat) (s : State) : State :=
  if is_set s i UPDATE ∨ force_redraw ≠ 0 then
    let a := print_snifline s i
    let b := set_snif a i { a.sniftab i with hold := currcms + a.hold }
    do_clr b i UPDATE
  else if (s.sniftab i).hold ≠ 0 ∧ (s.sniftab i).hold < currcms then
    let a := set_snif s i { s.sniftab i with marker := U64_DATA_set (s.sniftab i).marker 0 }
    let b := print_snifline a i
    set_snif b i { b.sniftab i with hold := 0 }
  else
    emit s [Item.ctl Ctl.CSR_DOWN]

/-- Lines 581-585: an element whose timeout is over leaves the screen. -/
def handle_timeo_expire (currcms : Int) (i : Nat) (s : State) : State :=
  if (s.sniftab i).timeout ≠ 0 ∧ (s.sniftab i).timeout < currcms then
    let a := do_clr s i DISPLAY
    let b := do_clr a i UPDATE
    { b with clearscreen := 1 }
  else s

/-- Lines 563-589: the body of the loop over the table in `handle_timeo`. -/
def handle_timeo_body (currcms : Int) (force_redraw : Nat) (i : Nat) (s : State) : State :=
  if is_set s i ENABLE then
    let s3 :=
      if is_set s i DISPLAY then
        handle_timeo_expire currcms i (handle_timeo_draw currcms force_redraw i s)
      else s
    set_snif s3 i { s3.sniftab i with
      last := (s3.sniftab i).current, laststamp := (s3.sniftab i).currstamp }
  else s

/-- Lines 551-555: the pending notch request is served. -/
def handle_timeo_notch (s : State) : State :=
  if s.notch ≠ 0 then
    { forLoop 2048 (fun i st => set_snif st i { st.sniftab i with
        notch := U64_DATA_set (st.sniftab i).notch
          (U64_DATA (st.sniftab i).notch ||| U64_DATA (st.sniftab i).marker) }) s
      with notch := 0 }
  else s

/-- Lines 538-559 of `handle_timeo`: the header on a cleared screen, the
pending notch request, the cursor sent home and the update counter. -/
def handle_timeo_head (s : State) : State :=
  let s1 := if s.clearscreen ≠ 0 then { emit s (print_header s) with clearscreen := 0 } else s
  let s2 := handle_timeo_notch s1
  let s3 := emit s2 [Item.ctl Ctl.CSR_HOME]
  let s4 := emit s3 (fmt_ld 2 s3.frame_count ++ [Item.chr '\n'])
  { s4 with frame_count := (s4.frame_count + 1) % 4294967296 % 100 }

/-- Function `handle_timeo(fd, currcms)`.  The first component is the returned
`int`; `force_redraw` is set when the screen was cleared. -/
def handle_timeo (s : State) (currcms : Int) : Nat × State :=
  (1, forLoop 2048 (handle_timeo_body currcms (if s.clearscreen ≠ 0 then 1 else 0))
        (handle_timeo_head s))

/-! ## Settings files -/

/-- The string a `char *` points to: the bytes before the first NUL. -/
def cstr (l : List u8) : List u8 := l.takeWhile (fun b => b != 0)

/-- The C `isspace` in the "C" locale. -/
def isspace (b : u8) : Bool := b.val = 32 ∨ (9 ≤ b.val ∧ b.val ≤ 13)

/-- Value of a hexadecimal digit. -/
def hexval (b : u8) : Option Nat :=
  if 48 ≤ b.val ∧ b.val ≤ 57 then some (b.val - 48)
  else if 65 ≤ b.val ∧ b.val ≤ 70 then some (b.val - 55)
  else if 97 ≤ b.val ∧ b.val ≤ 102 then some (b.val - 87)
  else none

/-- The longest run of hexadecimal digits at the head of the string, as a
number; `acc` is `none` until a digit has been seen. -/
def hex_digits : List u8 → Option Nat → Option Nat
  | [], acc => acc
  | b :: bs, acc =>
    match hexval b with
    | some d => hex_digits bs (some (16 * acc.getD 0 + d))
    | none => acc

/-- The subject sequence of `strtoul(.., 16)` and of the `%x` conversion: white
space, an optional sign, an optional `0x`, hexadecimal digits.  `none` when
there is no digit. -/
def scan_hex (str : List u8) : Option Int :=
  let s1 := str.dropWhile isspace
  let neg : Bool := match s1 with
    | b :: _ => b = c2b '-'
    | [] => false
  let s2 := match s1 with
    | b :: bs => if b = c2b '-' ∨ b = c2b '+' then bs else s1
    | [] => []
  let s3 := match s2 with
    | a :: b :: c :: rest =>
      if a = c2b '0' ∧ (b = c2b 'x' ∨ b = c2b 'X') ∧ (hexval c).isSome then c :: rest else s2
    | _ => s2
  (hex_digits s3 none).map (fun v => if neg then - (v : Int) else (v : Int))

/-- Library call `strtoul(str, NULL, 16)` on a 64-bit `unsigned long`. -/
def strtoul16 (str : List u8) : Nat :=
  match scan_hex str with
  | none => 0
  | some v => if v.natAbs ≥ 2 ^ 64 then 2 ^ 64 - 1 else (v % (2 ^ 64 : Int)).toNat

/-- Library call `sscanf(str, "%x", &value)`: the new `value` when the
conversion succeeds. -/
def sscanf_x (str : List u8) : Option Nat :=
  (scan_hex str).map (fun v => (v % (2 ^ 32 : Int)).toNat)

/-- The file name `SETFNAME` followed by at most 20 characters of `name`. -/
def fname (name : List u8) : List u8 :=
  ("sniffset.".toList.map c2b) ++ name.take 20

/-- Lines 700-706 of `writesettings`: the bytes written for slot `i`. -/
def settings_record (s : State) (i : Nat) : List u8 :=
  (([ '<' ] ++ padZero 3 (digits 16 i) ++ [ '>' ]
      ++ [ if is_set s i ENABLE then '1' else '0' ] ++ [ '.' ]).take 7).map c2b
    ++ outLoop 8 (fun j => ((padZero 2 (digits 16 ((s.sniftab i).notch.data j).val)).take 2).map c2b)
    ++ [c2b '\n']

/-- Lines 699-708 of `writesettings`: everything written to the file. -/
def settings_bytes (s : State) : List u8 :=
  outLoop 2048 (settings_record s)

/-- Function `writesettings(name)`.  `opened` tells whether `open` gave a
descriptor. -/
def writesettings (s : State) (name : List u8) (opened : Bool) : State :=
  if opened then
    { s with written := s.written ++ [(fname name, settings_bytes s)] }
  else
    emit s (text "unable to write setting file '" ++ (fname name).map (fun b => Item.chr (b2c b))
      ++ text "'!\n")

/-- Lines 744-748 of `readsettings`: one step of the loop over `j`, on the
notch frame and the read buffer. -/
def read_notch_byte (j : Nat) (nb : canfd_frame × List u8) : canfd_frame × List u8 :=
  ({ nb.1 with data := fun k =>
      if k = j then toU8 (strtoul16 (cstr (nb.2.drop (2 * j + 7)))) else nb.1.data k },
   nb.2.set (2 * j + 7) 0)

/-- Lines 744-748 of `readsettings`: the loop `for (j = 7; j >= 0; j--)`. -/
def read_notch (nb : canfd_frame × List u8) : canfd_frame × List u8 :=
  read_notch_byte 0 (read_notch_byte 1 (read_notch_byte 2 (read_notch_byte 3
    (read_notch_byte 4 (read_notch_byte 5 (read_notch_byte 6 (read_notch_byte 7 nb)))))))

/-- The state of the loop of `readsettings`: the program state, the unread rest
of the file and the 25 bytes of `buf`. -/
structure ReadLoop where
  st : State
  rest : List u8
  buf : List u8

/-- Lines 730-754 of `readsettings`: the body of the loop over the slots. -/
def readsettings_body (name : List u8) (sockfd : Int) (i : Nat) (r : ReadLoop) : ReadLoop :=
  let got := r.rest.take 24
  let buf1 := got ++ r.buf.drop got.length
  if got.length = 24 then
    let s1 :=
      if (buf1.getD 5 0).val &&& 1 ≠ 0 then
        (if is_clr r.st i ENABLE then do_set r.st i ENABLE else r.st)
      else
        (if is_set r.st i ENABLE then do_clr r.st i ENABLE else r.st)
    let nb := read_notch ((s1.sniftab i).notch, buf1)
    { st := set_snif s1 i { s1.sniftab i with notch := nb.1 },
      rest := r.rest.drop 24, buf := nb.2 }
  else
    { st := if sockfd = 0 then
              emit r.st (text "was only able to read until index " ++ fmt_ld 0 i
                ++ text " from setting file '" ++ (fname name).map (fun b => Item.chr (b2c b))
                ++ text "'!\n")
            else r.st,
      rest := r.rest.drop 24, buf := buf1 }

/-- Function `readsettings(name, sockfd)`.  `file` is the content of the named
file, `none` when it cannot be opened. -/
def readsettings (s : State) (name : List u8) (sockfd : Int) (file : Option (List u8)) : State :=
  match file with
  | none =>
    emit s (text "unable to read setting file '" ++ (fname name).map (fun b => Item.chr (b2c b))
      ++ text "'!\n")
  | some content =>
    let s1 := if sockfd = 0 then
        emit s (text "reading setting file '" ++ (fname name).map (fun b => Item.chr (b2c b))
          ++ text "' ... ")
      else s
    let r := forLoop 2048 (readsettings_body name sockfd)
      { st := s1, rest := content, buf := List.replicate 25 0 }
    if sockfd = 0 then emit r.st (text "done\n") else r.st

/-! ## `handle_keyb` -/

/-- What `handle_keyb` gets from outside: the bytes `read(0, cmd, 19)` stored
(`none` when the call failed), the indeterminate initial content of the local
`value`, whether `open` succeeds for a `w` command and the content of the file
named by an `r` command. -/
structure KeybEnv where
  rd : Option (List u8)
  uninit : Nat
  wopen : Bool
  rfile : Option (List u8)

/-- Lines 421-436: the filter loops of the commands `+` and `-`. -/
def filter_cmd (add : Bool) (mask value : Nat) (s : State) : State :=
  if add then
    forLoop 2048 (fun i st =>
      if (i &&& mask) = (value &&& mask) ∧ is_clr st i ENABLE then do_set st i ENABLE else st) s
  else
    forLoop 2048 (fun i st =>
      if (i &&& mask) = (value &&& mask) ∧ is_set st i ENABLE then do_clr st i ENABLE else st) s

/-- Lines 482-483: the loop of the command `*`. -/
def star_loop (n : Nat) (s : State) : State :=
  forLoop n (fun i st => set_snif st i { st.sniftab i with
    notch := U64_DATA_set (st.sniftab i).notch 0 }) s

/-- Lines 409-488: the `switch` on the first character of the command. -/
def handle_keyb_switch (s : State) (fd : Int) (cmd : List u8) (env : KeybEnv) : State :=
  match cmd with
  | [] => s
  | c :: arg =>
    if c = c2b '+' ∨ c = c2b '-' then
      let value0 := (sscanf_x arg).getD env.uninit
      let mask := if arg.length > 3 then value0 &&& 0xFFF else 0x7FF
      let value := if arg.length > 3 then value0 >>> 12 else value0
      filter_cmd (c = c2b '+') mask value s
    else if c = c2b 'w' then writesettings s arg env.wopen
    else if c = c2b 'r' then readsettings s arg fd env.rfile
    else if c = c2b 'q' then { s with running := 0 }
    else if c = c2b 'B' then
      { s with binary_gap := 1, binary := if s.binary ≠ 0 then 0 else 1 }
    else if c = c2b 'b' then
      { s with binary_gap := 0, binary := if s.binary ≠ 0 then 0 else 1 }
    else if c = c2b 'c' then { s with color := if s.color ≠ 0 then 0 else 1 }
    else if c = c2b '#' then { s with notch := 1 }
    else if c = c2b '*' then star_loop 2048 s
    else s

/-- Function `handle_keyb(fd)`.  The first component is the returned `int`. -/
def handle_keyb (s : State) (fd : Int) (env : KeybEnv) : Nat × State :=
  match env.rd with
  | none => (1, s)
  | some bytes =>
    if bytes.length > 8 then (1, s)
    else
      let cmd := (cstr bytes).dropLast
      (1, { handle_keyb_switch s fd cmd env with clearscreen := 1 })

/-! ## `main` -/

/-- What the options of the command line set before the loop starts. -/
structure Config where
  timeout : Int
  hold : Int
  loop : Int
  binary : Nat
  binary_gap : Nat
  color : Nat
  print_eff : Nat
  filter_id_only : Nat
  interface : List Item

/-- The state when `main` has enabled all identifiers and parsed its options
(without `-r`). -/
def init (c : Config) : State :=
  { sniftab := fun k => if k < 2048 then { zero_snif with flags := ENABLE } else zero_snif,
    running := 1, clearscreen := 1, print_eff := c.print_eff, notch := 0,
    filter_id_only := c.filter_id_only, timeout := c.timeout, hold := c.hold, loop := c.loop,
    binary := c.binary, binary_gap := c.binary_gap, color := c.color,
    interface := c.interface, frame_count := 0, lastcms := 0, stdout := [], written := [] }

/-- What one turn of the loop of `main` gets from outside. -/
structure Cycle where
  select_ret : Int
  currcms : Int
  keyb : Option KeybEnv
  nbytes : Int
  cf : canfd_frame
  stamp : timeval
  raw_ready : Bool

/-- Lines 360-388: one turn of `while (running)`; `fd` is the socket. -/
def main_cycle (s : State) (fd : Int) (c : Cycle) : State :=
  if s.running = 0 then s
  else if c.select_ret < 0 then { s with running := 0 }
  else
    let s1 := match c.keyb with
      | some env =>
        let r := handle_keyb s fd env
        { r.2 with running := r.2.running &&& r.1 }
      | none => s
    let s2 := if c.raw_ready then
        let r := handle_raw s1 c.nbytes c.cf c.stamp c.currcms
        { r.2 with running := r.2.running &&& r.1 }
      else s1
    if c.currcms - s2.lastcms ≥ s2.loop then
      let r := handle_timeo s2 c.currcms
      { r.2 with running := r.2.running &&& r.1, lastcms := c.currcms }
    else s2

/-- One event of a run: a command, a frame, a tick or a settings file read at
start-up (option `-r`, `sockfd` 0). -/
inductive Event where
  | keyb (fd : Int) (env : KeybEnv)
  | raw (nbytes : Int) (cf : canfd_frame) (stamp : timeval) (currcms : Int)
  | timeo (currcms : Int)
  | rdset (name : List u8) (file : Option (List u8))

/-- The state after one event. -/
def step (s : State) : Event → State
  | Event.keyb fd env => (handle_keyb s fd env).2
  | Event.raw nbytes cf stamp currcms => (handle_raw s nbytes cf stamp currcms).2
  | Event.timeo currcms => (handle_timeo s currcms).2
  | Event.rdset name file => readsettings s name 0 file

/-- The state after a sequence of events, first event first. -/
def run (s : State) : List Event → State
  | [] => s
  | e :: es => run (step s e) es

/-! ## The handlers on one table element -/

/-- What `handle_raw` makes of the table element of an accepted frame. -/
def raw_entry (timeout : Int) (cf : canfd_frame) (stamp : timeval) (currcms : Int)
    (e : snif) : snif :=
  { e with
    flags := (e.flags ||| DISPLAY) ||| UPDATE
    currstamp := stamp
    current := cf
    marker := U64_DATA_set e.marker (U64_DATA e.marker ||| (U64_DATA cf ^^^ U64_DATA e.last))
    timeout := if timeout ≠ 0 then currcms + timeout else 0 }

/-- Lines 567-579 on one displayed table element: rendered on update or forced
redraw, rendered with a cleared marker when the hold time is over, else left. -/
def timeo_render (hold currcms : Int) (force_redraw : Nat) (e : snif) : snif :=
  if e.flags &&& UPDATE ≠ 0 ∨ force_redraw ≠ 0 then
    { e with
      marker := U64_DATA_set e.marker 0
      hold := currcms + hold
      flags := e.flags &&& (0xFFFFFFFF ^^^ UPDATE) }
  else if e.hold ≠ 0 ∧ e.hold < currcms then
    { e with marker := U64_DATA_set (U64_DATA_set e.marker 0) 0, hold := 0 }
  else e

/-- Lines 581-585 on one table element: the timeout check. -/
def timeo_expire (currcms : Int) (e : snif) : snif :=
  if e.timeout ≠ 0 ∧ e.timeout < currcms then
    { e with flags := (e.flags &&& (0xFFFFFFFF ^^^ DISPLAY)) &&& (0xFFFFFFFF ^^^ UPDATE) }
  else e

/-- Lines 563-589 on one table element. -/
def timeo_entry (hold currcms : Int) (force_redraw : Nat) (e : snif) : snif :=
  if e.flags &&& ENABLE ≠ 0 then
    let e3 := if e.flags &&& DISPLAY ≠ 0 then
        timeo_expire currcms (timeo_render hold currcms force_redraw e) else e
    { e3 with last := e3.current, laststamp := e3.currstamp }
  else e

/-- Lines 552-553 on one table element: the marker is folded into the notch. -/
def notch_fold (e : snif) : snif :=
  { e with notch := U64_DATA_set e.notch (U64_DATA e.notch ||| U64_DATA e.marker) }

/-- What a command or a settings file may change in a table element: the
`ENABLE` bit and the first eight bytes of the notch. -/
def same_but_filter (e e' : snif) : Prop :=
  e' = { e with flags := e'.flags, notch := e'.notch }
    ∧ e'.flags &&& DISPLAY = e.flags &&& DISPLAY
    ∧ e'.flags &&& UPDATE = e.flags &&& UPDATE
    ∧ ∀ i, 8 ≤ i → e'.notch.data i = e.notch.data i

/-- Lines 421-436 on table element `i`. -/
def filter_entry (add : Bool) (mask value i : Nat) (e : snif) : snif :=
  if add then
    (if (i &&& mask) = (value &&& mask) ∧ e.flags &&& ENABLE = 0 then
      { e with flags := e.flags ||| ENABLE } else e)
  else
    (if (i &&& mask) = (value &&& mask) ∧ e.flags &&& ENABLE ≠ 0 then
      { e with flags := e.flags &&& (0xFFFFFFFF ^^^ ENABLE) } else e)

/-- Lines 482-483 on one table element. -/
def notch_clear (e : snif) : snif :=
  { e with notch := U64_DATA_set e.notch 0 }

/-- Lines 731-748 on table element `i`, `buf` holding the record read. -/
def read_entry (buf : List u8) (e : snif) : snif :=
  { e with
    flags := if (buf.getD 5 0).val &&& 1 ≠ 0 then
        (if e.flags &&& ENABLE = 0 then e.flags ||| ENABLE else e.flags)
      else
        (if e.flags &&& ENABLE ≠ 0 then e.flags &&& (0xFFFFFFFF ^^^ ENABLE) else e.flags)
    notch := (read_notch (e.notch, buf)).1 }

/-- Bytes 8 to 63 of marker and notch are never written: they stay zero. -/
def tail_zero (e : snif) : Prop :=
  ∀ i, 8 ≤ i → e.marker.data i = 0 ∧ e.notch.data i = 0

/-! ## Settling the claims: inputs and reference functions -/

/-- The settings of `main` when no option is given, for an interface `can0`. -/
def default_config : Config :=
  { timeout := TIMEOUT, hold := HOLD, loop := LOOP, binary := 0, binary_gap := 0, color := 0,
    print_eff := 0, filter_id_only := 0, interface := text "can0 " }

/-- The frames of a sequence of events that `handle_raw` accepts for table
element `id`, in order of arrival. -/
def frames_for (id : Nat) : List Event → List canfd_frame
  | [] => []
  | Event.raw nbytes cf _ _ :: es =>
    if (nbytes = CAN_MTU ∨ nbytes = CANFD_MTU) ∧ cf.can_id &&& 0x7FF = id then
      cf :: frames_for id es
    else frames_for id es
  | _ :: es => frames_for id es

/-- Whether an event is a tick. -/
def is_tick : Event → Bool
  | Event.timeo _ => true
  | _ => false

/-- Byte `i` of the accumulated difference of consecutive payloads: the OR over
the frames of `frame XOR frame before it`, the first frame being compared with
`prev`. -/
def xor_chain (i : Nat) : canfd_frame → List canfd_frame → Nat
  | _, [] => 0
  | prev, f :: fs => ((f.data i).val ^^^ (prev.data i).val) ||| xor_chain i f fs

/-- Byte `i` of what the code accumulates: the OR over the frames of
`frame XOR p0`, every frame being compared with the same snapshot `p0`. -/
def xor_fixed (i : Nat) (p0 : canfd_frame) : List canfd_frame → Nat
  | [] => 0
  | f :: fs => ((f.data i).val ^^^ (p0.data i).val) ||| xor_fixed i p0 fs

/-- A CAN FD frame of nine bytes for identifier 0x123 whose byte 8 is 1. -/
def fd_frame9 : canfd_frame :=
  { can_id := 0x123, len := 9, flags := 0, res0 := 0, res1 := 0,
    data := fun i => if i = 8 then 1 else 0 }

/-- A frame of eight bytes for identifier 0x123 whose byte 5 is 0xFF. -/
def frame8 : canfd_frame :=
  { can_id := 0x123, len := 8, flags := 0, res0 := 0, res1 := 0,
    data := fun i => if i = 5 then 255 else 0 }

/-- A frame of three zero bytes for identifier 0x123, zero padded. -/
def frame3 : canfd_frame :=
  { can_id := 0x123, len := 3, flags := 0, res0 := 0, res1 := 0, data := fun _ => 0 }

/-- The state in which identifier 0x123 was seen with eight bytes and a tick
has printed the row. -/
def shrink_state : State :=
  (handle_timeo (handle_raw (init default_config) CAN_MTU frame8 ⟨0, 0⟩ 0).2 1).2

/-- The output has nothing in the attention style: `ATTCOLOR` is not sent. -/
def plain (l : List Item) : Prop := Item.ctl Ctl.ATTCOLOR ∉ l

/-- The line that `print_snifline` prints for element `id`. -/
def print_snifline_line (s : State) (id : Nat) : List Item :=
  print_snifline_head s id ++ print_snifline_data s id ++ [Item.chr '\n']

/-- The command line `c`, `ENTER` typed at the keyboard. -/
def keyb_c : KeybEnv :=
  { rd := some [c2b 'c', c2b '\n'], uninit := 0, wopen := true, rfile := none }

/-- The display settings of a state: colour, binary mode, gap, extended
identifiers. -/
def display_of (s : State) : Nat × Nat × Nat × Nat :=
  (s.color, s.binary, s.binary_gap, s.print_eff)

/-- A frame of one byte for identifier 0x123: 0x01. -/
def frame_01 : canfd_frame :=
  { can_id := 0x123, len := 1, flags := 0, res0 := 0, res1 := 0,
    data := fun i => if i = 0 then 1 else 0 }

/-- A frame of one byte for identifier 0x123: 0x02. -/
def frame_02 : canfd_frame :=
  { can_id := 0x123, len := 1, flags := 0, res0 := 0, res1 := 0,
    data := fun i => if i = 0 then 2 else 0 }

/-- The command line `#`, `ENTER` typed at the keyboard. -/
def keyb_notch : KeybEnv :=
  { rd := some [c2b '#', c2b '\n'], uninit := 0, wopen := true, rfile := none }

/-- Colour on (option `-c`); byte 0x01 arrives for 0x123, the operator notches
the changed bit, a tick folds the notch and prints the row, then byte 0x02
arrives: bits 0 and 1 are marked, bit 0 is notched. -/
def notched_state : State :=
  (handle_raw
    (handle_timeo
      (handle_keyb
        (handle_raw (init { default_config with color := 1 }) CAN_MTU frame_01 ⟨0, 0⟩ 0).2
        3 keyb_notch).2
      1).2
    CAN_MTU frame_02 ⟨0, 0⟩ 2).2

/-- The number a string of hexadecimal digits denotes. -/
def hex_number (ds : List u8) : Nat :=
  ds.foldl (fun acc d => 16 * acc + (hexval d).getD 0) 0

/-- The value of a filter command: the digits above the last three when more
than three digits are given, else the digits. -/
def filter_value (ds : List u8) : Nat :=
  if ds.length > 3 then hex_number (ds.take (ds.length - 3)) else hex_number ds

/-- The mask of a filter command: the low 12 bits of the digits when more than
three digits are given, else 0x7FF. -/
def filter_mask (ds : List u8) : Nat :=
  if ds.length > 3 then hex_number ds % 4096 else 0x7FF

/-- The digits `400600`. -/
def digits_400600 : List u8 := [c2b '4', c2b '0', c2b '0', c2b '6', c2b '0', c2b '0']

/-- The digits `500700`. -/
def digits_500700 : List u8 := [c2b '5', c2b '0', c2b '0', c2b '7', c2b '0', c2b '0']

/-- The digits `1F5`. -/
def digits_1F5 : List u8 := [c2b '1', c2b 'F', c2b '5']

/-- The digits `42E`. -/
def digits_42E : List u8 := [c2b '4', c2b '2', c2b 'E']

/-- The digits `42E7FF`. -/
def digits_42E7FF : List u8 := [c2b '4', c2b '2', c2b 'E', c2b '7', c2b 'F', c2b 'F']

/-- The digits `0000000`: seven of them. -/
def digits_0000000 : List u8 :=
  [c2b '0', c2b '0', c2b '0', c2b '0', c2b '0', c2b '0', c2b '0']

/-- The command line `+400600`, `ENTER` typed at the keyboard. -/
def keyb_plus_400600 : KeybEnv :=
  { rd := some (c2b (if true = true then '+' else '-') :: digits_400600 ++ [c2b '\n']),
    uninit := 0, wopen := true, rfile := none }

/-- The command line `-0000000`, `ENTER` typed at the keyboard: nine bytes. -/
def keyb_minus_0000000 : KeybEnv :=
  { rd := some (c2b '-' :: digits_0000000 ++ [c2b '\n']),
    uninit := 0, wopen := true, rfile := none }

/-- The two hexadecimal digits `%02X` prints for a byte. -/
def hexpair (b : u8) : List u8 :=
  [c2b (digitChar (b.val / 16)), c2b (digitChar (b.val % 16))]

/-- The settings of `main` for option `-t 0`: no timeout. -/
def zero_timeout_config : Config :=
  { default_config with timeout := 0 }

/-- The operator types `*` and return. -/
def keyb_star : KeybEnv :=
  { rd := some [c2b '*', c2b '\n'], uninit := 0, wopen := true, rfile := none }

/-- A frame for 0x123, the command `#` and a tick: the changed bits of 0x123
are notched. -/
def notch_events : List Event :=
  [Event.raw CAN_MTU frame_01 ⟨0, 0⟩ 0, Event.keyb 3 keyb_notch, Event.timeo 1]

/-- The characters of a piece of output, in order: what takes a column of the
screen.  The escape sequences take none. -/
def visible : List Item → List Char
  | [] => []
  | Item.chr c :: l => c :: visible l
  | Item.ctl _ :: l => visible l

/-- The number of screen columns of a piece of output. -/
def cols (l : List Item) : Nat := (visible l).length

/-- A CAN FD frame of twelve bytes `A` for identifier 0x123. -/
def fd_frame12 : canfd_frame :=
  { can_id := 0x123, len := 12, flags := 0, res0 := 0, res1 := 0,
    data := fun i => if i < 12 then 0x41 else 0 }

/-- The twelve byte frame has arrived for 0x123: the state in which the next
tick renders its row. -/
def long_state : State :=
  (handle_raw (init default_config) CANFD_MTU fd_frame12 ⟨0, 0⟩ 0).2

/-- The tick has rendered the row of the twelve byte frame, and a frame of
three zero bytes has arrived for 0x123: the state in which the next tick
renders the row again. -/
def short_state : State :=
  (handle_raw (handle_timeo long_state 1).2 CAN_MTU frame3 ⟨0, 0⟩ 2).2

/-- The eight byte frame has arrived for 0x123: the state in which the next
tick renders its row. -/
def full_state : State :=
  (handle_raw (init default_config) CAN_MTU frame8 ⟨0, 0⟩ 0).2

/-- The tick has rendered the row of the eight byte frame, and a frame of three
bytes has arrived for 0x123. -/
def shrunk_state : State :=
  (handle_raw shrink_state CAN_MTU frame3 ⟨1, 0⟩ 2).2

/-- What the loop of `handle_timeo` prints in its turn `i`, started in state
`s`: the row of an element that is enabled and displayed (rendered, or skipped
with `CSR_DOWN`), nothing for any other element. -/
def tick_row (currcms : Int) (force_redraw : Nat) (s : State) (i : Nat) : List Item :=
  if is_set s i ENABLE = true ∧ is_set s i DISPLAY = true then
    if is_set s i UPDATE = true ∨ force_redraw ≠ 0 then print_snifline_line s i
    else if (s.sniftab i).hold ≠ 0 ∧ (s.sniftab i).hold < currcms then
      print_snifline_line
        (set_snif s i { s.sniftab i with marker := U64_DATA_set (s.sniftab i).marker 0 }) i
    else [Item.ctl Ctl.CSR_DOWN]
  else []

/-- The digits `123`. -/
def digits_123 : List u8 := [c2b '1', c2b '2', c2b '3']

/-- The command line `-123`, `ENTER` typed at the keyboard. -/
def keyb_minus_123 : KeybEnv :=
  { rd := some (c2b '-' :: digits_123 ++ [c2b '\n']), uninit := 0, wopen := true, rfile := none }

/-- The operator disables 0x123, then a frame of eight bytes arrives for
0x123. -/
def hidden_events : List Event :=
  [Event.keyb 3 keyb_minus_123, Event.raw CAN_MTU frame8 ⟨0, 0⟩ 0]

/-- A frame of three zero bytes with the extended identifier 0x923. -/
def eff_frame : canfd_frame :=
  { can_id := 0x80000923, len := 3, flags := 0, res0 := 0, res1 := 0, data := fun _ => 0 }

/-- A turn of the loop of `main` in which the read of the socket gives 5 bytes
(of a frame of three zero bytes for 0x123), at time 7. -/
def fault_cycle : Cycle :=
  { select_ret := 1, currcms := 7, keyb := none, nbytes := 5, cf := frame3, stamp := ⟨1, 0⟩,
    raw_ready := true }

/-- Lines 598-611 of `print_snifline`: the seconds of the time field, from the
stamp of the previous frame and the stamp of the current frame. -/
def diff_sec (last curr : timeval) : Int :=
  let diffsec0 : Int := wrap_long (curr.tv_sec - last.tv_sec)
  let diffusec0 : Int := wrap_long (curr.tv_usec - last.tv_usec)
  let diffsec1 := if diffusec0 < 0 then wrap_long (diffsec0 - 1) else diffsec0
  let diffsec2 := if diffsec1 < 0 then 0 else diffsec1
  if diffsec2 ≥ 100 then 99 else diffsec2

/-- Lines 598-611 of `print_snifline`: the microseconds of the time field. -/
def diff_usec (last curr : timeval) : Int :=
  let diffsec0 : Int := wrap_long (curr.tv_sec - last.tv_sec)
  let diffusec0 : Int := wrap_long (curr.tv_usec - last.tv_usec)
  let diffsec1 := if diffusec0 < 0 then wrap_long (diffsec0 - 1) else diffsec0
  let diffusec1 := if diffusec0 < 0 then wrap_long (diffusec0 + 1000000) else diffusec0
  let diffsec2 := if diffsec1 < 0 then 0 else diffsec1
  let diffusec2 := if diffsec1 < 0 then 0 else diffusec1
  if diffsec2 ≥ 100 then 999999 else diffusec2

/-- The time from one stamp to another, in microseconds. -/
def elapsed_usec (last curr : timeval) : Int :=
  (curr.tv_sec - last.tv_sec) * 1000000 + (curr.tv_usec - last.tv_usec)

/-- Two decimal digits for `sec` and three for `ms`. -/
def time_digits (sec ms : Nat) : List Char :=
  [Char.ofNat (48 + sec / 10), Char.ofNat (48 + sec % 10), Char.ofNat (48 + ms / 100),
    Char.ofNat (48 + ms / 10 % 10), Char.ofNat (48 + ms % 10)]

/-- A frame of eight bytes for 0x123 arrives with the stamp 1 s, a tick
renders its row, and a frame of three bytes arrives with the stamp -2^63 s,
the smallest second a `long` holds. -/
def wrapped_state : State :=
  (handle_raw (handle_timeo (handle_raw (init default_config) CAN_MTU frame8 ⟨1, 0⟩ 0).2 1).2
    CAN_MTU frame3 ⟨-9223372036854775808, 0⟩ 2).2

/-! ## The data word, byte by byte -/

theorem shift_or_byte (x y k : Nat) :
    ((x ||| y) >>> k) % 256 = ((x >>> k) % 256) ||| ((y >>> k) % 256) := by
  apply Nat.eq_of_testBit_eq
  intro j
  have h : (256 : Nat) = 2 ^ 8 := by norm_num
  simp only [h, Nat.testBit_mod_two_pow, Nat.testBit_or, Nat.testBit_shiftRight,
    Bool.and_or_distrib_left]

theorem shift_xor_byte (x y k : Nat) :
    ((x ^^^ y) >>> k) % 256 = ((x >>> k) % 256) ^^^ ((y >>> k) % 256) := by
  apply Nat.eq_of_testBit_eq
  intro j
  have h : (256 : Nat) = 2 ^ 8 := by norm_num
  simp only [h, Nat.testBit_mod_two_pow, Nat.testBit_xor, Nat.testBit_shiftRight]
  cases decide (j < 8) <;> simp

theorem word_byte (b0 b1 b2 b3 b4 b5 b6 b7 : Nat) (h0 : b0 < 256) (h1 : b1 < 256)
    (h2 : b2 < 256) (h3 : b3 < 256) (h4 : b4 < 256) (h5 : b5 < 256) (h6 : b6 < 256)
    (h7 : b7 < 256) (i : Nat) (hi : i < 8) :
    ((b0 + 256 * (b1 + 256 * (b2 + 256 * (b3 + 256 * (b4 + 256 * (b5 + 256 * (b6
        + 256 * b7))))))) >>> (8 * i)) % 256
      = if i = 0 then b0 else if i = 1 then b1 else if i = 2 then b2 else if i = 3 then b3
        else if i = 4 then b4 else if i = 5 then b5 else if i = 6 then b6 else b7 := by
  interval_cases i <;> simp [Nat.shiftRight_eq_div_pow] <;> omega

/-- Reading byte `i` of the data word gives `data[i]`. -/
theorem U64_DATA_byte (p : canfd_frame) (i : Nat) (hi : i < 8) :
    (U64_DATA p >>> (8 * i)) % 256 = (p.data i).val := by
  unfold U64_DATA
  rw [word_byte _ _ _ _ _ _ _ _ (p.data 0).isLt (p.data 1).isLt (p.data 2).isLt
    (p.data 3).isLt (p.data 4).isLt (p.data 5).isLt (p.data 6).isLt (p.data 7).isLt i hi]
  interval_cases i <;> simp

theorem U64_DATA_set_lt (p : canfd_frame) (w i : Nat) (hi : i < 8) :
    ((U64_DATA_set p w).data i).val = (w >>> (8 * i)) % 256 := by
  simp [U64_DATA_set, hi, toU8]

theorem U64_DATA_set_ge (p : canfd_frame) (w i : Nat) (hi : 8 ≤ i) :
    (U64_DATA_set p w).data i = p.data i := by
  have : ¬ i < 8 := by omega
  simp [U64_DATA_set, this]

/-- The assignment `U64_DATA(m) |= U64_DATA(c) ^ U64_DATA(l)` on byte `i < 8`. -/
theorem marker_update_byte (m c l : canfd_frame) (i : Nat) (hi : i < 8) :
    ((U64_DATA_set m (U64_DATA m ||| (U64_DATA c ^^^ U64_DATA l))).data i).val
      = (m.data i).val ||| ((c.data i).val ^^^ (l.data i).val) := by
  rw [U64_DATA_set_lt _ _ _ hi, shift_or_byte, shift_xor_byte, U64_DATA_byte _ _ hi,
    U64_DATA_byte _ _ hi, U64_DATA_byte _ _ hi]

/-- The assignment `U64_DATA(n) |= U64_DATA(m)` on byte `i < 8`. -/
theorem notch_update_byte (n m : canfd_frame) (i : Nat) (hi : i < 8) :
    ((U64_DATA_set n (U64_DATA n ||| U64_DATA m)).data i).val
      = (n.data i).val ||| (m.data i).val := by
  rw [U64_DATA_set_lt _ _ _ hi, shift_or_byte, U64_DATA_byte _ _ hi, U64_DATA_byte _ _ hi]

/-- The assignment `U64_DATA(p) = 0` zeroes byte `i < 8`. -/
theorem zero_update_byte (p : canfd_frame) (i : Nat) (hi : i < 8) :
    (U64_DATA_set p 0).data i = 0 := by
  apply Fin.ext
  rw [U64_DATA_set_lt _ _ _ hi]
  simp

/-! ## Frame ingestion, entry by entry -/

theorem handle_raw_sniftab (s : State) (nbytes : Int) (cf : canfd_frame) (stamp : timeval)
    (currcms : Int) (h : nbytes = CAN_MTU ∨ nbytes = CANFD_MTU) (k : Nat) :
    (handle_raw s nbytes cf stamp currcms).2.sniftab k
      = if k = cf.can_id &&& 0x7FF then raw_entry s.timeout cf stamp currcms (s.sniftab k)
        else s.sniftab k := by
  have h0 : ¬ nbytes < 0 := by rcases h with h | h <;> simp [h, CAN_MTU, CANFD_MTU]
  have h1 : ¬ (nbytes ≠ CAN_MTU ∧ nbytes ≠ CANFD_MTU) := by tauto
  by_cases hp : s.print_eff = 0 ∧ cf.can_id &&& CAN_EFF_FLAG ≠ 0 <;>
  by_cases hd : (s.sniftab (cf.can_id &&& 0x7FF)).flags &&& DISPLAY = 0 <;>
  by_cases hk : k = cf.can_id &&& 0x7FF <;>
  simp [handle_raw, h0, h1, hp, hd, hk, is_clr, do_set, set_snif, raw_entry]

/-! ## Loops over the table -/

theorem forLoop_inv {σ : Type} (P : σ → Prop) (body : Nat → σ → σ)
    (hb : ∀ i st, P st → P (body i st)) (n : Nat) (s : σ) (h : P s) :
    P (forLoop n body s) := by
  induction n with
  | zero => exact h
  | succ n ih => exact hb n _ ih

/-- A loop whose body rewrites element `i` of the table by `F i`, as long as
`P` holds, rewrites the elements below the bound and no other. -/
theorem forLoop_sniftab (P : State → Prop) (body : Nat → State → State)
    (F : Nat → snif → snif) (hP : ∀ i st, P st → P (body i st))
    (hb : ∀ i st k, P st →
      (body i st).sniftab k = if k = i then F i (st.sniftab i) else st.sniftab k)
    (n : Nat) (s : State) (h : P s) (k : Nat) :
    (forLoop n body s).sniftab k = if k < n then F k (s.sniftab k) else s.sniftab k := by
  induction n with
  | zero => simp [forLoop]
  | succ n ih =>
    have hPn : P (forLoop n body s) := forLoop_inv P body hP n s h
    show (body n (forLoop n body s)).sniftab k = _
    rw [hb n _ k hPn]
    by_cases hk : k = n
    · subst hk
      simp [ih]
    · have : k < n + 1 ↔ k < n := by omega
      simp [hk, ih, this]

/-- A relation between table elements that every turn of a loop respects is
respected by the loop. -/
theorem forLoop_rel {σ : Type} (tab : σ → Nat → snif) (R : snif → snif → Prop)
    (hrefl : ∀ e, R e e) (htrans : ∀ a b c, R a b → R b c → R a c)
    (body : Nat → σ → σ) (hb : ∀ i st k, R (tab st k) (tab (body i st) k))
    (n : Nat) (s : σ) (k : Nat) : R (tab s k) (tab (forLoop n body s) k) := by
  induction n with
  | zero => exact hrefl _
  | succ n ih => exact htrans _ _ _ ih (hb n _ k)

theorem forLoop_zero {σ : Type} (body : Nat → σ → σ) (s : σ) : forLoop 0 body s = s := rfl

theorem forLoop_succ {σ : Type} (n : Nat) (body : Nat → σ → σ) (s : σ) :
    forLoop (n + 1) body s = body n (forLoop n body s) := rfl

theorem outLoop_length {α : Type} (n : Nat) (f : Nat → List α) (len : Nat)
    (h : ∀ i, (f i).length = len) : (outLoop n f).length = len * n := by
  induction n with
  | zero => rfl
  | succ n ih =>
    show (outLoop n f ++ f n).length = _
    rw [List.length_append, ih, h n, Nat.mul_succ]

/-- The output of a loop whose turns all print `len` items, cut after `i`
turns, starts with what turn `i` prints. -/
theorem outLoop_drop {α : Type} (n : Nat) (f : Nat → List α) (len : Nat)
    (h : ∀ i, (f i).length = len) (i : Nat) (hi : i < n) :
    (outLoop n f).drop (len * i) = f i ++ (outLoop n f).drop (len * (i + 1)) := by
  induction n with
  | zero => exact absurd hi (Nat.not_lt_zero i)
  | succ n ih =>
    show (outLoop n f ++ f n).drop (len * i) = f i ++ (outLoop n f ++ f n).drop (len * (i + 1))
    have hl := outLoop_length n f len h
    by_cases hin : i < n
    · have h1 : len * i ≤ (outLoop n f).length := by
        rw [hl]
        exact Nat.mul_le_mul_left len (Nat.le_of_lt hin)
      have h2 : len * (i + 1) ≤ (outLoop n f).length := by
        rw [hl]
        exact Nat.mul_le_mul_left len hin
      rw [List.drop_append_of_le_length h1, List.drop_append_of_le_length h2, ih hin,
        List.append_assoc]
    · have hn : i = n := by omega
      rw [hn]
      have h1 : len * n = (outLoop n f).length := hl.symm
      have h2 : len * (n + 1) = (outLoop n f ++ f n).length := by
        rw [List.length_append, hl, h n, Nat.mul_succ]
      rw [h1, List.drop_left, h2, List.drop_length, List.append_nil]

attribute [irreducible] forLoop

/-! ## Flag bits -/

theorem and_or_flag (f a b : Nat) (h : a &&& b = 0) : (f ||| a) &&& b = f &&& b := by
  apply Nat.eq_of_testBit_eq
  intro j
  have hj := congrArg (fun x => Nat.testBit x j) h
  simp only [Nat.testBit_and, Nat.zero_testBit] at hj
  simp only [Nat.testBit_or, Nat.testBit_and]
  cases f.testBit j <;> cases ha : a.testBit j <;> cases hb : b.testBit j <;> simp_all

theorem and_clr_flag (f a b : Nat) (h : (0xFFFFFFFF ^^^ a) &&& b = b) :
    (f &&& (0xFFFFFFFF ^^^ a)) &&& b = f &&& b := by
  rw [Nat.and_assoc, h]

theorem and_clr_same (f a : Nat) (h : (0xFFFFFFFF ^^^ a) &&& a = 0) :
    (f &&& (0xFFFFFFFF ^^^ a)) &&& a = 0 := by
  rw [Nat.and_assoc, h, Nat.and_zero]

theorem or_and_same (f a : Nat) : (f ||| a) &&& a = a := by
  apply Nat.eq_of_testBit_eq
  intro j
  simp only [Nat.testBit_or, Nat.testBit_and]
  cases f.testBit j <;> cases a.testBit j <;> rfl

/-! ## The tick, entry by entry -/

theorem print_snifline_sniftab (s : State) (id k : Nat) :
    (print_snifline s id).sniftab k
      = if k = id then { s.sniftab id with marker := U64_DATA_set (s.sniftab id).marker 0 }
        else s.sniftab k := by
  simp [print_snifline, set_snif, emit]

theorem handle_timeo_draw_sniftab (currcms : Int) (force_redraw i : Nat) (s : State) (k : Nat) :
    (handle_timeo_draw currcms force_redraw i s).sniftab k
      = if k = i then timeo_render s.hold currcms force_redraw (s.sniftab i)
        else s.sniftab k := by
  by_cases hU : (s.sniftab i).flags &&& UPDATE = 0 <;>
  by_cases hF : force_redraw = 0 <;>
  by_cases hH : (s.sniftab i).hold ≠ 0 ∧ (s.sniftab i).hold < currcms <;>
  by_cases hk : k = i <;>
  simp [handle_timeo_draw, timeo_render, hU, hF, hH, hk,
    is_set, do_clr, set_snif, print_snifline, emit]

theorem handle_timeo_expire_sniftab (currcms : Int) (i : Nat) (s : State) (k : Nat) :
    (handle_timeo_expire currcms i s).sniftab k
      = if k = i then timeo_expire currcms (s.sniftab i) else s.sniftab k := by
  by_cases hT : (s.sniftab i).timeout ≠ 0 ∧ (s.sniftab i).timeout < currcms <;>
  by_cases hk : k = i <;>
  simp [handle_timeo_expire, timeo_expire, hT, hk, do_clr, set_snif]

theorem handle_timeo_draw_hold (currcms : Int) (force_redraw i : Nat) (s : State) :
    (handle_timeo_draw currcms force_redraw i s).hold = s.hold := by
  unfold handle_timeo_draw
  split_ifs <;> rfl

theorem handle_timeo_draw_timeout (currcms : Int) (force_redraw i : Nat) (s : State) :
    (handle_timeo_draw currcms force_redraw i s).timeout = s.timeout := by
  unfold handle_timeo_draw
  split_ifs <;> rfl

theorem handle_timeo_draw_notch (currcms : Int) (force_redraw i : Nat) (s : State) :
    (handle_timeo_draw currcms force_redraw i s).notch = s.notch := by
  unfold handle_timeo_draw
  split_ifs <;> rfl

theorem handle_timeo_expire_hold (currcms : Int) (i : Nat) (s : State) :
    (handle_timeo_expire currcms i s).hold = s.hold := by
  unfold handle_timeo_expire
  split_ifs <;> rfl

theorem handle_timeo_expire_timeout (currcms : Int) (i : Nat) (s : State) :
    (handle_timeo_expire currcms i s).timeout = s.timeout := by
  unfold handle_timeo_expire
  split_ifs <;> rfl

theorem handle_timeo_expire_notch (currcms : Int) (i : Nat) (s : State) :
    (handle_timeo_expire currcms i s).notch = s.notch := by
  unfold handle_timeo_expire
  split_ifs <;> rfl

theorem handle_timeo_body_sniftab (currcms : Int) (force_redraw i : Nat) (s : State) (k : Nat) :
    (handle_timeo_body currcms force_redraw i s).sniftab k
      = if k = i then timeo_entry s.hold currcms force_redraw (s.sniftab i)
        else s.sniftab k := by
  by_cases hE : (s.sniftab i).flags &&& ENABLE = 0 <;>
  by_cases hD : (s.sniftab i).flags &&& DISPLAY = 0 <;>
  by_cases hk : k = i <;>
  simp [handle_timeo_body, timeo_entry, hE, hD, hk, is_set, set_snif,
    handle_timeo_expire_sniftab, handle_timeo_draw_sniftab]

theorem handle_timeo_body_hold (currcms : Int) (force_redraw i : Nat) (s : State) :
    (handle_timeo_body currcms force_redraw i s).hold = s.hold := by
  unfold handle_timeo_body
  split_ifs
  · exact (handle_timeo_expire_hold _ _ _).trans (handle_timeo_draw_hold _ _ _ _)
  · rfl
  · rfl

theorem handle_timeo_body_timeout (currcms : Int) (force_redraw i : Nat) (s : State) :
    (handle_timeo_body currcms force_redraw i s).timeout = s.timeout := by
  unfold handle_timeo_body
  split_ifs
  · exact (handle_timeo_expire_timeout _ _ _).trans (handle_timeo_draw_timeout _ _ _ _)
  · rfl
  · rfl

theorem handle_timeo_body_notch (currcms : Int) (force_redraw i : Nat) (s : State) :
    (handle_timeo_body currcms force_redraw i s).notch = s.notch := by
  unfold handle_timeo_body
  split_ifs
  · exact (handle_timeo_expire_notch _ _ _).trans (handle_timeo_draw_notch _ _ _ _)
  · rfl
  · rfl

theorem handle_timeo_notch_sniftab (s : State) (k : Nat) :
    (handle_timeo_notch s).sniftab k
      = if s.notch ≠ 0 ∧ k < 2048 then notch_fold (s.sniftab k) else s.sniftab k := by
  unfold handle_timeo_notch
  by_cases hn : s.notch = 0
  · simp [hn]
  · simp only [hn, ne_eq, not_false_eq_true, if_true, true_and]
    exact forLoop_sniftab (fun _ => True)
      (fun i st => set_snif st i { st.sniftab i with
        notch := U64_DATA_set (st.sniftab i).notch
          (U64_DATA (st.sniftab i).notch ||| U64_DATA (st.sniftab i).marker) })
      (fun _ e => notch_fold e) (fun _ _ _ => trivial)
      (fun i st k _ => by simp [set_snif, notch_fold]) 2048 s trivial k

theorem handle_timeo_notch_hold (s : State) : (handle_timeo_notch s).hold = s.hold := by
  unfold handle_timeo_notch
  split_ifs
  · apply forLoop_inv (fun st : State => st.hold = s.hold)
    · intro i st h
      exact h
    · rfl
  · rfl

theorem handle_timeo_notch_timeout (s : State) :
    (handle_timeo_notch s).timeout = s.timeout := by
  unfold handle_timeo_notch
  split_ifs
  · apply forLoop_inv (fun st : State => st.timeout = s.timeout)
    · intro i st h
      exact h
    · rfl
  · rfl

theorem handle_timeo_notch_notch (s : State) : (handle_timeo_notch s).notch = 0 := by
  unfold handle_timeo_notch
  split_ifs with h
  · rfl
  · simpa using h

theorem handle_timeo_head_sniftab (s : State) (k : Nat) :
    (handle_timeo_head s).sniftab k
      = if s.notch ≠ 0 ∧ k < 2048 then notch_fold (s.sniftab k) else s.sniftab k := by
  unfold handle_timeo_head
  simp only [emit]
  rw [handle_timeo_notch_sniftab]
  by_cases hc : s.clearscreen = 0 <;> simp [hc]

theorem handle_timeo_head_hold (s : State) : (handle_timeo_head s).hold = s.hold := by
  unfold handle_timeo_head
  simp only [emit]
  rw [handle_timeo_notch_hold]
  split_ifs <;> rfl

theorem handle_timeo_head_timeout (s : State) : (handle_timeo_head s).timeout = s.timeout := by
  unfold handle_timeo_head
  simp only [emit]
  rw [handle_timeo_notch_timeout]
  split_ifs <;> rfl

theorem handle_timeo_head_notch (s : State) : (handle_timeo_head s).notch = 0 := by
  unfold handle_timeo_head
  simp only [emit]
  exact handle_timeo_notch_notch _

theorem handle_timeo_loop_sniftab (currcms : Int) (force_redraw n : Nat) (s : State) (k : Nat) :
    (forLoop n (handle_timeo_body currcms force_redraw) s).sniftab k
      = if k < n then timeo_entry s.hold currcms force_redraw (s.sniftab k)
        else s.sniftab k :=
  forLoop_sniftab (fun st : State => st.hold = s.hold) (handle_timeo_body currcms force_redraw)
    (fun _ e => timeo_entry s.hold currcms force_redraw e)
    (fun i st h => (handle_timeo_body_hold currcms force_redraw i st).trans h)
    (fun i st k h => by rw [handle_timeo_body_sniftab, h]) n s rfl k

theorem handle_timeo_snd (s : State) (currcms : Int) :
    (handle_timeo s currcms).2
      = forLoop 2048 (handle_timeo_body currcms (if s.clearscreen ≠ 0 then 1 else 0))
          (handle_timeo_head s) := rfl

/-- The table after a tick: the pending notch fold, then lines 563-589, on
each of the 2048 elements. -/
theorem handle_timeo_sniftab (s : State) (currcms : Int) (k : Nat) :
    (handle_timeo s currcms).2.sniftab k
      = if k < 2048 then
          timeo_entry s.hold currcms (if s.clearscreen ≠ 0 then 1 else 0)
            (if s.notch ≠ 0 then notch_fold (s.sniftab k) else s.sniftab k)
        else s.sniftab k := by
  rw [handle_timeo_snd, handle_timeo_loop_sniftab, handle_timeo_head_hold,
    handle_timeo_head_sniftab]
  by_cases hk : k < 2048 <;> by_cases hn : s.notch = 0 <;> simp [hk, hn]

theorem handle_timeo_timeout (s : State) (currcms : Int) :
    (handle_timeo s currcms).2.timeout = s.timeout := by
  rw [handle_timeo_snd]
  apply forLoop_inv (fun st : State => st.timeout = s.timeout)
  · intro i st h
    exact (handle_timeo_body_timeout _ _ i st).trans h
  · exact handle_timeo_head_timeout s

theorem handle_timeo_notch_cleared (s : State) (currcms : Int) :
    (handle_timeo s currcms).2.notch = 0 := by
  rw [handle_timeo_snd]
  apply forLoop_inv (fun st : State => st.notch = 0)
  · intro i st h
    exact (handle_timeo_body_notch _ _ i st).trans h
  · exact handle_timeo_head_notch s

/-! ## Commands and settings, entry by entry -/

theorem same_but_filter_refl (e : snif) : same_but_filter e e :=
  ⟨rfl, rfl, rfl, fun _ _ => rfl⟩

theorem same_but_filter_trans (a b c : snif) (h1 : same_but_filter a b)
    (h2 : same_but_filter b c) : same_but_filter a c := by
  obtain ⟨hb, hbD, hbU, hbn⟩ := h1
  obtain ⟨hc, hcD, hcU, hcn⟩ := h2
  refine ⟨?_, hcD.trans hbD, hcU.trans hbU, fun i hi => (hcn i hi).trans (hbn i hi)⟩
  rw [hc, hb]

theorem same_but_filter_set (e : snif) :
    same_but_filter e { e with flags := e.flags ||| ENABLE } :=
  ⟨rfl, and_or_flag _ _ _ (by decide), and_or_flag _ _ _ (by decide), fun _ _ => rfl⟩

theorem same_but_filter_clr (e : snif) :
    same_but_filter e { e with flags := e.flags &&& (0xFFFFFFFF ^^^ ENABLE) } :=
  ⟨rfl, and_clr_flag _ _ _ (by decide), and_clr_flag _ _ _ (by decide), fun _ _ => rfl⟩

theorem filter_cmd_sniftab (add : Bool) (mask value : Nat) (s : State) (k : Nat) :
    (filter_cmd add mask value s).sniftab k
      = if k < 2048 then filter_entry add mask value k (s.sniftab k) else s.sniftab k := by
  unfold filter_cmd
  cases add
  · simp only [Bool.false_eq_true, if_false]
    exact forLoop_sniftab (fun _ => True)
      (fun i st => if (i &&& mask) = (value &&& mask) ∧ is_set st i ENABLE then
        do_clr st i ENABLE else st)
      (fun i e => filter_entry false mask value i e) (fun _ _ _ => trivial)
      (fun i st k _ => by
        by_cases hm : (i &&& mask) = (value &&& mask) <;>
        by_cases hE : (st.sniftab i).flags &&& ENABLE = 0 <;>
        by_cases hk : k = i <;>
        simp [hm, hE, hk, is_set, do_clr, set_snif, filter_entry]) 2048 s trivial k
  · simp only [if_true]
    exact forLoop_sniftab (fun _ => True)
      (fun i st => if (i &&& mask) = (value &&& mask) ∧ is_clr st i ENABLE then
        do_set st i ENABLE else st)
      (fun i e => filter_entry true mask value i e) (fun _ _ _ => trivial)
      (fun i st k _ => by
        by_cases hm : (i &&& mask) = (value &&& mask) <;>
        by_cases hE : (st.sniftab i).flags &&& ENABLE = 0 <;>
        by_cases hk : k = i <;>
        simp [hm, hE, hk, is_clr, do_set, set_snif, filter_entry]) 2048 s trivial k

theorem filter_entry_rel (add : Bool) (mask value i : Nat) (e : snif) :
    same_but_filter e (filter_entry add mask value i e) := by
  unfold filter_entry
  split_ifs
  · exact same_but_filter_set e
  · exact same_but_filter_refl e
  · exact same_but_filter_clr e
  · exact same_but_filter_refl e

theorem notch_clear_rel (e : snif) : same_but_filter e (notch_clear e) :=
  ⟨rfl, rfl, rfl, fun _ hi => U64_DATA_set_ge _ _ _ hi⟩

theorem read_notch_byte_ge (j : Nat) (nb : canfd_frame × List u8) (i : Nat) (hj : j < 8)
    (hi : 8 ≤ i) : (read_notch_byte j nb).1.data i = nb.1.data i := by
  have : i ≠ j := by omega
  simp [read_notch_byte, this]

theorem read_notch_ge (nb : canfd_frame × List u8) (i : Nat) (hi : 8 ≤ i) :
    (read_notch nb).1.data i = nb.1.data i := by
  unfold read_notch
  rw [read_notch_byte_ge 0 _ i (by decide) hi, read_notch_byte_ge 1 _ i (by decide) hi,
    read_notch_byte_ge 2 _ i (by decide) hi, read_notch_byte_ge 3 _ i (by decide) hi,
    read_notch_byte_ge 4 _ i (by decide) hi, read_notch_byte_ge 5 _ i (by decide) hi,
    read_notch_byte_ge 6 _ i (by decide) hi, read_notch_byte_ge 7 _ i (by decide) hi]

theorem read_entry_rel (buf : List u8) (e : snif) : same_but_filter e (read_entry buf e) := by
  refine ⟨rfl, ?_, ?_, fun i hi => read_notch_ge _ i hi⟩
  · show (if _ then _ else _) &&& DISPLAY = _
    split_ifs
    · exact and_or_flag _ _ _ (by decide)
    · rfl
    · exact and_clr_flag _ _ _ (by decide)
    · rfl
  · show (if _ then _ else _) &&& UPDATE = _
    split_ifs
    · exact and_or_flag _ _ _ (by decide)
    · rfl
    · exact and_clr_flag _ _ _ (by decide)
    · rfl

theorem readsettings_body_sniftab (name : List u8) (sockfd : Int) (i : Nat) (r : ReadLoop)
    (k : Nat) :
    (readsettings_body name sockfd i r).st.sniftab k
      = if k = i ∧ (r.rest.take 24).length = 24 then
          read_entry (r.rest.take 24 ++ r.buf.drop (r.rest.take 24).length) (r.st.sniftab i)
        else r.st.sniftab k := by
  by_cases hl : (r.rest.take 24).length = 24
  · unfold readsettings_body read_entry
    simp only [hl, if_true, and_true]
    generalize ((r.rest.take 24 ++ r.buf.drop 24).getD 5 0).val &&& 1 = c
    by_cases hc : c = 0 <;>
    by_cases hE : (r.st.sniftab i).flags &&& ENABLE = 0 <;>
    by_cases hk : k = i <;>
    simp [hc, hE, hk, is_set, is_clr, do_set, do_clr, set_snif]
  · unfold readsettings_body
    simp only [hl, if_false, and_false]
    split_ifs <;> rfl

theorem readsettings_body_rel (name : List u8) (sockfd : Int) (i : Nat) (r : ReadLoop)
    (k : Nat) :
    same_but_filter (r.st.sniftab k) ((readsettings_body name sockfd i r).st.sniftab k) := by
  rw [readsettings_body_sniftab]
  split_ifs with h
  · rw [h.1]
    exact read_entry_rel _ _
  · exact same_but_filter_refl _

theorem readsettings_body_timeout (name : List u8) (sockfd : Int) (i : Nat) (r : ReadLoop) :
    (readsettings_body name sockfd i r).st.timeout = r.st.timeout := by
  unfold readsettings_body
  simp only []
  split_ifs <;> rfl

theorem emit_sniftab (s : State) (o : List Item) : (emit s o).sniftab = s.sniftab := rfl

theorem emit_timeout (s : State) (o : List Item) : (emit s o).timeout = s.timeout := rfl

theorem readsettings_loop_rel (name : List u8) (sockfd : Int) (n : Nat) (r : ReadLoop)
    (k : Nat) :
    same_but_filter (r.st.sniftab k)
      ((forLoop n (readsettings_body name sockfd) r).st.sniftab k) :=
  forLoop_rel (fun r : ReadLoop => r.st.sniftab) same_but_filter
    same_but_filter_refl same_but_filter_trans (readsettings_body name sockfd)
    (fun i st k => readsettings_body_rel name sockfd i st k) n r k

theorem readsettings_loop_timeout (name : List u8) (sockfd : Int) (n : Nat) (r : ReadLoop) :
    (forLoop n (readsettings_body name sockfd) r).st.timeout = r.st.timeout :=
  forLoop_inv (fun x : ReadLoop => x.st.timeout = r.st.timeout)
    (readsettings_body name sockfd)
    (fun i st h => (readsettings_body_timeout name sockfd i st).trans h) n r rfl

theorem readsettings_rel (s : State) (name : List u8) (sockfd : Int)
    (file : Option (List u8)) (k : Nat) :
    same_but_filter (s.sniftab k) ((readsettings s name sockfd file).sniftab k) := by
  cases file with
  | none => exact same_but_filter_refl _
  | some content =>
    by_cases hs : sockfd = 0
    · simp only [readsettings, hs, if_true]
      rw [emit_sniftab]
      exact readsettings_loop_rel name 0 2048 _ k
    · simp only [readsettings, hs, if_false]
      exact readsettings_loop_rel name sockfd 2048 _ k

theorem readsettings_timeout (s : State) (name : List u8) (sockfd : Int)
    (file : Option (List u8)) : (readsettings s name sockfd file).timeout = s.timeout := by
  cases file with
  | none => rfl
  | some content =>
    by_cases hs : sockfd = 0
    · simp only [readsettings, hs, if_true]
      rw [emit_timeout, readsettings_loop_timeout]
      rfl
    · simp only [readsettings, hs, if_false]
      rw [readsettings_loop_timeout]

theorem filter_loop_timeout (n : Nat) (body : Nat → State → State)
    (hb : ∀ i st, (body i st).timeout = st.timeout) (s : State) :
    (forLoop n body s).timeout = s.timeout :=
  forLoop_inv (fun st : State => st.timeout = s.timeout) body
    (fun i st h => (hb i st).trans h) n s rfl

theorem filter_cmd_timeout (add : Bool) (mask value : Nat) (s : State) :
    (filter_cmd add mask value s).timeout = s.timeout := by
  unfold filter_cmd
  split_ifs
  · apply filter_loop_timeout
    intro i st
    show (if _ then _ else st).timeout = _
    split_ifs <;> rfl
  · apply filter_loop_timeout
    intro i st
    show (if _ then _ else st).timeout = _
    split_ifs <;> rfl

theorem star_loop_timeout (n : Nat) (s : State) : (star_loop n s).timeout = s.timeout :=
  filter_loop_timeout n (fun i st => set_snif st i { st.sniftab i with
    notch := U64_DATA_set (st.sniftab i).notch 0 }) (fun _ _ => rfl) s

theorem star_loop_sniftab (n : Nat) (s : State) (k : Nat) :
    (star_loop n s).sniftab k = if k < n then notch_clear (s.sniftab k) else s.sniftab k :=
  forLoop_sniftab (fun _ => True)
    (fun i st => set_snif st i { st.sniftab i with
        notch := U64_DATA_set (st.sniftab i).notch 0 })
    (fun _ e => notch_clear e) (fun _ _ _ => trivial)
    (fun i st k _ => by simp [set_snif, notch_clear]) n s trivial k

theorem writesettings_sniftab (s : State) (name : List u8) (opened : Bool) :
    (writesettings s name opened).sniftab = s.sniftab := by
  unfold writesettings
  split_ifs <;> rfl

theorem writesettings_timeout (s : State) (name : List u8) (opened : Bool) :
    (writesettings s name opened).timeout = s.timeout := by
  unfold writesettings
  split_ifs <;> rfl

/-- The ten ways out of the `switch` of `handle_keyb`. -/
theorem handle_keyb_switch_cases (s : State) (fd : Int) (cmd : List u8) (env : KeybEnv) :
    handle_keyb_switch s fd cmd env = s
    ∨ (∃ add mask value, handle_keyb_switch s fd cmd env = filter_cmd add mask value s)
    ∨ (∃ name, handle_keyb_switch s fd cmd env = writesettings s name env.wopen)
    ∨ (∃ name, handle_keyb_switch s fd cmd env = readsettings s name fd env.rfile)
    ∨ handle_keyb_switch s fd cmd env = { s with running := 0 }
    ∨ handle_keyb_switch s fd cmd env
        = { s with binary_gap := 1, binary := if s.binary ≠ 0 then 0 else 1 }
    ∨ handle_keyb_switch s fd cmd env
        = { s with binary_gap := 0, binary := if s.binary ≠ 0 then 0 else 1 }
    ∨ handle_keyb_switch s fd cmd env = { s with color := if s.color ≠ 0 then 0 else 1 }
    ∨ handle_keyb_switch s fd cmd env = { s with notch := 1 }
    ∨ handle_keyb_switch s fd cmd env = star_loop 2048 s := by
  cases cmd with
  | nil => exact Or.inl rfl
  | cons c arg =>
    unfold handle_keyb_switch
    simp only []
    by_cases h1 : c = c2b '+' ∨ c = c2b '-'
    · rw [if_pos h1]
      exact Or.inr (Or.inl ⟨_, _, _, rfl⟩)
    rw [if_neg h1]
    by_cases h2 : c = c2b 'w'
    · rw [if_pos h2]
      exact Or.inr (Or.inr (Or.inl ⟨_, rfl⟩))
    rw [if_neg h2]
    by_cases h3 : c = c2b 'r'
    · rw [if_pos h3]
      exact Or.inr (Or.inr (Or.inr (Or.inl ⟨_, rfl⟩)))
    rw [if_neg h3]
    by_cases h4 : c = c2b 'q'
    · rw [if_pos h4]
      exact Or.inr (Or.inr (Or.inr (Or.inr (Or.inl rfl))))
    rw [if_neg h4]
    by_cases h5 : c = c2b 'B'
    · rw [if_pos h5]
      exact Or.inr (Or.inr (Or.inr (Or.inr (Or.inr (Or.inl rfl)))))
    rw [if_neg h5]
    by_cases h6 : c = c2b 'b'
    · rw [if_pos h6]
      exact Or.inr (Or.inr (Or.inr (Or.inr (Or.inr (Or.inr (Or.inl rfl))))))
    rw [if_neg h6]
    by_cases h7 : c = c2b 'c'
    · rw [if_pos h7]
      exact Or.inr (Or.inr (Or.inr (Or.inr (Or.inr (Or.inr (Or.inr (Or.inl rfl)))))))
    rw [if_neg h7]
    by_cases h8 : c = c2b '#'
    · rw [if_pos h8]
      exact Or.inr (Or.inr (Or.inr (Or.inr (Or.inr (Or.inr (Or.inr (Or.inr (Or.inl rfl))))))))
    rw [if_neg h8]
    by_cases h9 : c = c2b '*'
    · rw [if_pos h9]
      exact Or.inr (Or.inr (Or.inr (Or.inr (Or.inr (Or.inr (Or.inr (Or.inr (Or.inr rfl))))))))
    rw [if_neg h9]
    exact Or.inl rfl

theorem handle_keyb_switch_rel (s : State) (fd : Int) (cmd : List u8) (env : KeybEnv)
    (k : Nat) :
    same_but_filter (s.sniftab k) ((handle_keyb_switch s fd cmd env).sniftab k) := by
  rcases handle_keyb_switch_cases s fd cmd env with
    h | ⟨_, _, _, h⟩ | ⟨_, h⟩ | ⟨_, h⟩ | h | h | h | h | h | h <;> rw [h]
  · exact same_but_filter_refl _
  · rw [filter_cmd_sniftab]
    split_ifs
    · exact filter_entry_rel _ _ _ _ _
    · exact same_but_filter_refl _
  · rw [writesettings_sniftab]
    exact same_but_filter_refl _
  · exact readsettings_rel _ _ _ _ _
  · exact same_but_filter_refl _
  · exact same_but_filter_refl _
  · exact same_but_filter_refl _
  · exact same_but_filter_refl _
  · exact same_but_filter_refl _
  · rw [star_loop_sniftab]
    split_ifs
    · exact notch_clear_rel _
    · exact same_but_filter_refl _

theorem handle_keyb_switch_timeout (s : State) (fd : Int) (cmd : List u8) (env : KeybEnv) :
    (handle_keyb_switch s fd cmd env).timeout = s.timeout := by
  rcases handle_keyb_switch_cases s fd cmd env with
    h | ⟨_, _, _, h⟩ | ⟨_, h⟩ | ⟨_, h⟩ | h | h | h | h | h | h <;> rw [h]
  · exact filter_cmd_timeout _ _ _ _
  · exact writesettings_timeout _ _ _
  · exact readsettings_timeout _ _ _ _
  · exact star_loop_timeout _ _

theorem handle_keyb_rel (s : State) (fd : Int) (env : KeybEnv) (k : Nat) :
    same_but_filter (s.sniftab k) ((handle_keyb s fd env).2.sniftab k) := by
  unfold handle_keyb
  cases env.rd with
  | none => exact same_but_filter_refl _
  | some bytes =>
    simp only []
    split_ifs
    · exact same_but_filter_refl _
    · exact handle_keyb_switch_rel _ _ _ _ _

theorem handle_keyb_timeout (s : State) (fd : Int) (env : KeybEnv) :
    (handle_keyb s fd env).2.timeout = s.timeout := by
  unfold handle_keyb
  cases env.rd with
  | none => rfl
  | some bytes =>
    simp only []
    split_ifs
    · rfl
    · exact handle_keyb_switch_timeout _ _ _ _

/-- A read that is not accepted changes at most the time stamp of an element. -/
theorem handle_raw_reject (s : State) (nbytes : Int) (cf : canfd_frame) (stamp : timeval)
    (currcms : Int) (h : ¬ (nbytes = CAN_MTU ∨ nbytes = CANFD_MTU)) (k : Nat) :
    (handle_raw s nbytes cf stamp currcms).2.sniftab k = s.sniftab k
      ∨ (handle_raw s nbytes cf stamp currcms).2.sniftab k
          = { s.sniftab k with currstamp := stamp } := by
  have h1 : nbytes ≠ CAN_MTU ∧ nbytes ≠ CANFD_MTU := by tauto
  by_cases h0 : nbytes < 0
  · left
    simp [handle_raw, h0]
  · by_cases hk : k = cf.can_id &&& 0x7FF
    · right
      by_cases hp : s.print_eff = 0 ∧ cf.can_id &&& CAN_EFF_FLAG ≠ 0 <;>
        simp [handle_raw, h0, h1, hk, hp, set_snif, emit]
    · left
      by_cases hp : s.print_eff = 0 ∧ cf.can_id &&& CAN_EFF_FLAG ≠ 0 <;>
        simp [handle_raw, h0, h1, hk, hp, set_snif, emit]

/-- What `handle_raw` makes of a table element: nothing, a new time stamp (a
read of a strange length) or an accepted frame. -/
theorem handle_raw_cases (s : State) (nbytes : Int) (cf : canfd_frame) (stamp : timeval)
    (currcms : Int) (k : Nat) :
    (handle_raw s nbytes cf stamp currcms).2.sniftab k = s.sniftab k
      ∨ (handle_raw s nbytes cf stamp currcms).2.sniftab k
          = { s.sniftab k with currstamp := stamp }
      ∨ (handle_raw s nbytes cf stamp currcms).2.sniftab k
          = raw_entry s.timeout cf stamp currcms (s.sniftab k) := by
  by_cases h2 : nbytes = CAN_MTU ∨ nbytes = CANFD_MTU
  · rw [handle_raw_sniftab s nbytes cf stamp currcms h2 k]
    split_ifs
    · right
      right
      rfl
    · left
      rfl
  · rcases handle_raw_reject s nbytes cf stamp currcms h2 k with h | h
    · exact Or.inl h
    · exact Or.inr (Or.inl h)

theorem handle_raw_timeout (s : State) (nbytes : Int) (cf : canfd_frame) (stamp : timeval)
    (currcms : Int) : (handle_raw s nbytes cf stamp currcms).2.timeout = s.timeout := by
  by_cases h0 : nbytes < 0 <;>
  by_cases h1 : nbytes ≠ CAN_MTU ∧ nbytes ≠ CANFD_MTU <;>
  by_cases hp : s.print_eff = 0 ∧ cf.can_id &&& CAN_EFF_FLAG ≠ 0 <;>
  by_cases hd : (s.sniftab (cf.can_id &&& 0x7FF)).flags &&& DISPLAY = 0 <;>
  simp [handle_raw, h0, h1, hp, hd, is_clr, do_set, set_snif, emit]

/-! ## Facts about one table element -/

theorem timeo_render_timeout (hold currcms : Int) (force_redraw : Nat) (e : snif) :
    (timeo_render hold currcms force_redraw e).timeout = e.timeout := by
  unfold timeo_render
  split_ifs <;> rfl

theorem timeo_render_notch (hold currcms : Int) (force_redraw : Nat) (e : snif) :
    (timeo_render hold currcms force_redraw e).notch = e.notch := by
  unfold timeo_render
  split_ifs <;> rfl

theorem timeo_render_marker_ge (hold currcms : Int) (force_redraw : Nat) (e : snif) (i : Nat)
    (hi : 8 ≤ i) : (timeo_render hold currcms force_redraw e).marker.data i = e.marker.data i := by
  unfold timeo_render
  split_ifs
  · exact U64_DATA_set_ge _ _ _ hi
  · exact (U64_DATA_set_ge _ _ _ hi).trans (U64_DATA_set_ge _ _ _ hi)
  · rfl

theorem timeo_render_display (hold currcms : Int) (force_redraw : Nat) (e : snif) :
    (timeo_render hold currcms force_redraw e).flags &&& DISPLAY = e.flags &&& DISPLAY := by
  unfold timeo_render
  split_ifs
  · exact and_clr_flag _ _ _ (by decide)
  · rfl
  · rfl

theorem timeo_expire_timeout (currcms : Int) (e : snif) :
    (timeo_expire currcms e).timeout = e.timeout := by
  unfold timeo_expire
  split_ifs <;> rfl

theorem timeo_expire_notch (currcms : Int) (e : snif) :
    (timeo_expire currcms e).notch = e.notch := by
  unfold timeo_expire
  split_ifs <;> rfl

theorem timeo_expire_marker (currcms : Int) (e : snif) :
    (timeo_expire currcms e).marker = e.marker := by
  unfold timeo_expire
  split_ifs <;> rfl

theorem timeo_expire_off (currcms : Int) (e : snif) (h : e.timeout = 0) :
    timeo_expire currcms e = e := by
  unfold timeo_expire
  simp [h]

theorem timeo_entry_timeout (hold currcms : Int) (force_redraw : Nat) (e : snif) :
    (timeo_entry hold currcms force_redraw e).timeout = e.timeout := by
  unfold timeo_entry
  split_ifs
  · exact (timeo_expire_timeout _ _).trans (timeo_render_timeout _ _ _ _)
  · rfl
  · rfl

theorem timeo_entry_notch (hold currcms : Int) (force_redraw : Nat) (e : snif) :
    (timeo_entry hold currcms force_redraw e).notch = e.notch := by
  unfold timeo_entry
  split_ifs
  · exact (timeo_expire_notch _ _).trans (timeo_render_notch _ _ _ _)
  · rfl
  · rfl

theorem timeo_entry_marker_ge (hold currcms : Int) (force_redraw : Nat) (e : snif) (i : Nat)
    (hi : 8 ≤ i) : (timeo_entry hold currcms force_redraw e).marker.data i = e.marker.data i := by
  unfold timeo_entry
  split_ifs
  · show (timeo_expire _ _).marker.data i = _
    rw [timeo_expire_marker]
    exact timeo_render_marker_ge _ _ _ _ _ hi
  · rfl
  · rfl

theorem timeo_entry_display (hold currcms : Int) (force_redraw : Nat) (e : snif)
    (h : e.timeout = 0) :
    (timeo_entry hold currcms force_redraw e).flags &&& DISPLAY = e.flags &&& DISPLAY := by
  unfold timeo_entry
  split_ifs
  · show (timeo_expire _ _).flags &&& DISPLAY = _
    rw [timeo_expire_off _ _ ((timeo_render_timeout _ _ _ _).trans h)]
    exact timeo_render_display _ _ _ _
  · rfl
  · rfl

theorem raw_entry_marker_ge (timeout : Int) (cf : canfd_frame) (stamp : timeval)
    (currcms : Int) (e : snif) (i : Nat) (hi : 8 ≤ i) :
    (raw_entry timeout cf stamp currcms e).marker.data i = e.marker.data i :=
  U64_DATA_set_ge _ _ _ hi

theorem raw_entry_display (timeout : Int) (cf : canfd_frame) (stamp : timeval)
    (currcms : Int) (e : snif) :
    (raw_entry timeout cf stamp currcms e).flags &&& DISPLAY = DISPLAY := by
  show ((e.flags ||| DISPLAY) ||| UPDATE) &&& DISPLAY = DISPLAY
  rw [and_or_flag _ _ _ (by decide), or_and_same]

theorem same_but_filter_marker (e e' : snif) (h : same_but_filter e e') :
    e'.marker = e.marker := by
  have := congrArg snif.marker h.1
  exact this

theorem same_but_filter_timeout (e e' : snif) (h : same_but_filter e e') :
    e'.timeout = e.timeout := by
  have := congrArg snif.timeout h.1
  exact this

theorem same_but_filter_last (e e' : snif) (h : same_but_filter e e') :
    e'.last = e.last := by
  have := congrArg snif.last h.1
  exact this

/-! ## Invariants of a run -/

theorem step_keyb (s : State) (fd : Int) (env : KeybEnv) :
    step s (Event.keyb fd env) = (handle_keyb s fd env).2 := rfl

theorem step_raw (s : State) (nbytes : Int) (cf : canfd_frame) (stamp : timeval)
    (currcms : Int) :
    step s (Event.raw nbytes cf stamp currcms) = (handle_raw s nbytes cf stamp currcms).2 := rfl

theorem step_timeo (s : State) (currcms : Int) :
    step s (Event.timeo currcms) = (handle_timeo s currcms).2 := rfl

theorem step_rdset (s : State) (name : List u8) (file : Option (List u8)) :
    step s (Event.rdset name file) = readsettings s name 0 file := rfl

theorem run_cons (s : State) (e : Event) (es : List Event) :
    run s (e :: es) = run (step s e) es := rfl

theorem tail_zero_step (s : State) (ev : Event) (h : ∀ k, tail_zero (s.sniftab k)) (k : Nat) :
    tail_zero ((step s ev).sniftab k) := by
  intro i hi
  cases ev with
  | keyb fd env =>
    have hr := handle_keyb_rel s fd env k
    rw [step_keyb, same_but_filter_marker _ _ hr, hr.2.2.2 i hi]
    exact h k i hi
  | raw nbytes cf stamp currcms =>
    rw [step_raw]
    rcases handle_raw_cases s nbytes cf stamp currcms k with hc | hc | hc <;> rw [hc]
    · exact h k i hi
    · exact h k i hi
    · exact ⟨(raw_entry_marker_ge _ _ _ _ _ i hi).trans (h k i hi).1, (h k i hi).2⟩
  | timeo currcms =>
    rw [step_timeo, handle_timeo_sniftab]
    by_cases hk : k < 2048
    · rw [if_pos hk, timeo_entry_marker_ge _ _ _ _ i hi, timeo_entry_notch]
      by_cases hn : s.notch ≠ 0
      · rw [if_pos hn]
        exact ⟨(h k i hi).1, (U64_DATA_set_ge _ _ _ hi).trans (h k i hi).2⟩
      · rw [if_neg hn]
        exact h k i hi
    · rw [if_neg hk]
      exact h k i hi
  | rdset name file =>
    have hr := readsettings_rel s name 0 file k
    rw [step_rdset, same_but_filter_marker _ _ hr, hr.2.2.2 i hi]
    exact h k i hi

theorem tail_zero_run (es : List Event) (s : State) (h : ∀ k, tail_zero (s.sniftab k))
    (k : Nat) : tail_zero ((run s es).sniftab k) := by
  induction es generalizing s with
  | nil => exact h k
  | cons e es ih => exact ih (step s e) (fun k => tail_zero_step s e h k)

theorem tail_zero_init (c : Config) (k : Nat) : tail_zero ((init c).sniftab k) := by
  intro i _
  unfold init
  simp only []
  split_ifs <;> exact ⟨rfl, rfl⟩

/-- In every state of a run that starts in `init`, bytes 8 to 63 of every
marker and notch are zero. -/
theorem tail_zero_reach (c : Config) (es : List Event) (k : Nat) :
    tail_zero ((run (init c) es).sniftab k) :=
  tail_zero_run es (init c) (tail_zero_init c) k

/-! ## C1 and C2: the change mask -/

theorem xor_step (a b c : Nat) :
    (a ^^^ c) ||| (b ^^^ a) = (a ^^^ c) ||| (b ^^^ c) := by
  apply Nat.eq_of_testBit_eq
  intro j
  simp only [Nat.testBit_or, Nat.testBit_xor]
  cases a.testBit j <;> cases b.testBit j <;> cases c.testBit j <;> rfl

/-- Comparing each frame with the one before it or with the snapshot `p0`
accumulates the same bits, once the bits in which `prev` differs from `p0` are
counted. -/
theorem xor_chain_fixed (i : Nat) (p0 : canfd_frame) (fs : List canfd_frame)
    (prev : canfd_frame) :
    ((prev.data i).val ^^^ (p0.data i).val) ||| xor_chain i prev fs
      = ((prev.data i).val ^^^ (p0.data i).val) ||| xor_fixed i p0 fs := by
  induction fs generalizing prev with
  | nil => rfl
  | cons f fs ih =>
    show _ ||| (((f.data i).val ^^^ (prev.data i).val) ||| xor_chain i f fs)
      = _ ||| (((f.data i).val ^^^ (p0.data i).val) ||| xor_fixed i p0 fs)
    rw [← Nat.lor_assoc, ← Nat.lor_assoc, xor_step, Nat.lor_assoc, Nat.lor_assoc, ih f]

theorem xor_chain_eq_fixed (i : Nat) (p0 : canfd_frame) (fs : List canfd_frame) :
    xor_chain i p0 fs = xor_fixed i p0 fs := by
  have h := xor_chain_fixed i p0 fs p0
  simpa using h

/-- One event other than a tick: the previous frame of every element stays,
marker bytes 8 and up stay, and a marker byte below 8 takes in the difference
between the accepted frame and the previous frame. -/
theorem marker_step (s : State) (e : Event) (id : Nat) (ht : is_tick e = false) :
    ((step s e).sniftab id).last = (s.sniftab id).last
    ∧ (∀ j, 8 ≤ j → ((step s e).sniftab id).marker.data j = (s.sniftab id).marker.data j)
    ∧ (∀ i, i < 8 → (((step s e).sniftab id).marker.data i).val
        = ((s.sniftab id).marker.data i).val
            ||| xor_fixed i (s.sniftab id).last (frames_for id [e])) := by
  cases e with
  | keyb fd env =>
    have hr := handle_keyb_rel s fd env id
    rw [step_keyb, same_but_filter_marker _ _ hr, same_but_filter_last _ _ hr]
    exact ⟨rfl, fun _ _ => rfl, fun _ _ => (Nat.or_zero _).symm⟩
  | rdset name file =>
    have hr := readsettings_rel s name 0 file id
    rw [step_rdset, same_but_filter_marker _ _ hr, same_but_filter_last _ _ hr]
    exact ⟨rfl, fun _ _ => rfl, fun _ _ => (Nat.or_zero _).symm⟩
  | timeo currcms => exact absurd ht (by simp [is_tick])
  | raw nbytes cf stamp currcms =>
    rw [step_raw]
    by_cases hv : nbytes = CAN_MTU ∨ nbytes = CANFD_MTU
    · rw [handle_raw_sniftab s nbytes cf stamp currcms hv id]
      by_cases hk : id = cf.can_id &&& 0x7FF
      · have hf : frames_for id [Event.raw nbytes cf stamp currcms] = [cf] := by
          simp [frames_for, hv, hk]
        rw [if_pos hk, hf]
        refine ⟨rfl, fun j hj => raw_entry_marker_ge _ _ _ _ _ j hj, fun i hi => ?_⟩
        show ((U64_DATA_set _ _).data i).val = _
        rw [marker_update_byte _ _ _ i hi]
        simp [xor_fixed]
      · have hf : frames_for id [Event.raw nbytes cf stamp currcms] = [] := by
          have hk' : ¬ cf.can_id &&& 0x7FF = id := fun h => hk h.symm
          simp [frames_for, hk']
        rw [if_neg hk, hf]
        exact ⟨rfl, fun _ _ => rfl, fun _ _ => (Nat.or_zero _).symm⟩
    · have hf : frames_for id [Event.raw nbytes cf stamp currcms] = [] := by
        simp [frames_for, hv]
      rw [hf]
      rcases handle_raw_reject s nbytes cf stamp currcms hv id with h | h <;> rw [h] <;>
        exact ⟨rfl, fun _ _ => rfl, fun _ _ => (Nat.or_zero _).symm⟩

theorem frames_for_cons (id : Nat) (e : Event) (es : List Event) :
    frames_for id (e :: es) = frames_for id [e] ++ frames_for id es := by
  cases e with
  | raw nbytes cf stamp currcms =>
    by_cases h : (nbytes = CAN_MTU ∨ nbytes = CANFD_MTU) ∧ cf.can_id &&& 0x7FF = id <;>
      simp [frames_for, h]
  | keyb fd env => rfl
  | timeo currcms => rfl
  | rdset name file => rfl

theorem xor_fixed_append (i : Nat) (p0 : canfd_frame) (fs gs : List canfd_frame) :
    xor_fixed i p0 (fs ++ gs) = xor_fixed i p0 fs ||| xor_fixed i p0 gs := by
  induction fs with
  | nil => simp [xor_fixed]
  | cons f fs ih =>
    show _ ||| xor_fixed i p0 (fs ++ gs) = (_ ||| xor_fixed i p0 fs) ||| _
    rw [ih, Nat.lor_assoc]

/-- A run without tick: what the code accumulates in the marker. -/
theorem marker_run (es : List Event) (s : State) (id : Nat)
    (ht : ∀ e ∈ es, is_tick e = false) :
    ((run s es).sniftab id).last = (s.sniftab id).last
    ∧ (∀ j, 8 ≤ j → ((run s es).sniftab id).marker.data j = (s.sniftab id).marker.data j)
    ∧ (∀ i, i < 8 → (((run s es).sniftab id).marker.data i).val
        = ((s.sniftab id).marker.data i).val
            ||| xor_fixed i (s.sniftab id).last (frames_for id es)) := by
  induction es generalizing s with
  | nil => exact ⟨rfl, fun _ _ => rfl, fun _ _ => (Nat.or_zero _).symm⟩
  | cons e es ih =>
    have h1 := marker_step s e id (ht e (List.mem_cons_self _ _))
    have h2 := ih (step s e) (fun x hx => ht x (List.mem_cons_of_mem _ hx))
    rw [run_cons]
    refine ⟨h2.1.trans h1.1, fun j hj => (h2.2.1 j hj).trans (h1.2.1 j hj), fun i hi => ?_⟩
    rw [frames_for_cons id e es, xor_fixed_append, h2.2.2 i hi, h1.2.2 i hi, h1.1,
      Nat.lor_assoc]

theorem run_nil (s : State) : run s [] = s := rfl

theorem init_sniftab_lt (c : Config) (k : Nat) (hk : k < 2048) :
    (init c).sniftab k = { zero_snif with flags := ENABLE } := by
  simp [init, hk]

/-- C1 (as amended): when the marker of element `id` is zero and its previous
frame is `p0`, then after any sequence of events without a tick the marker
bytes 0 to 7 are the OR of `p_k XOR p_(k-1)` over the frames `p_1 .. p_N`
accepted for `id`, and the marker bytes 8 to 63 are still zero. -/
theorem change_mask_accumulation (s : State) (es : List Event) (id i : Nat)
    (hm : ∀ j, (s.sniftab id).marker.data j = 0) (ht : ∀ e ∈ es, is_tick e = false) :
    (((run s es).sniftab id).marker.data i).val
      = if i < 8 then xor_chain i (s.sniftab id).last (frames_for id es) else 0 := by
  have h := marker_run es s id ht
  by_cases hi : i < 8
  · rw [if_pos hi, h.2.2 i hi, hm i, xor_chain_eq_fixed]
    simp
  · rw [if_neg hi, h.2.1 i (by omega), hm i]
    rfl

theorem change_mask_accumulation_witness :
    (∀ j, ((init default_config).sniftab 0x123).marker.data j = 0)
    ∧ (∀ e ∈ [Event.raw CAN_MTU frame8 ⟨0, 0⟩ 0, Event.raw CAN_MTU frame3 ⟨0, 0⟩ 0],
        is_tick e = false)
    ∧ (((run (init default_config)
          [Event.raw CAN_MTU frame8 ⟨0, 0⟩ 0, Event.raw CAN_MTU frame3 ⟨0, 0⟩ 0]).sniftab
            0x123).marker.data 5).val
        = if 5 < 8 then
            xor_chain 5 ((init default_config).sniftab 0x123).last
              (frames_for 0x123
                [Event.raw CAN_MTU frame8 ⟨0, 0⟩ 0, Event.raw CAN_MTU frame3 ⟨0, 0⟩ 0])
          else 0 :=
  ⟨fun _ => rfl, fun e he => by
      simp only [List.mem_cons, List.mem_singleton, List.not_mem_nil, or_false] at he
      rcases he with rfl | rfl <;> rfl,
    change_mask_accumulation _ _ _ _ (fun _ => rfl) (fun e he => by
      simp only [List.mem_cons, List.mem_singleton, List.not_mem_nil, or_false] at he
      rcases he with rfl | rfl <;> rfl)⟩

/-- C1 (as stated) fails: after one CAN FD frame whose byte 8 differs from the
previous frame, byte 8 of the marker is still 0 although the accumulated
difference of the payloads has byte 8 equal to 1. -/
theorem change_mask_misses_byte_8 :
    (∀ j, ((init default_config).sniftab 0x123).marker.data j = 0)
    ∧ (((run (init default_config)
          [Event.raw CANFD_MTU fd_frame9 ⟨0, 0⟩ 0]).sniftab 0x123).marker.data 8).val = 0
    ∧ xor_chain 8 ((init default_config).sniftab 0x123).last
        (frames_for 0x123 [Event.raw CANFD_MTU fd_frame9 ⟨0, 0⟩ 0]) = 1 := by
  refine ⟨fun _ => rfl, ?_, ?_⟩
  · have h := marker_run [Event.raw CANFD_MTU fd_frame9 ⟨0, 0⟩ 0] (init default_config) 0x123
      (fun e he => by
        simp only [List.mem_singleton] at he
        rw [he]
        rfl)
    rw [h.2.1 8 (le_refl 8)]
    rfl
  · rfl

/-- C2 (as amended): an accepted frame is stored as current frame, and the
marker is updated on the 64-bit word `U64_DATA` whatever the two lengths are:
for `i < 8` marker byte `i` becomes `marker[i] OR (frame[i] XOR last[i])`, for
`i >= 8` marker byte `i` is left unchanged. -/
theorem handle_raw_marker_bytes (s : State) (nbytes : Int) (cf : canfd_frame)
    (stamp : timeval) (currcms : Int) (h : nbytes = CAN_MTU ∨ nbytes = CANFD_MTU) (i : Nat) :
    ((handle_raw s nbytes cf stamp currcms).2.sniftab (cf.can_id &&& 0x7FF)).current = cf
    ∧ ((handle_raw s nbytes cf stamp currcms).2.sniftab (cf.can_id &&& 0x7FF)).last
        = (s.sniftab (cf.can_id &&& 0x7FF)).last
    ∧ (((handle_raw s nbytes cf stamp currcms).2.sniftab (cf.can_id &&& 0x7FF)).marker.data i).val
        = if i < 8 then
            ((s.sniftab (cf.can_id &&& 0x7FF)).marker.data i).val
              ||| ((cf.data i).val ^^^ ((s.sniftab (cf.can_id &&& 0x7FF)).last.data i).val)
          else ((s.sniftab (cf.can_id &&& 0x7FF)).marker.data i).val := by
  rw [handle_raw_sniftab s nbytes cf stamp currcms h, if_pos rfl]
  refine ⟨rfl, rfl, ?_⟩
  by_cases hi : i < 8
  · rw [if_pos hi]
    exact marker_update_byte _ _ _ i hi
  · rw [if_neg hi]
    exact congrArg Fin.val (raw_entry_marker_ge _ _ _ _ _ i (by omega))

theorem handle_raw_marker_bytes_witness :
    ((16 : Int) = CAN_MTU ∨ (16 : Int) = CANFD_MTU)
    ∧ ((handle_raw (init default_config) 16 frame8 ⟨0, 0⟩ 0).2.sniftab
          (frame8.can_id &&& 0x7FF)).current = frame8
    ∧ ((handle_raw (init default_config) 16 frame8 ⟨0, 0⟩ 0).2.sniftab
          (frame8.can_id &&& 0x7FF)).last
        = ((init default_config).sniftab (frame8.can_id &&& 0x7FF)).last
    ∧ (((handle_raw (init default_config) 16 frame8 ⟨0, 0⟩ 0).2.sniftab
          (frame8.can_id &&& 0x7FF)).marker.data 5).val
        = if 5 < 8 then
            (((init default_config).sniftab (frame8.can_id &&& 0x7FF)).marker.data 5).val
              ||| ((frame8.data 5).val
                ^^^ (((init default_config).sniftab (frame8.can_id &&& 0x7FF)).last.data 5).val)
          else (((init default_config).sniftab (frame8.can_id &&& 0x7FF)).marker.data 5).val :=
  ⟨Or.inl rfl, handle_raw_marker_bytes (init default_config) 16 frame8 ⟨0, 0⟩ 0 (Or.inl rfl) 5⟩

theorem shrink_state_entry :
    shrink_state.sniftab 0x123
      = timeo_entry HOLD 1 1
          (raw_entry TIMEOUT frame8 ⟨0, 0⟩ 0 { zero_snif with flags := ENABLE }) := by
  rw [shrink_state, handle_timeo_sniftab, handle_raw_sniftab _ _ _ _ _ (Or.inl rfl),
    init_sniftab_lt _ _ (by decide)]
  rfl

/-- C2 (as stated) fails: the previous frame has 8 bytes, the new frame has 3,
index 5 is beyond the shorter length, and yet marker byte 5 changes from 0 to
0xFF. -/
theorem handle_raw_marks_beyond_length :
    (shrink_state.sniftab 0x123).last.len = 8
    ∧ frame3.len = 3
    ∧ frame3.can_id &&& 0x7FF = 0x123
    ∧ ((shrink_state.sniftab 0x123).marker.data 5).val = 0
    ∧ (((handle_raw shrink_state CAN_MTU frame3 ⟨1, 0⟩ 2).2.sniftab 0x123).marker.data 5).val
        = 255 := by
  refine ⟨?_, rfl, rfl, ?_, ?_⟩
  · rw [shrink_state_entry]
    rfl
  · rw [shrink_state_entry]
    rfl
  · rw [handle_raw_sniftab _ _ _ _ _ (Or.inl rfl), shrink_state_entry]
    rfl

/-! ## What is printed -/

theorem plain_append (a b : List Item) (ha : plain a) (hb : plain b) : plain (a ++ b) := by
  unfold plain at *
  simp [ha, hb]

theorem plain_chars (l : List Char) : plain (l.map Item.chr) := by
  unfold plain
  simp

theorem plain_fmt_ld (w : Nat) (v : Int) : plain (fmt_ld w v) := plain_chars _

theorem plain_fmt_X (w n : Nat) : plain (fmt_X w n) := plain_chars _

theorem plain_blanks (n : Nat) : plain (blanks n) := by
  unfold plain blanks
  simp

theorem plain_outLoop (n : Nat) (f : Nat → List Item) (h : ∀ i, i < n → plain (f i)) :
    plain (outLoop n f) := by
  induction n with
  | zero => simp [outLoop, plain]
  | succ n ih =>
    exact plain_append _ _ (ih (fun i hi => h i (Nat.lt_succ_of_lt hi))) (h n (Nat.lt_succ_self n))

theorem plain_head (s : State) (id : Nat) : plain (print_snifline_head s id) := by
  unfold print_snifline_head
  simp only []
  apply plain_append
  · apply plain_append
    · simp [plain]
    · split_ifs <;>
        exact plain_append _ _ (plain_append _ _ (plain_append _ _ (plain_append _ _
          (plain_fmt_ld _ _) (plain_fmt_ld _ _)) (plain_blanks _)) (plain_fmt_X _ _))
          (plain_blanks _)
  · simp [plain]

/-- The test `byte & 1<<j` of the binary branch reads bit `j`. -/
theorem and_shift_ne_zero (b j : Nat) : (b &&& (1 <<< j) ≠ 0) ↔ b.testBit j = true := by
  rw [Nat.one_shiftLeft, Nat.and_two_pow]
  cases b.testBit j <;> simp

/-- Binary branch: bit `j` of byte `i` is sent in the attention style exactly
when colour is on, the marker has the bit and the notch has not. -/
theorem print_bit_attention (color : Nat) (e : snif) (i j : Nat) :
    ¬ plain (print_bit color e i j)
      ↔ (color ≠ 0 ∧ (e.marker.data i).val.testBit j = true
          ∧ (e.notch.data i).val.testBit j = false) := by
  unfold print_bit plain
  simp only [and_shift_ne_zero]
  by_cases hc : color = 0 <;> cases (e.marker.data i).val.testBit j <;>
    cases (e.notch.data i).val.testBit j <;> cases (e.current.data i).val.testBit j <;>
    simp [hc]

/-- Hex branch: the hex pair of byte `i` is sent in the attention style exactly
when colour is on, the marker byte is not zero and the notch byte is zero. -/
theorem print_hex_byte_attention (color : Nat) (e : snif) (i : Nat) :
    ¬ plain (print_hex_byte color e i)
      ↔ (color ≠ 0 ∧ e.marker.data i ≠ 0 ∧ e.notch.data i = 0) := by
  have hval : ∀ b : u8, b.val = 0 ↔ b = 0 := fun b => by
    constructor
    · intro h
      exact Fin.ext h
    · intro h
      rw [h]
      rfl
  unfold print_hex_byte
  by_cases hc : color ≠ 0 ∧ (e.marker.data i).val ≠ 0 ∧ ¬ ((e.notch.data i).val ≠ 0)
  · rw [if_pos hc]
    have h3 : e.marker.data i ≠ 0 := fun h => hc.2.1 ((hval _).2 h)
    have h4 : e.notch.data i = 0 := (hval _).1 (by simpa using hc.2.2)
    simp [plain, hc.1, h3, h4]
  · rw [if_neg hc]
    have hp : plain (fmt_X 2 (e.current.data i).val ++ [Item.chr ' ']) :=
      plain_append _ _ (plain_fmt_X _ _) (by simp [plain])
    constructor
    · intro h
      exact absurd hp h
    · intro h
      exact absurd ⟨h.1, fun h0 => h.2.1 ((hval _).1 h0), by simp [h.2.2]⟩ hc

/-- The ASCII column of byte `i` is plain when colour is off, when the marker
byte is zero or when the notch byte is not zero. -/
theorem print_ascii_byte_plain (color : Nat) (e : snif) (i : Nat)
    (h : color = 0 ∨ e.marker.data i = 0 ∨ e.notch.data i ≠ 0) :
    plain (print_ascii_byte color e i) := by
  unfold print_ascii_byte
  have hc : ¬ (color ≠ 0 ∧ (e.marker.data i).val ≠ 0 ∧ ¬ ((e.notch.data i).val ≠ 0)) := by
    rintro ⟨h1, h2, h3⟩
    rcases h with h | h | h
    · exact h1 h
    · exact h2 (by rw [h]; rfl)
    · exact h (Fin.ext (by simpa using h3))
  rw [if_neg hc]
  split_ifs <;> simp [plain]

theorem print_bin_byte_plain (color binary_gap : Nat) (e : snif) (i : Nat)
    (h : color = 0 ∨ e.marker.data i = 0) : plain (print_bin_byte color binary_gap e i) := by
  have hb : ∀ j, plain (print_bit color e i j) := by
    intro j
    by_contra hn
    have := (print_bit_attention color e i j).1 hn
    rcases h with h | h
    · exact this.1 h
    · rw [h] at this
      simp at this
  unfold print_bin_byte
  refine plain_append _ _ (plain_append _ _ (plain_append _ _ (plain_append _ _
    (plain_append _ _ (plain_append _ _ (plain_append _ _ (plain_append _ _ (hb 7) (hb 6))
    (hb 5)) (hb 4)) (hb 3)) (hb 2)) (hb 1)) (hb 0)) ?_
  split_ifs <;> simp [plain]

/-- Nothing of the payload is highlighted when colour is off or the marker is
all zero. -/
theorem plain_data (s : State) (id : Nat)
    (h : s.color = 0 ∨ ∀ i, (s.sniftab id).marker.data i = 0) :
    plain (print_snifline_data s id) := by
  have h' : ∀ i, s.color = 0 ∨ (s.sniftab id).marker.data i = 0 := fun i =>
    h.elim Or.inl (fun hm => Or.inr (hm i))
  unfold print_snifline_data
  simp only []
  split_ifs
  · refine plain_append _ _ (plain_outLoop _ _ (fun i _ => print_bin_byte_plain _ _ _ i (h' i)))
      (plain_outLoop _ _ (fun i _ => plain_append _ _ (plain_blanks _) ?_))
    simp [plain]
  · refine plain_append _ _ (plain_outLoop _ _ (fun i _ => print_bin_byte_plain _ _ _ i (h' i)))
      (plain_outLoop _ _ (fun i _ => plain_append _ _ (plain_blanks _) ?_))
    simp [plain]
  · refine plain_append _ _ (plain_append _ _ (plain_append _ _ (plain_outLoop _ _ (fun i _ => ?_))
      (plain_blanks _)) (plain_outLoop _ _ (fun i _ => print_ascii_byte_plain _ _ i
        ((h' i).elim Or.inl (fun hm => Or.inr (Or.inl hm))))))
      (plain_outLoop _ _ (fun i _ => by simp [plain]))
    by_contra hn
    have := (print_hex_byte_attention s.color (s.sniftab id) i).1 hn
    rcases h' i with hc | hm
    · exact this.1 hc
    · exact this.2.1 hm
  · refine plain_append _ _ (plain_append _ _ (plain_append _ _ (plain_outLoop _ _ (fun i _ => ?_))
      (by simp [plain])) (plain_outLoop _ _ (fun i _ => print_ascii_byte_plain _ _ i
        ((h' i).elim Or.inl (fun hm => Or.inr (Or.inl hm))))))
      (plain_outLoop _ _ (fun i _ => by simp [plain]))
    by_contra hn
    have := (print_hex_byte_attention s.color (s.sniftab id) i).1 hn
    rcases h' i with hc | hm
    · exact this.1 hc
    · exact this.2.1 hm

theorem plain_line (s : State) (id : Nat)
    (h : s.color = 0 ∨ ∀ i, (s.sniftab id).marker.data i = 0) :
    plain (print_snifline_line s id) :=
  plain_append _ _ (plain_append _ _ (plain_head s id) (plain_data s id h)) (by simp [plain])

theorem print_snifline_stdout (s : State) (id : Nat) :
    (print_snifline s id).stdout = s.stdout ++ print_snifline_line s id := rfl

/-! ## C3: rendering clears the marker -/

theorem timeo_entry_marker_zero (hold currcms : Int) (force_redraw : Nat) (e : snif)
    (hz : ∀ i, e.marker.data i = 0) (i : Nat) :
    (timeo_entry hold currcms force_redraw e).marker.data i = 0 := by
  by_cases hi : i < 8
  · unfold timeo_entry
    split_ifs
    · show (timeo_expire _ _).marker.data i = 0
      rw [timeo_expire_marker]
      unfold timeo_render
      split_ifs
      · exact zero_update_byte _ i hi
      · exact zero_update_byte _ i hi
      · exact hz i
    · exact hz i
    · exact hz i
  · rw [timeo_entry_marker_ge _ _ _ _ i (by omega)]
    exact hz i

/-- An event that brings no accepted frame for `id` keeps a zero marker zero. -/
theorem marker_zero_step (s : State) (e : Event) (id : Nat) (hf : frames_for id [e] = [])
    (hz : ∀ i, (s.sniftab id).marker.data i = 0) (i : Nat) :
    ((step s e).sniftab id).marker.data i = 0 := by
  cases e with
  | keyb fd env =>
    rw [step_keyb, same_but_filter_marker _ _ (handle_keyb_rel s fd env id)]
    exact hz i
  | rdset name file =>
    rw [step_rdset, same_but_filter_marker _ _ (readsettings_rel s name 0 file id)]
    exact hz i
  | timeo currcms =>
    rw [step_timeo, handle_timeo_sniftab]
    by_cases hk : id < 2048
    · rw [if_pos hk]
      apply timeo_entry_marker_zero
      intro j
      by_cases hn : s.notch ≠ 0
      · rw [if_pos hn]
        exact hz j
      · rw [if_neg hn]
        exact hz j
    · rw [if_neg hk]
      exact hz i
  | raw nbytes cf stamp currcms =>
    rw [step_raw]
    by_cases hv : nbytes = CAN_MTU ∨ nbytes = CANFD_MTU
    · rw [handle_raw_sniftab s nbytes cf stamp currcms hv id]
      by_cases hk : id = cf.can_id &&& 0x7FF
      · have : frames_for id [Event.raw nbytes cf stamp currcms] = [cf] := by
          simp [frames_for, hv, hk]
        rw [this] at hf
        exact absurd hf (by simp)
      · rw [if_neg hk]
        exact hz i
    · rcases handle_raw_reject s nbytes cf stamp currcms hv id with h | h <;> rw [h] <;>
        exact hz i

theorem marker_zero_run (es : List Event) (s : State) (id : Nat)
    (hf : frames_for id es = []) (hz : ∀ i, (s.sniftab id).marker.data i = 0) (i : Nat) :
    ((run s es).sniftab id).marker.data i = 0 := by
  induction es generalizing s with
  | nil => exact hz i
  | cons e es ih =>
    rw [frames_for_cons, List.append_eq_nil] at hf
    rw [run_cons]
    exact ih (step s e) hf.2 (fun j => marker_zero_step s e id hf.1 hz j)

theorem print_snifline_marker_zero (s : State) (id : Nat) (h : tail_zero (s.sniftab id))
    (i : Nat) : ((print_snifline s id).sniftab id).marker.data i = 0 := by
  rw [print_snifline_sniftab, if_pos rfl]
  by_cases hi : i < 8
  · exact zero_update_byte _ i hi
  · exact (U64_DATA_set_ge _ _ _ (by omega)).trans (h i (by omega)).1

/-- C3: in every state of a run, `print_snifline` leaves the marker of the
printed element all zero (all 64 bytes); when no frame is accepted for the
element afterwards, whatever else happens (commands that switch colour or
change the notch, ticks, frames of other identifiers), the next
`print_snifline` of the element sends nothing in the attention style. -/
theorem render_clears_marker (c : Config) (es es2 : List Event) (id : Nat)
    (h : frames_for id es2 = []) :
    (∀ i, ((print_snifline (run (init c) es) id).sniftab id).marker.data i = 0)
    ∧ (print_snifline (run (print_snifline (run (init c) es) id) es2) id).stdout
        = (run (print_snifline (run (init c) es) id) es2).stdout
          ++ print_snifline_line (run (print_snifline (run (init c) es) id) es2) id
    ∧ plain (print_snifline_line (run (print_snifline (run (init c) es) id) es2) id) := by
  have h1 : ∀ i, ((print_snifline (run (init c) es) id).sniftab id).marker.data i = 0 :=
    fun i => print_snifline_marker_zero _ id (tail_zero_reach c es id) i
  exact ⟨h1, print_snifline_stdout _ _,
    plain_line _ _ (Or.inr (fun i => marker_zero_run es2 _ id h h1 i))⟩

theorem render_clears_marker_witness :
    frames_for 0x123 [Event.keyb 3 keyb_c] = []
    ∧ (∀ i, ((print_snifline (run (init default_config)
          [Event.raw CAN_MTU frame8 ⟨0, 0⟩ 0]) 0x123).sniftab 0x123).marker.data i = 0)
    ∧ (print_snifline (run (print_snifline (run (init default_config)
          [Event.raw CAN_MTU frame8 ⟨0, 0⟩ 0]) 0x123) [Event.keyb 3 keyb_c]) 0x123).stdout
        = (run (print_snifline (run (init default_config)
            [Event.raw CAN_MTU frame8 ⟨0, 0⟩ 0]) 0x123) [Event.keyb 3 keyb_c]).stdout
          ++ print_snifline_line (run (print_snifline (run (init default_config)
            [Event.raw CAN_MTU frame8 ⟨0, 0⟩ 0]) 0x123) [Event.keyb 3 keyb_c]) 0x123
    ∧ plain (print_snifline_line (run (print_snifline (run (init default_config)
          [Event.raw CAN_MTU frame8 ⟨0, 0⟩ 0]) 0x123) [Event.keyb 3 keyb_c]) 0x123) :=
  ⟨rfl, render_clears_marker default_config [Event.raw CAN_MTU frame8 ⟨0, 0⟩ 0]
    [Event.keyb 3 keyb_c] 0x123 rfl⟩

/-! ## C4: what is highlighted -/

theorem handle_timeo_body_display (currcms : Int) (force_redraw i : Nat) (s : State) :
    display_of (handle_timeo_body currcms force_redraw i s) = display_of s := by
  have h1 : display_of (handle_timeo_draw currcms force_redraw i s) = display_of s := by
    unfold handle_timeo_draw
    split_ifs <;> rfl
  have h2 : ∀ t : State, display_of (handle_timeo_expire currcms i t) = display_of t := by
    intro t
    unfold handle_timeo_expire
    split_ifs <;> rfl
  unfold handle_timeo_body
  split_ifs
  · exact (h2 _).trans h1
  · rfl
  · rfl

theorem display_of_notch (t : State) (n : Nat) :
    display_of { t with notch := n } = display_of t := rfl

theorem display_of_clearscreen (t : State) (n : Nat) :
    display_of { t with clearscreen := n } = display_of t := rfl

theorem display_of_frame_count (t : State) (n : Nat) :
    display_of { t with frame_count := n } = display_of t := rfl

theorem display_of_emit (t : State) (o : List Item) : display_of (emit t o) = display_of t := rfl

theorem notch_loop_display (n : Nat) (s : State) :
    display_of (forLoop n (fun i st => set_snif st i { st.sniftab i with
        notch := U64_DATA_set (st.sniftab i).notch
          (U64_DATA (st.sniftab i).notch ||| U64_DATA (st.sniftab i).marker) }) s)
      = display_of s :=
  forLoop_inv (fun st : State => display_of st = display_of s)
    (fun i st => set_snif st i { st.sniftab i with
      notch := U64_DATA_set (st.sniftab i).notch
        (U64_DATA (st.sniftab i).notch ||| U64_DATA (st.sniftab i).marker) })
    (fun _ _ h => h) n s rfl

theorem handle_timeo_notch_display (s : State) :
    display_of (handle_timeo_notch s) = display_of s := by
  unfold handle_timeo_notch
  by_cases hn : s.notch ≠ 0
  · rw [if_pos hn, display_of_notch, notch_loop_display]
  · rw [if_neg hn]

theorem handle_timeo_head_display (s : State) :
    display_of (handle_timeo_head s) = display_of s := by
  unfold handle_timeo_head
  simp only []
  rw [display_of_frame_count, display_of_emit, display_of_emit, handle_timeo_notch_display]
  by_cases hc : s.clearscreen ≠ 0
  · rw [if_pos hc, display_of_clearscreen, display_of_emit]
  · rw [if_neg hc]

theorem handle_timeo_display (s : State) (currcms : Int) :
    display_of (handle_timeo s currcms).2 = display_of s := by
  rw [handle_timeo_snd]
  apply forLoop_inv (fun st : State => display_of st = display_of s)
  · intro i st h
    exact (handle_timeo_body_display _ _ i st).trans h
  · exact handle_timeo_head_display s

theorem not_plain_append (a b : List Item) : ¬ plain (a ++ b) ↔ ¬ plain a ∨ ¬ plain b := by
  unfold plain
  simp only [List.mem_append, not_not]

theorem not_plain_outLoop (n : Nat) (f : Nat → List Item) :
    ¬ plain (outLoop n f) ↔ ∃ i, i < n ∧ ¬ plain (f i) := by
  induction n with
  | zero => simp [outLoop, plain]
  | succ n ih =>
    show ¬ plain (outLoop n f ++ f n) ↔ _
    rw [not_plain_append, ih]
    constructor
    · rintro (⟨i, hi, h⟩ | h)
      · exact ⟨i, Nat.lt_succ_of_lt hi, h⟩
      · exact ⟨n, Nat.lt_succ_self n, h⟩
    · rintro ⟨i, hi, h⟩
      by_cases hn : i = n
      · right
        rw [← hn]
        exact h
      · left
        exact ⟨i, by omega, h⟩

theorem print_bin_byte_attention (color binary_gap : Nat) (e : snif) (i : Nat) :
    ¬ plain (print_bin_byte color binary_gap e i)
      ↔ ∃ j, j < 8 ∧ color ≠ 0 ∧ (e.marker.data i).val.testBit j = true
          ∧ (e.notch.data i).val.testBit j = false := by
  have hg : plain (if binary_gap ≠ 0 then [Item.chr ' '] else []) := by
    split_ifs <;> simp [plain]
  unfold print_bin_byte
  simp only [not_plain_append, print_bit_attention, or_assoc]
  constructor
  · rintro (h | h | h | h | h | h | h | h | h)
    · exact ⟨7, by decide, h⟩
    · exact ⟨6, by decide, h⟩
    · exact ⟨5, by decide, h⟩
    · exact ⟨4, by decide, h⟩
    · exact ⟨3, by decide, h⟩
    · exact ⟨2, by decide, h⟩
    · exact ⟨1, by decide, h⟩
    · exact ⟨0, by decide, h⟩
    · exact absurd hg h
  · rintro ⟨j, hj, h⟩
    interval_cases j
    · exact Or.inr (Or.inr (Or.inr (Or.inr (Or.inr (Or.inr (Or.inr (Or.inl h)))))))
    · exact Or.inr (Or.inr (Or.inr (Or.inr (Or.inr (Or.inr (Or.inl h))))))
    · exact Or.inr (Or.inr (Or.inr (Or.inr (Or.inr (Or.inl h)))))
    · exact Or.inr (Or.inr (Or.inr (Or.inr (Or.inl h))))
    · exact Or.inr (Or.inr (Or.inr (Or.inl h)))
    · exact Or.inr (Or.inr (Or.inl h))
    · exact Or.inr (Or.inl h)
    · exact Or.inl h

/-- The payload line has something in the attention style exactly when colour
is on and, in binary mode, some bit of a payload byte is marked and not
notched, in hex mode, some payload byte has a marker byte that is not zero and a
notch byte that is zero. -/
theorem data_attention (s : State) (id : Nat) :
    ¬ plain (print_snifline_data s id)
      ↔ if s.binary ≠ 0 then
          ∃ i, i < (s.sniftab id).current.len ∧ ∃ j, j < 8 ∧ s.color ≠ 0
            ∧ ((s.sniftab id).marker.data i).val.testBit j = true
            ∧ ((s.sniftab id).notch.data i).val.testBit j = false
        else
          ∃ i, i < (s.sniftab id).current.len ∧ s.color ≠ 0
            ∧ (s.sniftab id).marker.data i ≠ 0 ∧ (s.sniftab id).notch.data i = 0 := by
  unfold print_snifline_data
  simp only []
  by_cases hb : s.binary ≠ 0
  · rw [if_pos hb, if_pos hb, not_plain_append, not_plain_outLoop]
    have hpad : plain (outLoop ((((s.sniftab id).last.len : Int)
        - ((s.sniftab id).current.len : Int)).toNat)
        (fun _ => blanks 8 ++ (if s.binary_gap ≠ 0 then [Item.chr ' '] else []))) :=
      plain_outLoop _ _ (fun i _ => plain_append _ _ (plain_blanks _)
        (by split_ifs <;> simp [plain]))
    simp only [print_bin_byte_attention]
    constructor
    · rintro (h | h)
      · exact h
      · exact absurd hpad h
    · intro h
      exact Or.inl h
  · rw [if_neg hb, if_neg hb, not_plain_append, not_plain_append, not_plain_append,
      not_plain_outLoop, not_plain_outLoop]
    have hpad : plain (if (s.sniftab id).current.len < 8 then
        blanks ((8 - (s.sniftab id).current.len) * 3) else []) := by
      split_ifs
      · exact plain_blanks _
      · simp [plain]
    have hbl : plain (outLoop ((((s.sniftab id).last.len : Int)
        - ((s.sniftab id).current.len : Int)).toNat) (fun _ => [Item.chr ' '])) :=
      plain_outLoop _ _ (fun i _ => by simp [plain])
    simp only [print_hex_byte_attention]
    constructor
    · rintro (((h | h) | ⟨i, hi, h⟩) | h)
      · exact h
      · exact absurd hpad h
      · refine ⟨i, hi, ?_⟩
        by_contra hn
        apply h
        apply print_ascii_byte_plain
        by_cases hc : s.color = 0
        · exact Or.inl hc
        · by_cases hm : (s.sniftab id).marker.data i = 0
          · exact Or.inr (Or.inl hm)
          · exact Or.inr (Or.inr (fun h0 => hn ⟨hc, hm, h0⟩))
      · exact absurd hbl h
    · intro h
      exact Or.inl (Or.inl (Or.inl h))

/-- C4, what `print_snifline` does: with colour enabled, the binary branch
(lines 625-626) sends a bit of a payload byte in the attention style exactly
when it is set in the marker and not set in the notch, as the claim says; the
hex branch (lines 654 and 665) tests whole bytes, and sends the hex pair of a
payload byte in the attention style exactly when its marker byte is not zero
and its notch byte is zero, which is not the claim.  The payload line has a
highlighted element exactly when such a bit, or such a byte, exists below the
length of the current frame.  With colour disabled nothing of the line is sent
in the attention style. -/
theorem attention_style (s : State) (id i j : Nat) :
    (¬ plain (print_bit s.color (s.sniftab id) i j)
      ↔ (s.color ≠ 0 ∧ ((s.sniftab id).marker.data i).val.testBit j = true
          ∧ ((s.sniftab id).notch.data i).val.testBit j = false))
    ∧ (¬ plain (print_hex_byte s.color (s.sniftab id) i)
      ↔ (s.color ≠ 0 ∧ (s.sniftab id).marker.data i ≠ 0 ∧ (s.sniftab id).notch.data i = 0))
    ∧ (¬ plain (print_snifline_data s id)
      ↔ if s.binary ≠ 0 then
          ∃ i, i < (s.sniftab id).current.len ∧ ∃ j, j < 8 ∧ s.color ≠ 0
            ∧ ((s.sniftab id).marker.data i).val.testBit j = true
            ∧ ((s.sniftab id).notch.data i).val.testBit j = false
        else
          ∃ i, i < (s.sniftab id).current.len ∧ s.color ≠ 0
            ∧ (s.sniftab id).marker.data i ≠ 0 ∧ (s.sniftab id).notch.data i = 0)
    ∧ plain (print_snifline_line { s with color := 0 } id) :=
  ⟨print_bit_attention _ _ _ _, print_hex_byte_attention _ _ _, data_attention s id,
    plain_line _ _ (Or.inl rfl)⟩

/-! ## Commands -/

/-- A command line of at most eight bytes reaches the `switch`. -/
theorem handle_keyb_cmd (s : State) (fd : Int) (env : KeybEnv) (bytes : List u8)
    (hrd : env.rd = some bytes) (hlen : bytes.length ≤ 8) :
    (handle_keyb s fd env).2
      = { handle_keyb_switch s fd (cstr bytes).dropLast env with clearscreen := 1 } := by
  unfold handle_keyb
  rw [hrd]
  simp only []
  rw [if_neg (by omega)]

theorem switch_notch (s : State) (fd : Int) (arg : List u8) (env : KeybEnv) :
    handle_keyb_switch s fd (c2b '#' :: arg) env = { s with notch := 1 } := by
  unfold handle_keyb_switch
  simp only []
  rw [if_neg (show ¬ (c2b '#' = c2b '+' ∨ c2b '#' = c2b '-') by decide)]
  rw [if_neg (show ¬ c2b '#' = c2b 'w' by decide)]
  rw [if_neg (show ¬ c2b '#' = c2b 'r' by decide)]
  rw [if_neg (show ¬ c2b '#' = c2b 'q' by decide)]
  rw [if_neg (show ¬ c2b '#' = c2b 'B' by decide)]
  rw [if_neg (show ¬ c2b '#' = c2b 'b' by decide)]
  rw [if_neg (show ¬ c2b '#' = c2b 'c' by decide)]
  exact if_pos trivial

theorem switch_star (s : State) (fd : Int) (arg : List u8) (env : KeybEnv) :
    handle_keyb_switch s fd (c2b '*' :: arg) env = star_loop 2048 s := by
  unfold handle_keyb_switch
  simp only []
  rw [if_neg (show ¬ (c2b '*' = c2b '+' ∨ c2b '*' = c2b '-') by decide)]
  rw [if_neg (show ¬ c2b '*' = c2b 'w' by decide)]
  rw [if_neg (show ¬ c2b '*' = c2b 'r' by decide)]
  rw [if_neg (show ¬ c2b '*' = c2b 'q' by decide)]
  rw [if_neg (show ¬ c2b '*' = c2b 'B' by decide)]
  rw [if_neg (show ¬ c2b '*' = c2b 'b' by decide)]
  rw [if_neg (show ¬ c2b '*' = c2b 'c' by decide)]
  rw [if_neg (show ¬ c2b '*' = c2b '#' by decide)]
  exact if_pos trivial

theorem keyb_notch_effect (s : State) (fd : Int) :
    (handle_keyb s fd keyb_notch).2 = { { s with notch := 1 } with clearscreen := 1 } := by
  rw [handle_keyb_cmd s fd keyb_notch [c2b '#', c2b '\n'] rfl (by decide)]
  have h : (cstr [c2b '#', c2b '\n']).dropLast = [c2b '#'] := by decide
  rw [h, switch_notch]

theorem handle_raw_display (s : State) (nbytes : Int) (cf : canfd_frame) (stamp : timeval)
    (currcms : Int) :
    (handle_raw s nbytes cf stamp currcms).2.color = s.color
    ∧ (handle_raw s nbytes cf stamp currcms).2.binary = s.binary
    ∧ (handle_raw s nbytes cf stamp currcms).2.binary_gap = s.binary_gap := by
  by_cases h0 : nbytes < 0 <;>
  by_cases h1 : nbytes ≠ CAN_MTU ∧ nbytes ≠ CANFD_MTU <;>
  by_cases hp : s.print_eff = 0 ∧ cf.can_id &&& CAN_EFF_FLAG ≠ 0 <;>
  by_cases hd : (s.sniftab (cf.can_id &&& 0x7FF)).flags &&& DISPLAY = 0 <;>
  simp [handle_raw, h0, h1, hp, hd, is_clr, do_set, set_snif, emit]

theorem notched_state_entry :
    notched_state.sniftab 0x123
      = raw_entry TIMEOUT frame_02 ⟨0, 0⟩ 2
          (timeo_entry HOLD 1 1
            (notch_fold (raw_entry TIMEOUT frame_01 ⟨0, 0⟩ 0 { zero_snif with flags := ENABLE }))) := by
  rw [notched_state, handle_raw_sniftab _ _ _ _ _ (Or.inl rfl), handle_timeo_timeout,
    handle_timeo_sniftab, keyb_notch_effect]
  simp only []
  rw [handle_raw_timeout, handle_raw_sniftab _ _ _ _ _ (Or.inl rfl),
    init_sniftab_lt _ _ (by decide)]
  rfl

theorem display_of_eq (s t : State) (h : display_of s = display_of t) :
    s.color = t.color ∧ s.binary = t.binary ∧ s.binary_gap = t.binary_gap
      ∧ s.print_eff = t.print_eff := by
  unfold display_of at h
  simp only [Prod.mk.injEq] at h
  exact h

theorem handle_timeo_color (s : State) (currcms : Int) :
    (handle_timeo s currcms).2.color = s.color :=
  (display_of_eq _ _ (handle_timeo_display s currcms)).1

theorem handle_timeo_binary (s : State) (currcms : Int) :
    (handle_timeo s currcms).2.binary = s.binary :=
  (display_of_eq _ _ (handle_timeo_display s currcms)).2.1

theorem notch_request_color (s : State) :
    ({ { s with notch := 1 } with clearscreen := 1 } : State).color = s.color := rfl

theorem notch_request_binary (s : State) :
    ({ { s with notch := 1 } with clearscreen := 1 } : State).binary = s.binary := rfl

theorem notched_state_display : notched_state.color = 1 ∧ notched_state.binary = 0 := by
  constructor
  · rw [notched_state, (handle_raw_display _ _ _ _ _).1, handle_timeo_color, keyb_notch_effect,
      notch_request_color, (handle_raw_display _ _ _ _ _).1]
    rfl
  · rw [notched_state, (handle_raw_display _ _ _ _ _).2.1, handle_timeo_binary,
      keyb_notch_effect, notch_request_binary, (handle_raw_display _ _ _ _ _).2.1]
    rfl

theorem binary_mode_sniftab (s : State) (b : Nat) :
    ({ s with binary := b } : State).sniftab = s.sniftab := rfl

theorem binary_mode_color (s : State) (b : Nat) :
    ({ s with binary := b } : State).color = s.color := rfl

theorem binary_mode_binary (s : State) (b : Nat) :
    ({ s with binary := b } : State).binary = b := rfl

/-- Binary mode: a bit below the length that is marked and not notched makes
the payload line carry the attention style. -/
theorem binary_mode_attention (s : State) (id i j : Nat)
    (hi : i < (s.sniftab id).current.len) (hj : j < 8) (hc : s.color ≠ 0)
    (hm : ((s.sniftab id).marker.data i).val.testBit j = true)
    (hn : ((s.sniftab id).notch.data i).val.testBit j = false) :
    ¬ plain (print_snifline_data { s with binary := 1 } id) := by
  rw [data_attention, binary_mode_binary, if_pos Nat.one_ne_zero, binary_mode_sniftab,
    binary_mode_color]
  exact ⟨i, hi, j, hj, hc, hm, hn⟩

/-- C4 fails in hex mode: colour is on, byte 0 of the payload has bit 1 marked
and not notched (bit 0 is notched), and still nothing of the payload line is
sent in the attention style; the binary branch sends this bit of this entry in
the attention style, and so does the payload line of the same state in binary
mode. -/
theorem hex_pair_with_notched_bit_stays_plain :
    notched_state.color = 1 ∧ notched_state.binary = 0
    ∧ 0 < (notched_state.sniftab 0x123).current.len
    ∧ ((notched_state.sniftab 0x123).marker.data 0).val.testBit 1 = true
    ∧ ((notched_state.sniftab 0x123).notch.data 0).val.testBit 1 = false
    ∧ plain (print_snifline_data notched_state 0x123)
    ∧ ¬ plain (print_bit notched_state.color (notched_state.sniftab 0x123) 0 1)
    ∧ ¬ plain (print_snifline_data { notched_state with binary := 1 } 0x123) := by
  have hlen : (notched_state.sniftab 0x123).current.len = 1 := by
    rw [notched_state_entry]
    rfl
  have hn : ((notched_state.sniftab 0x123).notch.data 0).val = 1 := by
    rw [notched_state_entry]
    rfl
  have hm : ((notched_state.sniftab 0x123).marker.data 0).val = 3 := by
    rw [notched_state_entry]
    rfl
  have hcol : notched_state.color ≠ 0 := by
    rw [notched_state_display.1]
    exact Nat.one_ne_zero
  have hmb : ((notched_state.sniftab 0x123).marker.data 0).val.testBit 1 = true := by
    rw [hm]
    rfl
  have hnb : ((notched_state.sniftab 0x123).notch.data 0).val.testBit 1 = false := by
    rw [hn]
    rfl
  refine ⟨notched_state_display.1, notched_state_display.2, ?_, hmb, hnb, ?_, ?_, ?_⟩
  · rw [hlen]
    exact Nat.one_pos
  · by_contra h
    rw [data_attention, if_neg (by rw [notched_state_display.2]; simp)] at h
    obtain ⟨i, hi, _, _, h0⟩ := h
    rw [hlen] at hi
    have hi0 : i = 0 := by omega
    rw [hi0] at h0
    rw [h0] at hn
    exact absurd hn (by decide)
  · rw [print_bit_attention]
    exact ⟨hcol, hmb, hnb⟩
  · exact binary_mode_attention notched_state 0x123 0 1 (by rw [hlen]; exact Nat.one_pos)
      (by decide) hcol hmb hnb

/-! ## C5: filter commands -/

theorem hexval_cases (d : u8) (h : (hexval d).isSome = true) :
    (48 ≤ d.val ∧ d.val ≤ 57) ∨ (65 ≤ d.val ∧ d.val ≤ 70) ∨ (97 ≤ d.val ∧ d.val ≤ 102) := by
  unfold hexval at h
  by_cases h1 : 48 ≤ d.val ∧ d.val ≤ 57
  · exact Or.inl h1
  · by_cases h2 : 65 ≤ d.val ∧ d.val ≤ 70
    · exact Or.inr (Or.inl h2)
    · by_cases h3 : 97 ≤ d.val ∧ d.val ≤ 102
      · exact Or.inr (Or.inr h3)
      · rw [if_neg h1, if_neg h2, if_neg h3] at h
        exact absurd h (by simp)

theorem hexval_lt (d : u8) : (hexval d).getD 0 < 16 := by
  unfold hexval
  split_ifs <;> simp <;> omega

theorem u8_ne_of_val (d : u8) (c : Char) (h : d.val ≠ c.toNat % 256) : d ≠ c2b c := by
  intro hd
  apply h
  rw [hd]
  rfl

theorem hex_not_special (d : u8) (h : (hexval d).isSome = true) :
    isspace d = false ∧ d ≠ c2b '-' ∧ d ≠ c2b '+' ∧ d ≠ c2b 'x' ∧ d ≠ c2b 'X' ∧ d ≠ 0 := by
  have hc := hexval_cases d h
  refine ⟨?_, ?_, ?_, ?_, ?_, ?_⟩
  · unfold isspace
    simp only [decide_eq_false_iff_not]
    omega
  · apply u8_ne_of_val
    have : '-'.toNat % 256 = 45 := by decide
    omega
  · apply u8_ne_of_val
    have : '+'.toNat % 256 = 43 := by decide
    omega
  · apply u8_ne_of_val
    have : 'x'.toNat % 256 = 120 := by decide
    omega
  · apply u8_ne_of_val
    have : 'X'.toNat % 256 = 88 := by decide
    omega
  · intro h0
    rw [h0] at hc
    simp at hc

theorem hex_digits_some (ds : List u8) (acc : Nat) (h : ∀ d ∈ ds, (hexval d).isSome = true) :
    hex_digits ds (some acc)
      = some (ds.foldl (fun a d => 16 * a + (hexval d).getD 0) acc) := by
  induction ds generalizing acc with
  | nil => rfl
  | cons d ds ih =>
    have hd := h d (List.mem_cons_self _ _)
    obtain ⟨v, hv⟩ := Option.isSome_iff_exists.1 hd
    unfold hex_digits
    rw [hv]
    simp only [Option.getD_some, List.foldl_cons, hv]
    exact ih _ (fun x hx => h x (List.mem_cons_of_mem _ hx))

theorem hex_digits_none (ds : List u8) (h : ∀ d ∈ ds, (hexval d).isSome = true) (hne : ds ≠ []) :
    hex_digits ds none = some (hex_number ds) := by
  cases ds with
  | nil => exact absurd rfl hne
  | cons d ds =>
    have hd := h d (List.mem_cons_self _ _)
    obtain ⟨v, hv⟩ := Option.isSome_iff_exists.1 hd
    unfold hex_digits hex_number
    rw [hv]
    simp only [Option.getD_none, List.foldl_cons, hv, Option.getD_some]
    exact hex_digits_some ds _ (fun x hx => h x (List.mem_cons_of_mem _ hx))

theorem scan_hex_digits (ds : List u8) (h : ∀ d ∈ ds, (hexval d).isSome = true) (hne : ds ≠ []) :
    scan_hex ds = some (hex_number ds : Int) := by
  cases ds with
  | nil => exact absurd rfl hne
  | cons d ds =>
    have hd := hex_not_special d (h d (List.mem_cons_self _ _))
    have h1 : (d :: ds).dropWhile isspace = d :: ds :=
      List.dropWhile_cons_of_neg (by simp [hd.1])
    unfold scan_hex
    simp only [h1]
    have h2 : ¬ (d = c2b '-' ∨ d = c2b '+') := by
      rintro (h | h)
      · exact hd.2.1 h
      · exact hd.2.2.1 h
    rw [if_neg h2]
    have h3 : (match d :: ds with
        | a :: b :: c :: rest =>
          if a = c2b '0' ∧ (b = c2b 'x' ∨ b = c2b 'X') ∧ (hexval c).isSome then c :: rest
          else d :: ds
        | _ => d :: ds) = d :: ds := by
      cases ds with
      | nil => rfl
      | cons b ds =>
        cases ds with
        | nil => rfl
        | cons c rest =>
          have hb := hex_not_special b (h b (by simp))
          simp only []
          rw [if_neg]
          rintro ⟨_, hx, _⟩
          rcases hx with hx | hx
          · exact hb.2.2.2.1 hx
          · exact hb.2.2.2.2.1 hx
    rw [h3, hex_digits_none (d :: ds) h hne]
    simp [hd.2.1]

theorem hex_number_append (a b : List u8) :
    hex_number (a ++ b) = hex_number a * 16 ^ b.length + hex_number b := by
  unfold hex_number
  rw [List.foldl_append]
  generalize List.foldl (fun acc d => 16 * acc + (hexval d).getD 0) 0 a = x
  induction b generalizing x with
  | nil => simp
  | cons d b ih =>
    simp only [List.foldl_cons, List.length_cons]
    rw [ih (16 * x + (hexval d).getD 0), ih (16 * 0 + (hexval d).getD 0)]
    ring

theorem hex_number_lt (ds : List u8) : hex_number ds < 16 ^ ds.length := by
  induction ds using List.reverseRecOn with
  | nil => simp [hex_number]
  | append_singleton ds d ih =>
    rw [hex_number_append]
    have hd : hex_number [d] < 16 := by
      simp only [hex_number, List.foldl_cons, List.foldl_nil, Nat.mul_zero, Nat.zero_add]
      exact hexval_lt d
    simp only [List.length_append, List.length_singleton, pow_succ, pow_zero, one_mul]
    omega

theorem sscanf_x_digits (ds : List u8) (h : ∀ d ∈ ds, (hexval d).isSome = true) (hne : ds ≠ [])
    (h6 : ds.length ≤ 6) : sscanf_x ds = some (hex_number ds) := by
  unfold sscanf_x
  rw [scan_hex_digits ds h hne]
  have hlt := hex_number_lt ds
  have h16 : 16 ^ ds.length ≤ 16 ^ 6 := Nat.pow_le_pow_right (by decide) h6
  have hb : hex_number ds < 2 ^ 32 := by
    have : (16:Nat) ^ 6 < 2 ^ 32 := by decide
    omega
  simp only [Option.map_some']
  congr 1
  have : ((hex_number ds : Int) % (2 ^ 32 : Int)) = (hex_number ds : Int) := by
    apply Int.emod_eq_of_lt
    · exact Int.natCast_nonneg _
    · exact_mod_cast hb
  rw [this]
  simp

theorem and_field (i w k : Nat) : i &&& ((2 ^ w - 1) <<< k) = ((i >>> k) % 2 ^ w) <<< k := by
  apply Nat.eq_of_testBit_eq
  intro j
  simp only [Nat.testBit_and, Nat.testBit_shiftLeft, Nat.testBit_two_pow_sub_one,
    Nat.testBit_mod_two_pow, Nat.testBit_shiftRight]
  by_cases hj : k ≤ j
  · have : k + (j - k) = j := by omega
    simp [hj, this, Bool.and_comm]
  · simp [hj]

theorem cstr_self (l : List u8) (h : ∀ b ∈ l, b ≠ 0) : cstr l = l := by
  unfold cstr
  rw [List.takeWhile_eq_self_iff]
  intro b hb
  simpa using h b hb

theorem cmd_line (c : u8) (ds : List u8) (hc : c ≠ 0)
    (hds : ∀ d ∈ ds, (hexval d).isSome = true) :
    (cstr (c :: ds ++ [c2b '\n'])).dropLast = c :: ds := by
  rw [cstr_self]
  · exact @List.dropLast_concat _ (c :: ds) _
  · intro b hb
    simp only [List.cons_append, List.mem_cons, List.mem_append, List.mem_singleton,
      List.not_mem_nil, or_false] at hb
    rcases hb with h | h | h
    · rw [h]
      exact hc
    · exact (hex_not_special b (hds b h)).2.2.2.2.2
    · rw [h]
      decide

theorem switch_filter (s : State) (fd : Int) (c : u8) (arg : List u8) (env : KeybEnv)
    (hc : c = c2b '+' ∨ c = c2b '-') :
    handle_keyb_switch s fd (c :: arg) env
      = filter_cmd (c = c2b '+')
          (if arg.length > 3 then (sscanf_x arg).getD env.uninit &&& 0xFFF else 0x7FF)
          (if arg.length > 3 then (sscanf_x arg).getD env.uninit >>> 12
            else (sscanf_x arg).getD env.uninit) s := by
  unfold handle_keyb_switch
  simp only []
  rw [if_pos hc]

theorem code_mask (ds : List u8) :
    (if ds.length > 3 then hex_number ds &&& 0xFFF else 0x7FF) = filter_mask ds := by
  unfold filter_mask
  have h := Nat.and_pow_two_sub_one_eq_mod (hex_number ds) 12
  have h12 : (2:Nat) ^ 12 - 1 = 0xFFF := by decide
  have h13 : (2:Nat) ^ 12 = 4096 := by decide
  rw [h12, h13] at h
  rw [h]

theorem code_value (ds : List u8) :
    (if ds.length > 3 then hex_number ds >>> 12 else hex_number ds) = filter_value ds := by
  unfold filter_value
  by_cases h : ds.length > 3
  · rw [if_pos h, if_pos h]
    have hs := List.take_append_drop (ds.length - 3) ds
    have hl : (ds.drop (ds.length - 3)).length = 3 := by
      rw [List.length_drop]
      omega
    have hn := hex_number_append (ds.take (ds.length - 3)) (ds.drop (ds.length - 3))
    rw [hs, hl] at hn
    have hlt := hex_number_lt (ds.drop (ds.length - 3))
    rw [hl] at hlt
    rw [Nat.shiftRight_eq_div_pow, hn]
    have h1 : (16:Nat) ^ 3 = 4096 := by decide
    have h2 : (2:Nat) ^ 12 = 4096 := by decide
    rw [h1] at hlt
    rw [h1, h2]
    omega
  · rw [if_neg h, if_neg h]

theorem clearscreen_sniftab (t : State) (n : Nat) :
    ({ t with clearscreen := n } : State).sniftab = t.sniftab := rfl

theorem is_set_filter_entry (add : Bool) (mask value i : Nat) (e : snif) :
    ((filter_entry add mask value i e).flags &&& ENABLE ≠ 0)
      ↔ if add = true then (e.flags &&& ENABLE ≠ 0 ∨ i &&& mask = value &&& mask)
        else (e.flags &&& ENABLE ≠ 0 ∧ i &&& mask ≠ value &&& mask) := by
  unfold filter_entry
  cases add
  · simp only [Bool.false_eq_true, if_false]
    by_cases h : i &&& mask = value &&& mask ∧ e.flags &&& ENABLE ≠ 0
    · rw [if_pos h]
      show (e.flags &&& (0xFFFFFFFF ^^^ ENABLE)) &&& ENABLE ≠ 0 ↔ _
      rw [and_clr_same _ _ (by decide)]
      simp [h.1]
    · rw [if_neg h]
      constructor
      · intro hE
        exact ⟨hE, fun hm => h ⟨hm, hE⟩⟩
      · intro hE
        exact hE.1
  · simp only [if_true]
    by_cases h : i &&& mask = value &&& mask ∧ e.flags &&& ENABLE = 0
    · rw [if_pos h]
      show (e.flags ||| ENABLE) &&& ENABLE ≠ 0 ↔ _
      rw [or_and_same]
      simp [h.1, ENABLE]
    · rw [if_neg h]
      constructor
      · intro hE
        exact Or.inl hE
      · rintro (hE | hm)
        · exact hE
        · exact fun h0 => h ⟨hm, h0⟩

theorem is_set_iff (s : State) (i flag : Nat) :
    is_set s i flag = true ↔ (s.sniftab i).flags &&& flag ≠ 0 := by
  unfold is_set
  simp

theorem is_set_congr (s t : State) (i flag : Nat)
    (h : (t.sniftab i).flags &&& flag = (s.sniftab i).flags &&& flag) :
    is_set t i flag = is_set s i flag := by
  unfold is_set
  rw [h]

theorem filter_entry_keeps (add : Bool) (mask value i : Nat) (e : snif) :
    filter_entry add mask value i e
        = { e with flags := (filter_entry add mask value i e).flags }
      ∧ (filter_entry add mask value i e).flags &&& DISPLAY = e.flags &&& DISPLAY
      ∧ (filter_entry add mask value i e).flags &&& UPDATE = e.flags &&& UPDATE := by
  have h := filter_entry_rel add mask value i e
  refine ⟨?_, h.2.1, h.2.2.1⟩
  unfold filter_entry
  split_ifs <;> rfl

theorem c2b_sign (add : Bool) :
    (c2b (if add = true then '+' else '-') = c2b '+' ∨ c2b (if add = true then '+' else '-') = c2b '-')
    ∧ c2b (if add = true then '+' else '-') ≠ 0
    ∧ decide (c2b (if add = true then '+' else '-') = c2b '+') = add := by
  cases add <;> decide

theorem example_400600 (i : Nat) (hi : i < 2048) :
    (i &&& filter_mask digits_400600 = filter_value digits_400600 &&& filter_mask digits_400600)
      ↔ (0x400 ≤ i ∧ i ≤ 0x5FF) := by
  have hm : filter_mask digits_400600 = (2 ^ 2 - 1) <<< 9 := by decide
  have hv : filter_value digits_400600 = 0x400 := by decide
  have h2 : (0x400 : Nat) &&& ((2 ^ 2 - 1) <<< 9) = 0x400 := by decide
  rw [hm, hv, h2, and_field, Nat.shiftLeft_eq, Nat.shiftRight_eq_div_pow]
  omega

theorem example_500700 (i : Nat) (hi : i < 2048) :
    (i &&& filter_mask digits_500700 = filter_value digits_500700 &&& filter_mask digits_500700)
      ↔ (0x500 ≤ i ∧ i ≤ 0x5FF) := by
  have hm : filter_mask digits_500700 = (2 ^ 3 - 1) <<< 8 := by decide
  have hv : filter_value digits_500700 = 0x500 := by decide
  have h2 : (0x500 : Nat) &&& ((2 ^ 3 - 1) <<< 8) = 0x500 := by decide
  rw [hm, hv, h2, and_field, Nat.shiftLeft_eq, Nat.shiftRight_eq_div_pow]
  omega

theorem example_1F5 (i : Nat) (hi : i < 2048) :
    (i &&& filter_mask digits_1F5 = filter_value digits_1F5 &&& filter_mask digits_1F5)
      ↔ i = 0x1F5 := by
  have hm : filter_mask digits_1F5 = (2 ^ 11 - 1) <<< 0 := by decide
  have hv : filter_value digits_1F5 = 0x1F5 := by decide
  have h2 : (0x1F5 : Nat) &&& ((2 ^ 11 - 1) <<< 0) = 0x1F5 := by decide
  rw [hm, hv, h2, and_field, Nat.shiftLeft_eq, Nat.shiftRight_eq_div_pow]
  omega

/-- C5 (as amended): a command line `+` or `-`, one to six hexadecimal digits,
`ENTER`.  With value and mask as the claim defines them, `+` makes identifier
`i < 2048` enabled iff it was enabled or `(i & mask) == (value & mask)`, `-`
makes it enabled iff it was enabled and `(i & mask) != (value & mask)`; no other
field of any element changes.  With more than six digits the line is longer
than eight bytes and `handle_keyb` ignores it: the state is unchanged.  The
examples of the manual follow: `400600` selects 0x400..0x5FF, `500700` selects
0x500..0x5FF, `1F5` selects 0x1F5 alone, `42E` and `42E7FF` select the same. -/
theorem filter_command (s : State) (fd : Int) (env : KeybEnv) (add : Bool) (ds : List u8)
    (hrd : env.rd = some (c2b (if add = true then '+' else '-') :: ds ++ [c2b '\n']))
    (hds : ∀ d ∈ ds, (hexval d).isSome = true) (hne : ds ≠ []) :
    (if ds.length ≤ 6 then
      (∀ i, i < 2048 →
        (is_set (handle_keyb s fd env).2 i ENABLE = true
          ↔ if add = true then
              (is_set s i ENABLE = true
                ∨ i &&& filter_mask ds = filter_value ds &&& filter_mask ds)
            else
              (is_set s i ENABLE = true
                ∧ i &&& filter_mask ds ≠ filter_value ds &&& filter_mask ds)))
      ∧ (∀ k, (handle_keyb s fd env).2.sniftab k
            = { s.sniftab k with flags := ((handle_keyb s fd env).2.sniftab k).flags }
          ∧ is_set (handle_keyb s fd env).2 k DISPLAY = is_set s k DISPLAY
          ∧ is_set (handle_keyb s fd env).2 k UPDATE = is_set s k UPDATE)
    else (handle_keyb s fd env).2 = s)
    ∧ (∀ i, i < 2048 →
        ((i &&& filter_mask digits_400600
            = filter_value digits_400600 &&& filter_mask digits_400600)
          ↔ (0x400 ≤ i ∧ i ≤ 0x5FF)))
    ∧ (∀ i, i < 2048 →
        ((i &&& filter_mask digits_500700
            = filter_value digits_500700 &&& filter_mask digits_500700)
          ↔ (0x500 ≤ i ∧ i ≤ 0x5FF)))
    ∧ (∀ i, i < 2048 →
        ((i &&& filter_mask digits_1F5 = filter_value digits_1F5 &&& filter_mask digits_1F5)
          ↔ i = 0x1F5))
    ∧ filter_mask digits_42E = filter_mask digits_42E7FF
    ∧ filter_value digits_42E = filter_value digits_42E7FF := by
  refine ⟨?_, example_400600, example_500700, example_1F5, by decide, by decide⟩
  by_cases h6 : ds.length ≤ 6
  · rw [if_pos h6]
    have hb : (c2b (if add = true then '+' else '-') :: ds ++ [c2b '\n']).length ≤ 8 := by
      simp only [List.cons_append, List.length_cons, List.length_append, List.length_singleton,
        List.length_nil]
      omega
    have hsw : (handle_keyb s fd env).2
        = { filter_cmd add (filter_mask ds) (filter_value ds) s with clearscreen := 1 } := by
      rw [handle_keyb_cmd s fd env _ hrd hb, cmd_line _ ds (c2b_sign add).2.1 hds,
        switch_filter _ _ _ _ _ (c2b_sign add).1, sscanf_x_digits ds hds hne h6,
        (c2b_sign add).2.2]
      simp only [Option.getD_some]
      rw [code_mask, code_value]
    have hent : ∀ k, (handle_keyb s fd env).2.sniftab k
        = if k < 2048 then filter_entry add (filter_mask ds) (filter_value ds) k (s.sniftab k)
          else s.sniftab k := by
      intro k
      rw [hsw, clearscreen_sniftab, filter_cmd_sniftab]
    constructor
    · intro i hi
      rw [is_set_iff, is_set_iff, hent i, if_pos hi, is_set_filter_entry]
    · intro k
      rw [hent k]
      by_cases hk : k < 2048
      · rw [if_pos hk]
        have h := filter_entry_keeps add (filter_mask ds) (filter_value ds) k (s.sniftab k)
        refine ⟨h.1, ?_, ?_⟩
        · apply is_set_congr
          rw [hent k, if_pos hk]
          exact h.2.1
        · apply is_set_congr
          rw [hent k, if_pos hk]
          exact h.2.2
      · rw [if_neg hk]
        refine ⟨rfl, ?_, ?_⟩
        · apply is_set_congr
          rw [hent k, if_neg hk]
        · apply is_set_congr
          rw [hent k, if_neg hk]
  · rw [if_neg h6]
    unfold handle_keyb
    rw [hrd]
    simp only []
    rw [if_pos]
    simp only [List.cons_append, List.length_cons, List.length_append, List.length_singleton,
      List.length_nil]
    omega

theorem hex_digits_400600 : ∀ d ∈ digits_400600, (hexval d).isSome = true := by
  intro d hd
  unfold digits_400600 at hd
  simp only [List.mem_cons, List.mem_singleton, List.not_mem_nil, or_false] at hd
  rcases hd with h | h | h | h | h | h <;> rw [h] <;> decide

theorem hex_digits_0000000 : ∀ d ∈ digits_0000000, (hexval d).isSome = true := by
  intro d hd
  unfold digits_0000000 at hd
  simp only [List.mem_cons, List.mem_singleton, List.not_mem_nil, or_false] at hd
  rcases hd with h | h | h | h | h | h | h <;> rw [h] <;> decide

theorem filter_command_witness :
    keyb_plus_400600.rd
        = some (c2b (if true = true then '+' else '-') :: digits_400600 ++ [c2b '\n'])
    ∧ (∀ d ∈ digits_400600, (hexval d).isSome = true)
    ∧ digits_400600 ≠ []
    ∧ (if digits_400600.length ≤ 6 then
      (∀ i, i < 2048 →
        (is_set (handle_keyb (init default_config) 3 keyb_plus_400600).2 i ENABLE = true
          ↔ if true = true then
              (is_set (init default_config) i ENABLE = true
                ∨ i &&& filter_mask digits_400600 = filter_value digits_400600 &&& filter_mask digits_400600)
            else
              (is_set (init default_config) i ENABLE = true
                ∧ i &&& filter_mask digits_400600 ≠ filter_value digits_400600 &&& filter_mask digits_400600)))
      ∧ (∀ k, (handle_keyb (init default_config) 3 keyb_plus_400600).2.sniftab k
            = { (init default_config).sniftab k with flags := ((handle_keyb (init default_config) 3 keyb_plus_400600).2.sniftab k).flags }
          ∧ is_set (handle_keyb (init default_config) 3 keyb_plus_400600).2 k DISPLAY = is_set (init default_config) k DISPLAY
          ∧ is_set (handle_keyb (init default_config) 3 keyb_plus_400600).2 k UPDATE = is_set (init default_config) k UPDATE)
    else (handle_keyb (init default_config) 3 keyb_plus_400600).2 = init default_config)
    ∧ (∀ i, i < 2048 →
        ((i &&& filter_mask digits_400600
            = filter_value digits_400600 &&& filter_mask digits_400600)
          ↔ (0x400 ≤ i ∧ i ≤ 0x5FF)))
    ∧ (∀ i, i < 2048 →
        ((i &&& filter_mask digits_500700
            = filter_value digits_500700 &&& filter_mask digits_500700)
          ↔ (0x500 ≤ i ∧ i ≤ 0x5FF)))
    ∧ (∀ i, i < 2048 →
        ((i &&& filter_mask digits_1F5 = filter_value digits_1F5 &&& filter_mask digits_1F5)
          ↔ i = 0x1F5))
    ∧ filter_mask digits_42E = filter_mask digits_42E7FF
    ∧ filter_value digits_42E = filter_value digits_42E7FF :=
  ⟨rfl, hex_digits_400600, by decide,
    filter_command (init default_config) 3 keyb_plus_400600 true digits_400600 rfl
      hex_digits_400600 (by decide)⟩

/-- A line of more than eight bytes is ignored. -/
theorem handle_keyb_long (s : State) (fd : Int) (env : KeybEnv) (bytes : List u8)
    (hrd : env.rd = some bytes) (hlen : bytes.length > 8) : (handle_keyb s fd env).2 = s := by
  unfold handle_keyb
  rw [hrd]
  simp only []
  rw [if_pos hlen]

/-- C5 (as stated) fails for seven digits: `-0000000` has mask 0, so that every
identifier matches and the claim has identifier 0 disabled; the line is nine
bytes long, `handle_keyb` ignores it and identifier 0 stays enabled. -/
theorem long_filter_command_is_ignored :
    keyb_minus_0000000.rd = some (c2b '-' :: digits_0000000 ++ [c2b '\n'])
    ∧ (∀ d ∈ digits_0000000, (hexval d).isSome = true)
    ∧ 0 &&& filter_mask digits_0000000
        = filter_value digits_0000000 &&& filter_mask digits_0000000
    ∧ is_set (init default_config) 0 ENABLE = true
    ∧ is_set (handle_keyb (init default_config) 3 keyb_minus_0000000).2 0 ENABLE = true := by
  refine ⟨rfl, hex_digits_0000000, by decide, rfl, ?_⟩
  rw [handle_keyb_long _ _ keyb_minus_0000000 _ rfl (by decide)]
  rfl

/-! ## The settings file, written and read back -/


theorem padZero_length (w : Nat) (l : List Char) : w ≤ (padZero w l).length := by
  unfold padZero
  simp only [List.length_append, List.length_replicate]
  omega

theorem padZero_length_eq (w : Nat) (l : List Char) (h : l.length ≤ w) :
    (padZero w l).length = w := by
  unfold padZero
  simp only [List.length_append, List.length_replicate]
  omega

theorem digitsAux_length (fuel n : Nat) (acc : List Char) (k : Nat) (hk : 1 ≤ k)
    (hn : n < 16 ^ k) : (digitsAux 16 fuel n acc).length ≤ acc.length + k := by
  induction fuel generalizing n acc k with
  | zero =>
    unfold digitsAux
    omega
  | succ fuel ih =>
    unfold digitsAux
    by_cases h : n / 16 = 0
    · rw [if_pos h]
      simp only [List.length_cons]
      omega
    · rw [if_neg h]
      have hk2 : 2 ≤ k := by
        by_contra hc
        have : k = 1 := by omega
        rw [this] at hn
        simp at hn
        omega
      have hlt : n / 16 < 16 ^ (k - 1) := by
        have : 16 ^ k = 16 ^ (k - 1) * 16 := by
          rw [← pow_succ]
          congr 1
          omega
        rw [this] at hn
        exact Nat.div_lt_of_lt_mul (by rw [Nat.mul_comm]; exact hn)
      have := ih (n / 16) (digitChar (n % 16) :: acc) (k - 1) (by omega) hlt
      simp only [List.length_cons] at this
      omega

theorem tag_length (i : Nat) (hi : i < 2048) : (padZero 3 (digits 16 i)).length = 3 := by
  apply padZero_length_eq
  have := digitsAux_length (i + 1) i [] 3 (by decide) (by
    have : (16:Nat) ^ 3 = 4096 := by decide
    omega)
  simpa [digits] using this

theorem byte_digits (b : Nat) (hb : b < 256) :
    padZero 2 (digits 16 b) = [digitChar (b / 16), digitChar (b % 16)] := by
  unfold digits
  by_cases h : b / 16 = 0
  · unfold digitsAux
    rw [if_pos h]
    have : digitChar 0 = '0' := by decide
    rw [h, this]
    rfl
  · unfold digitsAux
    rw [if_neg h]
    have hb1 : b = (b - 1) + 1 := by omega
    rw [hb1]
    unfold digitsAux
    have h2 : (b - 1 + 1) / 16 / 16 = 0 := by omega
    rw [if_pos h2]
    have h3 : (b - 1 + 1) / 16 % 16 = (b - 1 + 1) / 16 := by omega
    rw [h3]
    rfl

theorem hexval_digitChar (d : Nat) (hd : d < 16) : hexval (c2b (digitChar d)) = some d := by
  interval_cases d <;> rfl

theorem digit_byte_ne_zero (d : Nat) (hd : d < 16) : c2b (digitChar d) ≠ 0 := by
  interval_cases d <;> decide

theorem scan_hex_pair (h l : u8) (tail : List u8) (vh vl : Nat) (hh : hexval h = some vh)
    (hl : hexval l = some vl) (ht : ∀ x r, tail = x :: r → hexval x = none) :
    scan_hex (h :: l :: tail) = some ((16 * vh + vl : Nat) : Int) := by
  have hh' := hex_not_special h (by rw [hh]; rfl)
  have hl' := hex_not_special l (by rw [hl]; rfl)
  have h1 : (h :: l :: tail).dropWhile isspace = h :: l :: tail :=
    List.dropWhile_cons_of_neg (by simp [hh'.1])
  have h2 : ¬ (h = c2b '-' ∨ h = c2b '+') := by
    rintro (h0 | h0)
    · exact hh'.2.1 h0
    · exact hh'.2.2.1 h0
  have h4 : hex_digits (h :: l :: tail) none = some (16 * vh + vl) := by
    unfold hex_digits
    rw [hh]
    simp only [Option.getD_none]
    unfold hex_digits
    rw [hl]
    simp only [Option.getD_some]
    have h0 : 16 * (16 * 0 + vh) + vl = 16 * vh + vl := by omega
    rw [h0]
    cases tail with
    | nil => rfl
    | cons x r =>
      unfold hex_digits
      rw [ht x r rfl]
  unfold scan_hex
  simp only [h1]
  rw [if_neg h2]
  cases tail with
  | nil =>
    simp only []
    rw [h4]
    simp [hh'.2.1]
  | cons c rest =>
    simp only []
    have h5 : ¬ (h = c2b '0' ∧ (l = c2b 'x' ∨ l = c2b 'X') ∧ (hexval c).isSome = true) := by
      rintro ⟨_, hx, _⟩
      rcases hx with hx | hx
      · exact hl'.2.2.2.1 hx
      · exact hl'.2.2.2.2.1 hx
    rw [if_neg h5, h4]
    simp [hh'.2.1]

theorem strtoul_pair (b : u8) (tail : List u8) (ht : ∀ x r, tail = x :: r → hexval x = none) :
    toU8 (strtoul16 (hexpair b ++ tail)) = b := by
  have hb := b.isLt
  have h := scan_hex_pair (c2b (digitChar (b.val / 16))) (c2b (digitChar (b.val % 16))) tail
    (b.val / 16) (b.val % 16) (hexval_digitChar _ (by omega)) (hexval_digitChar _ (by omega)) ht
  have hv : 16 * (b.val / 16) + b.val % 16 = b.val := by omega
  rw [hv] at h
  unfold strtoul16 hexpair
  simp only [List.cons_append, List.nil_append]
  rw [h]
  simp only []
  have h1 : ¬ ((b.val : Int).natAbs ≥ 2 ^ 64) := by
    simp only [Int.natAbs_ofNat]
    omega
  rw [if_neg h1]
  apply Fin.ext
  have h2 : ((b.val : Int) % (2 ^ 64 : Int)).toNat = b.val := by
    omega
  rw [h2]
  show b.val % 256 = b.val
  omega

theorem cstr_pair_zero (b : u8) (rest : List u8) : cstr (hexpair b ++ (0 :: rest)) = hexpair b := by
  have hb := b.isLt
  have h1 := digit_byte_ne_zero (b.val / 16) (by omega)
  have h2 := digit_byte_ne_zero (b.val % 16) (by omega)
  unfold cstr hexpair
  simp only [List.cons_append, List.nil_append]
  rw [List.takeWhile_cons_of_pos (by simpa using h1),
    List.takeWhile_cons_of_pos (by simpa using h2), List.takeWhile_cons_of_neg (by simp)]

theorem cstr_pair_nl (b : u8) (rest : List u8) :
    cstr (hexpair b ++ (c2b '\n' :: 0 :: rest)) = hexpair b ++ [c2b '\n'] := by
  have hb := b.isLt
  have h1 := digit_byte_ne_zero (b.val / 16) (by omega)
  have h2 := digit_byte_ne_zero (b.val % 16) (by omega)
  have h3 : c2b '\n' ≠ 0 := by decide
  unfold cstr hexpair
  simp only [List.cons_append, List.nil_append]
  rw [List.takeWhile_cons_of_pos (by simpa using h1),
    List.takeWhile_cons_of_pos (by simpa using h2),
    List.takeWhile_cons_of_pos (by simpa using h3), List.takeWhile_cons_of_neg (by simp)]

theorem read_pair_zero (b : u8) (rest : List u8) :
    toU8 (strtoul16 (cstr (hexpair b ++ (0 :: rest)))) = b := by
  rw [cstr_pair_zero]
  have := strtoul_pair b [] (fun x r h => by simp at h)
  simpa using this

theorem read_pair_nl (b : u8) (rest : List u8) :
    toU8 (strtoul16 (cstr (hexpair b ++ (c2b '\n' :: 0 :: rest)))) = b := by
  rw [cstr_pair_nl]
  exact strtoul_pair b [c2b '\n'] (fun x r h => by
    simp only [List.cons.injEq] at h
    rw [← h.1]
    rfl)

theorem read_pair_zero' (b : u8) (rest : List u8) :
    toU8 (strtoul16 (cstr (c2b (digitChar (b.val / 16)) :: c2b (digitChar (b.val % 16))
      :: 0 :: rest))) = b :=
  read_pair_zero b rest

theorem read_pair_nl' (b : u8) (rest : List u8) :
    toU8 (strtoul16 (cstr (c2b (digitChar (b.val / 16)) :: c2b (digitChar (b.val % 16))
      :: c2b '\n' :: 0 :: rest))) = b :=
  read_pair_nl b rest

/-- The loop over `j` of `readsettings` on a buffer that holds seven bytes, the
hex pairs of eight bytes, a newline and the final NUL. -/
theorem read_notch_record (n : canfd_frame) (a0 a1 a2 a3 a4 a5 a6 : u8) (b : Nat → u8) :
    (∀ j, j < 8 →
      (read_notch (n, [a0, a1, a2, a3, a4, a5, a6] ++ (hexpair (b 0) ++ hexpair (b 1)
        ++ hexpair (b 2) ++ hexpair (b 3) ++ hexpair (b 4) ++ hexpair (b 5) ++ hexpair (b 6)
        ++ hexpair (b 7)) ++ [c2b '\n'] ++ [0])).1.data j = b j)
    ∧ (read_notch (n, [a0, a1, a2, a3, a4, a5, a6] ++ (hexpair (b 0) ++ hexpair (b 1)
        ++ hexpair (b 2) ++ hexpair (b 3) ++ hexpair (b 4) ++ hexpair (b 5) ++ hexpair (b 6)
        ++ hexpair (b 7)) ++ [c2b '\n'] ++ [0])).2.length = 25
    ∧ (read_notch (n, [a0, a1, a2, a3, a4, a5, a6] ++ (hexpair (b 0) ++ hexpair (b 1)
        ++ hexpair (b 2) ++ hexpair (b 3) ++ hexpair (b 4) ++ hexpair (b 5) ++ hexpair (b 6)
        ++ hexpair (b 7)) ++ [c2b '\n'] ++ [0])).2.drop 24 = [0] := by
  simp only [hexpair, List.cons_append, List.nil_append, read_notch, read_notch_byte,
    List.drop_succ_cons, List.drop_zero, List.set_cons_succ, List.set_cons_zero,
    Nat.reduceMul, Nat.reduceAdd, read_pair_zero', read_pair_nl']
  refine ⟨?_, rfl, trivial⟩
  intro j hj
  interval_cases j <;> simp

theorem settings_record_shape (s : State) (i : Nat) (hi : i < 2048) :
    ∃ p0 p1 p2 : u8, settings_record s i
      = [c2b '<', p0, p1, p2, c2b '>', c2b (if is_set s i ENABLE = true then '1' else '0'),
          c2b '.']
        ++ (hexpair ((s.sniftab i).notch.data 0) ++ hexpair ((s.sniftab i).notch.data 1)
          ++ hexpair ((s.sniftab i).notch.data 2) ++ hexpair ((s.sniftab i).notch.data 3)
          ++ hexpair ((s.sniftab i).notch.data 4) ++ hexpair ((s.sniftab i).notch.data 5)
          ++ hexpair ((s.sniftab i).notch.data 6) ++ hexpair ((s.sniftab i).notch.data 7))
        ++ [c2b '\n'] := by
  obtain ⟨q0, q1, q2, hq⟩ := List.length_eq_three.1 (tag_length i hi)
  refine ⟨c2b q0, c2b q1, c2b q2, ?_⟩
  unfold settings_record
  rw [hq]
  simp only [outLoop, byte_digits _ (Fin.isLt _), hexpair, List.cons_append, List.nil_append,
    List.take_succ_cons, List.take_zero, List.map_cons, List.map_nil, List.append_assoc,
    List.take_nil]

theorem settings_record_length (s : State) (i : Nat) : (settings_record s i).length = 24 := by
  unfold settings_record
  have h1 : ((([ '<' ] ++ padZero 3 (digits 16 i) ++ [ '>' ]
      ++ [ if is_set s i ENABLE then '1' else '0' ] ++ [ '.' ]).take 7).map c2b).length = 7 := by
    rw [List.length_map, List.length_take]
    have := padZero_length 3 (digits 16 i)
    simp only [List.length_append, List.length_cons, List.length_nil]
    omega
  have h2 : (outLoop 8 (fun j =>
      ((padZero 2 (digits 16 ((s.sniftab i).notch.data j).val)).take 2).map c2b)).length
      = 2 * 8 := by
    apply outLoop_length
    intro j
    rw [List.length_map, List.length_take]
    have := padZero_length 2 (digits 16 ((s.sniftab i).notch.data j).val)
    omega
  rw [List.length_append, List.length_append, h1, h2]
  rfl

theorem readsettings_body_rest (name : List u8) (sockfd : Int) (i : Nat) (r : ReadLoop) :
    (readsettings_body name sockfd i r).rest = r.rest.drop 24 := by
  unfold readsettings_body
  simp only []
  split_ifs <;> rfl

theorem readsettings_body_buf (name : List u8) (sockfd : Int) (i : Nat) (r : ReadLoop)
    (h : (r.rest.take 24).length = 24) :
    ∃ n : canfd_frame, (readsettings_body name sockfd i r).buf
      = (read_notch (n, r.rest.take 24 ++ r.buf.drop 24)).2 := by
  unfold readsettings_body
  simp only [h, if_true]
  exact ⟨_, rfl⟩

/-- The state of the loop of `readsettings` after `n` records of the bytes
that `writesettings` produces from `s`. -/
theorem read_loop (s : State) (name : List u8) (sockfd : Int) (r0 : ReadLoop)
    (h1 : r0.rest = settings_bytes s) (h2 : r0.buf.drop 24 = [0]) (n : Nat) (hn : n ≤ 2048) :
    (forLoop n (readsettings_body name sockfd) r0).rest = (settings_bytes s).drop (24 * n)
    ∧ (forLoop n (readsettings_body name sockfd) r0).buf.drop 24 = [0]
    ∧ ∀ k, (forLoop n (readsettings_body name sockfd) r0).st.sniftab k
      = if k < n then read_entry (settings_record s k ++ [0]) (r0.st.sniftab k)
        else r0.st.sniftab k := by
  induction n with
  | zero =>
    rw [forLoop_zero]
    exact ⟨h1, h2, fun k => rfl⟩
  | succ n ih =>
    obtain ⟨hrest, hbuf, htab⟩ := ih (by omega)
    rw [forLoop_succ]
    generalize forLoop n (readsettings_body name sockfd) r0 = r at *
    have hdrop : r.rest = settings_record s n ++ (settings_bytes s).drop (24 * (n + 1)) := by
      rw [hrest]
      exact outLoop_drop 2048 (settings_record s) 24 (settings_record_length s) n (by omega)
    have htake : r.rest.take 24 = settings_record s n := by
      rw [hdrop, ← settings_record_length s n, List.take_left]
    have hlen : (r.rest.take 24).length = 24 := by
      rw [htake, settings_record_length]
    refine ⟨?_, ?_, ?_⟩
    · rw [readsettings_body_rest, hdrop, ← settings_record_length s n, List.drop_left,
        settings_record_length]
    · obtain ⟨fr, hfr⟩ := readsettings_body_buf name sockfd n r hlen
      rw [hfr, htake, hbuf]
      obtain ⟨p0, p1, p2, hsh⟩ := settings_record_shape s n (by omega)
      rw [hsh]
      exact (read_notch_record fr _ _ _ _ _ _ _ (fun j => (s.sniftab n).notch.data j)).2.2
    · intro k
      rw [readsettings_body_sniftab, hlen, htake, hbuf, htab n, htab k]
      by_cases hk : k = n
      · rw [hk]
        simp
      · have h1 : ¬ (k = n ∧ 24 = 24) := fun h => hk h.1
        rw [if_neg h1]
        by_cases hkn : k < n
        · rw [if_pos hkn, if_pos (by omega)]
        · rw [if_neg hkn, if_neg (by omega)]

theorem emit_nil (s : State) : emit s [] = s := by
  unfold emit
  rw [List.append_nil]

/-- What `readsettings` returns for a file that could be opened: the state of its
loop, started on a state with the table of the caller, up to the output. -/
theorem readsettings_loop_form (s' : State) (name : List u8) (sockfd : Int) (content : List u8) :
    ∃ st0 : State, ∃ o : List Item, st0.sniftab = s'.sniftab ∧
      readsettings s' name sockfd (some content)
        = emit (forLoop 2048 (readsettings_body name sockfd)
            { st := st0, rest := content, buf := List.replicate 25 0 }).st o := by
  by_cases hs : sockfd = 0
  · subst hs
    refine ⟨?st, ?o, ?h1, ?h2⟩
    case h2 =>
      rw [readsettings]
      rw [if_pos rfl, if_pos rfl]
      exact rfl
    case h1 => exact emit_sniftab _ _
  · refine ⟨s', [], rfl, ?_⟩
    rw [readsettings]
    rw [if_neg hs, if_neg hs]
    exact (emit_nil _).symm

/-- The table after `readsettings` has read the bytes that `writesettings`
produces from `s`. -/
theorem readsettings_written (s s' : State) (name : List u8) (sockfd : Int) (k : Nat) :
    (readsettings s' name sockfd (some (settings_bytes s))).sniftab k
      = if k < 2048 then read_entry (settings_record s k ++ [0]) (s'.sniftab k)
        else s'.sniftab k := by
  obtain ⟨st0, o, h0, h⟩ := readsettings_loop_form s' name sockfd (settings_bytes s)
  rw [h, emit_sniftab, (read_loop s name sockfd { st := st0, rest := settings_bytes s, buf := List.replicate 25 0 }
    rfl rfl 2048 (le_refl _)).2.2 k]
  simp only [h0]

theorem read_entry_record (s : State) (i : Nat) (hi : i < 2048) (e : snif) :
    ((read_entry (settings_record s i ++ [0]) e).flags &&& ENABLE ≠ 0
      ↔ is_set s i ENABLE = true)
    ∧ ∀ j, j < 8 →
      (read_entry (settings_record s i ++ [0]) e).notch.data j = (s.sniftab i).notch.data j := by
  obtain ⟨p0, p1, p2, hsh⟩ := settings_record_shape s i hi
  rw [hsh]
  constructor
  · unfold read_entry
    simp only [List.cons_append, List.getD_cons_succ, List.getD_cons_zero]
    by_cases hE : is_set s i ENABLE = true
    · rw [if_pos hE]
      have h1 : (c2b '1').val &&& 1 ≠ 0 := by decide
      rw [if_pos h1]
      by_cases h0 : e.flags &&& ENABLE = 0
      · rw [if_pos h0, or_and_same]
        exact ⟨fun _ => hE, fun _ => by decide⟩
      · rw [if_neg h0]
        exact ⟨fun _ => hE, fun _ => h0⟩
    · rw [if_neg hE]
      have h1 : ¬ ((c2b '0').val &&& 1 ≠ 0) := by decide
      rw [if_neg h1]
      by_cases h0 : e.flags &&& ENABLE ≠ 0
      · rw [if_pos h0, and_clr_same _ _ (by decide)]
        simp [hE]
      · rw [if_neg h0]
        simp [hE, h0]
  · intro j hj
    exact (read_notch_record e.notch _ _ _ _ _ _ _
      (fun j => (s.sniftab i).notch.data j)).1 j hj

/-- C6: `writesettings` hands the bytes `settings_bytes s` to the file, and
`readsettings` on these bytes, from any state `s'` and for any `sockfd`, gives
every slot `i < 2048` the enabled flag and the eight notch bytes it has in
`s`. -/
theorem settings_round_trip (s s' : State) (wname rname : List u8) (sockfd : Int) (i j : Nat)
    (hi : i < 2048) (hj : j < 8) :
    (writesettings s wname true).written = s.written ++ [(fname wname, settings_bytes s)]
    ∧ is_set (readsettings s' rname sockfd (some (settings_bytes s))) i ENABLE
        = is_set s i ENABLE
    ∧ ((readsettings s' rname sockfd (some (settings_bytes s))).sniftab i).notch.data j
        = (s.sniftab i).notch.data j := by
  have h := read_entry_record s i hi (s'.sniftab i)
  refine ⟨rfl, ?_, ?_⟩
  · rw [Bool.eq_iff_iff, is_set_iff, readsettings_written, if_pos hi]
    exact h.1
  · rw [readsettings_written, if_pos hi]
    exact h.2 j hj

theorem settings_round_trip_witness :
    (0 : Nat) < 2048 ∧ (0 : Nat) < 8
    ∧ (writesettings notched_state [] true).written
        = notched_state.written ++ [(fname [], settings_bytes notched_state)]
    ∧ is_set (readsettings (init default_config) [] 3
          (some (settings_bytes notched_state))) 0 ENABLE
        = is_set notched_state 0 ENABLE
    ∧ ((readsettings (init default_config) [] 3
          (some (settings_bytes notched_state))).sniftab 0).notch.data 0
        = (notched_state.sniftab 0).notch.data 0 :=
  ⟨by decide, by decide,
    settings_round_trip notched_state (init default_config) [] [] 3 0 0 (by decide) (by decide)⟩

/-! ## C7: no timeout, no expiry -/

theorem no_timeout_step (s : State) (ev : Event) (h0 : s.timeout = 0)
    (h : ∀ k, (s.sniftab k).timeout = 0) :
    (step s ev).timeout = 0 ∧ ∀ k, ((step s ev).sniftab k).timeout = 0 := by
  cases ev with
  | keyb fd env =>
    rw [step_keyb, handle_keyb_timeout]
    exact ⟨h0, fun k => (same_but_filter_timeout _ _ (handle_keyb_rel s fd env k)).trans (h k)⟩
  | raw nbytes cf stamp currcms =>
    rw [step_raw, handle_raw_timeout]
    refine ⟨h0, fun k => ?_⟩
    rcases handle_raw_cases s nbytes cf stamp currcms k with hc | hc | hc <;> rw [hc]
    · exact h k
    · exact h k
    · unfold raw_entry
      rw [h0]
      rfl
  | timeo currcms =>
    rw [step_timeo, handle_timeo_timeout]
    refine ⟨h0, fun k => ?_⟩
    rw [handle_timeo_sniftab]
    by_cases hk : k < 2048
    · rw [if_pos hk, timeo_entry_timeout]
      by_cases hn : s.notch ≠ 0
      · rw [if_pos hn]
        exact h k
      · rw [if_neg hn]
        exact h k
    · rw [if_neg hk]
      exact h k
  | rdset name file =>
    rw [step_rdset, readsettings_timeout]
    exact ⟨h0, fun k => (same_but_filter_timeout _ _ (readsettings_rel s name 0 file k)).trans (h k)⟩

theorem no_timeout_run (es : List Event) (s : State) (h0 : s.timeout = 0)
    (h : ∀ k, (s.sniftab k).timeout = 0) :
    (run s es).timeout = 0 ∧ ∀ k, ((run s es).sniftab k).timeout = 0 := by
  induction es generalizing s with
  | nil => exact ⟨h0, h⟩
  | cons e es ih =>
    rw [run_cons]
    exact ih (step s e) (no_timeout_step s e h0 h).1 (no_timeout_step s e h0 h).2

theorem no_timeout_init (c : Config) (hc : c.timeout = 0) :
    (init c).timeout = 0 ∧ ∀ k, ((init c).sniftab k).timeout = 0 := by
  refine ⟨hc, fun k => ?_⟩
  unfold init
  simp only []
  split_ifs <;> rfl

/-- Without a timeout no event takes the `DISPLAY` bit from a table element. -/
theorem displayed_step (s : State) (ev : Event)
    (h : ∀ k, (s.sniftab k).timeout = 0) (k : Nat)
    (hd : (s.sniftab k).flags &&& DISPLAY ≠ 0) :
    ((step s ev).sniftab k).flags &&& DISPLAY ≠ 0 := by
  cases ev with
  | keyb fd env =>
    rw [step_keyb, (handle_keyb_rel s fd env k).2.1]
    exact hd
  | raw nbytes cf stamp currcms =>
    rw [step_raw]
    rcases handle_raw_cases s nbytes cf stamp currcms k with hc | hc | hc <;> rw [hc]
    · exact hd
    · exact hd
    · rw [raw_entry_display]
      decide
  | timeo currcms =>
    rw [step_timeo, handle_timeo_sniftab]
    by_cases hk : k < 2048
    · rw [if_pos hk]
      by_cases hn : s.notch ≠ 0
      · rw [if_pos hn, timeo_entry_display _ _ _ (notch_fold (s.sniftab k)) (h k)]
        exact hd
      · rw [if_neg hn, timeo_entry_display _ _ _ _ (h k)]
        exact hd
    · rw [if_neg hk]
      exact hd
  | rdset name file =>
    rw [step_rdset, (readsettings_rel s name 0 file k).2.1]
    exact hd

theorem displayed_run (es : List Event) (s : State) (h0 : s.timeout = 0)
    (h : ∀ k, (s.sniftab k).timeout = 0) (k : Nat)
    (hd : (s.sniftab k).flags &&& DISPLAY ≠ 0) :
    ((run s es).sniftab k).flags &&& DISPLAY ≠ 0 := by
  induction es generalizing s with
  | nil => exact hd
  | cons e es ih =>
    rw [run_cons]
    exact ih (step s e) (no_timeout_step s e h0 h).1 (no_timeout_step s e h0 h).2
      (displayed_step s e h k hd)

/-- C7: with a configured timeout of 0, in every state that a sequence of
frames, commands, ticks and settings files reaches from the initial state, an
entry with the `DISPLAY` flag keeps the flag over a tick at any time
`currcms`, and over every further sequence of events. -/
theorem zero_timeout_keeps_displayed (c : Config) (es es2 : List Event) (currcms : Int)
    (k : Nat) (hc : c.timeout = 0) (h : is_set (run (init c) es) k DISPLAY = true) :
    is_set (handle_timeo (run (init c) es) currcms).2 k DISPLAY = true
    ∧ is_set (run (run (init c) es) es2) k DISPLAY = true := by
  have hi := no_timeout_init c hc
  have hr := no_timeout_run es (init c) hi.1 hi.2
  rw [is_set_iff] at h
  constructor
  · rw [is_set_iff, ← step_timeo]
    exact displayed_step _ _ hr.2 k h
  · rw [is_set_iff]
    exact displayed_run es2 _ hr.1 hr.2 k h

theorem zero_timeout_keeps_displayed_witness :
    zero_timeout_config.timeout = 0
    ∧ is_set (run (init zero_timeout_config) [Event.raw CAN_MTU frame8 ⟨0, 0⟩ 0]) 0x123 DISPLAY
        = true
    ∧ is_set (handle_timeo (run (init zero_timeout_config) [Event.raw CAN_MTU frame8 ⟨0, 0⟩ 0])
        1000000).2 0x123 DISPLAY = true
    ∧ is_set (run (run (init zero_timeout_config) [Event.raw CAN_MTU frame8 ⟨0, 0⟩ 0])
        [Event.timeo 1000000, Event.timeo 2000000]) 0x123 DISPLAY = true :=
  ⟨rfl, by decide,
    zero_timeout_keeps_displayed zero_timeout_config [Event.raw CAN_MTU frame8 ⟨0, 0⟩ 0]
      [Event.timeo 1000000, Event.timeo 2000000] 1000000 0x123 rfl (by decide)⟩

/-! ## C8: the notch request -/

theorem notch_fold_byte (e : snif) (h : tail_zero e) (i : Nat) :
    ((notch_fold e).notch.data i).val = (e.notch.data i).val ||| (e.marker.data i).val := by
  unfold notch_fold
  by_cases hi : i < 8
  · exact notch_update_byte _ _ i hi
  · simp only []
    rw [U64_DATA_set_ge _ _ _ (by omega), (h i (by omega)).1, (h i (by omega)).2]
    rfl

theorem handle_timeo_notch_of (s : State) (currcms : Int) (k : Nat) :
    ((handle_timeo s currcms).2.sniftab k).notch
      = if s.notch ≠ 0 ∧ k < 2048 then (notch_fold (s.sniftab k)).notch
        else (s.sniftab k).notch := by
  rw [handle_timeo_sniftab]
  by_cases hk : k < 2048
  · rw [if_pos hk, timeo_entry_notch]
    by_cases hn : s.notch ≠ 0
    · rw [if_pos hn, if_pos ⟨hn, hk⟩]
    · rw [if_neg hn, if_neg (fun h => hn h.1)]
  · rw [if_neg hk, if_neg (fun h => hk h.2)]

theorem handle_timeo_notch_byte (s : State) (currcms : Int) (k i : Nat)
    (h : tail_zero (s.sniftab k)) :
    (((handle_timeo s currcms).2.sniftab k).notch.data i).val
      = if s.notch ≠ 0 ∧ k < 2048 then
          ((s.sniftab k).notch.data i).val ||| ((s.sniftab k).marker.data i).val
        else ((s.sniftab k).notch.data i).val := by
  rw [handle_timeo_notch_of]
  by_cases hc : s.notch ≠ 0 ∧ k < 2048
  · rw [if_pos hc, if_pos hc, notch_fold_byte _ h]
  · rw [if_neg hc, if_neg hc]

theorem handle_timeo_head_byte (s : State) (k i : Nat) (h : tail_zero (s.sniftab k)) :
    (((handle_timeo_head s).sniftab k).notch.data i).val
      = if s.notch ≠ 0 ∧ k < 2048 then
          ((s.sniftab k).notch.data i).val ||| ((s.sniftab k).marker.data i).val
        else ((s.sniftab k).notch.data i).val := by
  rw [handle_timeo_head_sniftab]
  by_cases hc : s.notch ≠ 0 ∧ k < 2048
  · rw [if_pos hc, if_pos hc, notch_fold_byte _ h]
  · rw [if_neg hc, if_neg hc]

theorem handle_timeo_head_marker (s : State) (k : Nat) :
    ((handle_timeo_head s).sniftab k).marker = (s.sniftab k).marker := by
  rw [handle_timeo_head_sniftab]
  split_ifs <;> rfl

theorem notch_request_sniftab (s : State) (fd : Int) :
    (handle_keyb s fd keyb_notch).2.sniftab = s.sniftab
    ∧ (handle_keyb s fd keyb_notch).2.notch = 1 := by
  rw [keyb_notch_effect]
  exact ⟨rfl, rfl⟩

/-- C8: in every state of a run, (1) the command `#` changes nothing but the
request `notch` (set to 1) and `clearscreen`; (2) at a tick the part of
`handle_timeo` that runs before the loop over the entries has, when a request
is pending, or-ed the marker of each of the 2048 entries, as it stands at the
tick, into its notch, byte by byte, left each marker as it was, and cleared the
request, and has left every notch as it was when no request is pending; (3) the
tick as a whole leaves these notches and no request; (4) of two ticks after one
`#`, the first folds and the second changes no notch. -/
theorem notch_request_folds_once (c : Config) (es : List Event) (fd : Int) (t1 t2 : Int)
    (k i : Nat) :
    (handle_keyb (run (init c) es) fd keyb_notch).2
        = { { run (init c) es with notch := 1 } with clearscreen := 1 }
    ∧ ((handle_timeo (run (init c) es) t1).2
          = forLoop 2048 (handle_timeo_body t1 (if (run (init c) es).clearscreen ≠ 0 then 1 else 0))
              (handle_timeo_head (run (init c) es))
        ∧ (((handle_timeo_head (run (init c) es)).sniftab k).notch.data i).val
          = (if (run (init c) es).notch ≠ 0 ∧ k < 2048 then
              (((run (init c) es).sniftab k).notch.data i).val
                ||| (((run (init c) es).sniftab k).marker.data i).val
            else (((run (init c) es).sniftab k).notch.data i).val)
        ∧ ((handle_timeo_head (run (init c) es)).sniftab k).marker
          = ((run (init c) es).sniftab k).marker
        ∧ (handle_timeo_head (run (init c) es)).notch = 0)
    ∧ ((((handle_timeo (run (init c) es) t1).2.sniftab k).notch.data i).val
          = (if (run (init c) es).notch ≠ 0 ∧ k < 2048 then
              (((run (init c) es).sniftab k).notch.data i).val
                ||| (((run (init c) es).sniftab k).marker.data i).val
            else (((run (init c) es).sniftab k).notch.data i).val)
        ∧ (handle_timeo (run (init c) es) t1).2.notch = 0)
    ∧ ((((handle_timeo (handle_keyb (run (init c) es) fd keyb_notch).2 t1).2.sniftab k).notch.data
            i).val
          = (if k < 2048 then
              (((run (init c) es).sniftab k).notch.data i).val
                ||| (((run (init c) es).sniftab k).marker.data i).val
            else (((run (init c) es).sniftab k).notch.data i).val)
        ∧ ((handle_timeo (handle_timeo (handle_keyb (run (init c) es) fd keyb_notch).2 t1).2
              t2).2.sniftab k).notch
          = ((handle_timeo (handle_keyb (run (init c) es) fd keyb_notch).2 t1).2.sniftab k).notch) := by
  have hz := tail_zero_reach c es k
  have hq := notch_request_sniftab (run (init c) es) fd
  refine ⟨keyb_notch_effect _ fd, ⟨handle_timeo_snd _ t1, handle_timeo_head_byte _ k i hz,
    handle_timeo_head_marker _ k, handle_timeo_head_notch _⟩,
    ⟨handle_timeo_notch_byte _ t1 k i hz, handle_timeo_notch_cleared _ t1⟩, ?_, ?_⟩
  · rw [handle_timeo_notch_byte _ t1 k i (by rw [hq.1]; exact hz), hq.1, hq.2]
    by_cases hk : k < 2048
    · rw [if_pos ⟨by decide, hk⟩, if_pos hk]
    · rw [if_neg (fun h => hk h.2), if_neg hk]
  · rw [handle_timeo_notch_of, handle_timeo_notch_cleared]
    exact if_neg (fun h => h.1 rfl)

/-! ## C9: the notch removed -/

theorem notch_clear_byte (e : snif) (h : tail_zero e) (i : Nat) :
    (notch_clear e).notch.data i = 0 := by
  unfold notch_clear
  by_cases hi : i < 8
  · exact zero_update_byte _ i hi
  · exact (U64_DATA_set_ge _ _ _ (by omega)).trans (h i (by omega)).2

theorem handle_keyb_star (s : State) (fd : Int) (env : KeybEnv) (bytes arg : List u8)
    (hrd : env.rd = some bytes) (hlen : bytes.length ≤ 8)
    (hcmd : (cstr bytes).dropLast = c2b '*' :: arg) (k : Nat) :
    (handle_keyb s fd env).2.sniftab k
      = if k < 2048 then notch_clear (s.sniftab k) else s.sniftab k := by
  rw [handle_keyb_cmd s fd env bytes hrd hlen, hcmd, switch_star, clearscreen_sniftab,
    star_loop_sniftab]

/-- C9: in every state of a run, a command line of at most 8 bytes that starts
with `*` leaves every byte of the notch of each of the 2048 entries zero, and
leaves the flags, the marker and the two stored frames of every entry as they
were. -/
theorem star_clears_every_notch (c : Config) (es : List Event) (fd : Int) (env : KeybEnv)
    (bytes arg : List u8) (hrd : env.rd = some bytes) (hlen : bytes.length ≤ 8)
    (hcmd : (cstr bytes).dropLast = c2b '*' :: arg) (k i : Nat) :
    (k < 2048 → ((handle_keyb (run (init c) es) fd env).2.sniftab k).notch.data i = 0)
    ∧ ((handle_keyb (run (init c) es) fd env).2.sniftab k).flags
        = ((run (init c) es).sniftab k).flags
    ∧ ((handle_keyb (run (init c) es) fd env).2.sniftab k).marker
        = ((run (init c) es).sniftab k).marker
    ∧ ((handle_keyb (run (init c) es) fd env).2.sniftab k).current
        = ((run (init c) es).sniftab k).current
    ∧ ((handle_keyb (run (init c) es) fd env).2.sniftab k).last
        = ((run (init c) es).sniftab k).last := by
  rw [handle_keyb_star _ fd env bytes arg hrd hlen hcmd k]
  by_cases hk : k < 2048
  · rw [if_pos hk]
    exact ⟨fun _ => notch_clear_byte _ (tail_zero_reach c es k) i, rfl, rfl, rfl, rfl⟩
  · rw [if_neg hk]
    exact ⟨fun h => absurd h hk, rfl, rfl, rfl, rfl⟩

theorem star_clears_every_notch_witness :
    keyb_star.rd = some [c2b '*', c2b '\n']
    ∧ [c2b '*', c2b '\n'].length ≤ 8
    ∧ (cstr [c2b '*', c2b '\n']).dropLast = c2b '*' :: []
    ∧ ((0x123 < 2048 → ((handle_keyb (run (init default_config) notch_events) 3 keyb_star).2.sniftab
          0x123).notch.data 0 = 0)
      ∧ ((handle_keyb (run (init default_config) notch_events) 3 keyb_star).2.sniftab 0x123).flags
          = ((run (init default_config) notch_events).sniftab 0x123).flags
      ∧ ((handle_keyb (run (init default_config) notch_events) 3 keyb_star).2.sniftab 0x123).marker
          = ((run (init default_config) notch_events).sniftab 0x123).marker
      ∧ ((handle_keyb (run (init default_config) notch_events) 3 keyb_star).2.sniftab 0x123).current
          = ((run (init default_config) notch_events).sniftab 0x123).current
      ∧ ((handle_keyb (run (init default_config) notch_events) 3 keyb_star).2.sniftab 0x123).last
          = ((run (init default_config) notch_events).sniftab 0x123).last) :=
  ⟨rfl, by decide, by decide,
    star_clears_every_notch default_config notch_events 3 keyb_star [c2b '*', c2b '\n'] [] rfl
      (by decide) (by decide) 0x123 0⟩

/-! ## C10: the row when the payload shrinks -/

theorem visible_append (a b : List Item) : visible (a ++ b) = visible a ++ visible b := by
  induction a with
  | nil => rfl
  | cons x a ih =>
    cases x with
    | chr c =>
      show c :: visible (a ++ b) = c :: visible a ++ visible b
      rw [ih]
      rfl
    | ctl c => exact ih

theorem visible_chars (l : List Char) : visible (l.map Item.chr) = l := by
  induction l with
  | nil => rfl
  | cons c l ih =>
    show c :: visible (l.map Item.chr) = c :: l
    rw [ih]

theorem cols_append (a b : List Item) : cols (a ++ b) = cols a + cols b := by
  unfold cols
  rw [visible_append, List.length_append]

theorem cols_blanks (n : Nat) : cols (blanks n) = n := by
  unfold cols blanks
  rw [← List.map_replicate, visible_chars, List.length_replicate]

theorem cols_fmt_X_byte (b : u8) : cols (fmt_X 2 b.val) = 2 := by
  unfold cols fmt_X
  rw [visible_chars, byte_digits _ b.isLt]
  rfl

theorem cols_outLoop (n : Nat) (f : Nat → List Item) (w : Nat) (h : ∀ i, cols (f i) = w) :
    cols (outLoop n f) = w * n := by
  induction n with
  | zero => rfl
  | succ n ih =>
    show cols (outLoop n f ++ f n) = _
    rw [cols_append, ih, h n, Nat.mul_succ]

theorem cols_print_bit (color : Nat) (e : snif) (i j : Nat) : cols (print_bit color e i j) = 1 := by
  unfold print_bit
  split_ifs <;> rfl

theorem cols_print_bin_byte (color binary_gap : Nat) (e : snif) (i : Nat) :
    cols (print_bin_byte color binary_gap e i) = 8 + (if binary_gap ≠ 0 then 1 else 0) := by
  unfold print_bin_byte
  simp only [cols_append, cols_print_bit]
  split_ifs <;> rfl

theorem cols_print_hex_byte (color : Nat) (e : snif) (i : Nat) :
    cols (print_hex_byte color e i) = 3 := by
  unfold print_hex_byte
  split_ifs
  · rw [cols_append, cols_append, cols_fmt_X_byte]
    rfl
  · rw [cols_append, cols_fmt_X_byte]
    rfl

theorem cols_print_ascii_byte (color : Nat) (e : snif) (i : Nat) :
    cols (print_ascii_byte color e i) = 1 := by
  unfold print_ascii_byte
  split_ifs <;> rfl

/-- The number of columns of the payload part of a row. -/
theorem payload_cols (s : State) (id : Nat) :
    cols (print_snifline_data s id)
      = if s.binary ≠ 0 then
          (8 + (if s.binary_gap ≠ 0 then 1 else 0))
            * ((s.sniftab id).current.len
                + ((s.sniftab id).last.len - (s.sniftab id).current.len))
        else
          3 * (s.sniftab id).current.len
            + (if (s.sniftab id).current.len < 8 then (8 - (s.sniftab id).current.len) * 3 else 0)
            + (s.sniftab id).current.len
            + ((s.sniftab id).last.len - (s.sniftab id).current.len) := by
  have hd : (((s.sniftab id).last.len : Int) - ((s.sniftab id).current.len : Int)).toNat
      = (s.sniftab id).last.len - (s.sniftab id).current.len := by omega
  unfold print_snifline_data
  simp only []
  rw [hd]
  by_cases hb : s.binary ≠ 0
  · rw [if_pos hb, if_pos hb, cols_append,
      cols_outLoop _ _ _ (cols_print_bin_byte s.color s.binary_gap (s.sniftab id)),
      cols_outLoop _ _ (8 + (if s.binary_gap ≠ 0 then 1 else 0)) (fun _ => by
        rw [cols_append, cols_blanks]
        split_ifs <;> rfl),
      Nat.mul_add]
  · rw [if_neg hb, if_neg hb, cols_append, cols_append, cols_append,
      cols_outLoop _ _ _ (cols_print_hex_byte s.color (s.sniftab id)),
      cols_outLoop _ _ _ (cols_print_ascii_byte s.color (s.sniftab id)),
      cols_outLoop _ (fun _ => [Item.chr ' ']) 1 (fun _ => rfl), Nat.one_mul, Nat.one_mul]
    by_cases h8 : (s.sniftab id).current.len < 8
    · rw [if_pos h8, if_pos h8, cols_blanks]
    · rw [if_neg h8, if_neg h8]
      rfl

theorem handle_timeo_binary_gap (s : State) (currcms : Int) :
    (handle_timeo s currcms).2.binary_gap = s.binary_gap :=
  (display_of_eq _ _ (handle_timeo_display s currcms)).2.2.1

theorem long_state_entry :
    long_state.sniftab 0x123
      = raw_entry TIMEOUT fd_frame12 ⟨0, 0⟩ 0 { zero_snif with flags := ENABLE } := by
  rw [long_state, handle_raw_sniftab _ _ _ _ _ (Or.inr rfl), init_sniftab_lt _ _ (by decide)]
  rfl

theorem short_state_entry :
    short_state.sniftab 0x123
      = raw_entry TIMEOUT frame3 ⟨0, 0⟩ 2
          (timeo_entry HOLD 1 1
            (raw_entry TIMEOUT fd_frame12 ⟨0, 0⟩ 0 { zero_snif with flags := ENABLE })) := by
  rw [short_state, handle_raw_sniftab _ _ _ _ _ (Or.inl rfl), handle_timeo_timeout,
    handle_timeo_sniftab, long_state_entry]
  rfl

theorem short_state_display : short_state.binary = 0 ∧ short_state.color = 0 := by
  constructor
  · rw [short_state, (handle_raw_display _ _ _ _ _).2.1, handle_timeo_binary]
    rfl
  · rw [short_state, (handle_raw_display _ _ _ _ _).1, handle_timeo_color]
    rfl

/-- C10 fails in hex mode when the previous frame has more than 8 bytes: a CAN
FD frame of twelve bytes `A` arrives for 0x123 and a tick renders it, then a
frame of three zero bytes arrives.  The payload of the first row takes 48
columns (36 for the hex pairs, 12 for the characters), the payload of the
second row, previous length 12 and current length 3, takes 36 (9 for the hex
pairs, 15 and 9 blanks, 3 for the characters): the last 12 columns of the
first row, its twelve characters `A`, are not printed over. -/
theorem hex_row_shorter_after_shrink :
    long_state.binary = 0 ∧ short_state.binary = 0
    ∧ (long_state.sniftab 0x123).current.len = 12
    ∧ (short_state.sniftab 0x123).last.len = 12
    ∧ (short_state.sniftab 0x123).current.len = 3
    ∧ visible (print_snifline_data long_state 0x123)
        = "41 41 41 41 41 41 41 41 41 41 41 41 AAAAAAAAAAAA".toList
    ∧ visible (print_snifline_data short_state 0x123)
        = "00 00 00                ...         ".toList
    ∧ cols (print_snifline_data long_state 0x123) = 48
    ∧ cols (print_snifline_data short_state 0x123) = 36 := by
  have h1 : (short_state.sniftab 0x123).last.len = 12 := by
    rw [short_state_entry]
    rfl
  have h2 : (short_state.sniftab 0x123).current.len = 3 := by
    rw [short_state_entry]
    rfl
  refine ⟨rfl, short_state_display.1, rfl, h1, h2, ?_, ?_, ?_, ?_⟩
  · rfl
  · unfold print_snifline_data
    simp only []
    rw [short_state_entry, short_state_display.1, short_state_display.2]
    rfl
  · rfl
  · rw [payload_cols, if_neg (by rw [short_state_display.1]; decide), h1, h2]
    rfl

theorem shrunk_state_entry :
    shrunk_state.sniftab 0x123
      = raw_entry TIMEOUT frame3 ⟨1, 0⟩ 2
          (timeo_entry HOLD 1 1
            (raw_entry TIMEOUT frame8 ⟨0, 0⟩ 0 { zero_snif with flags := ENABLE })) := by
  rw [shrunk_state, handle_raw_sniftab _ _ _ _ _ (Or.inl rfl), shrink_state_entry, shrink_state,
    handle_timeo_timeout]
  rfl

theorem shrunk_state_display :
    full_state.binary = shrunk_state.binary ∧ full_state.binary_gap = shrunk_state.binary_gap := by
  constructor
  · rw [shrunk_state, (handle_raw_display _ _ _ _ _).2.1, shrink_state, handle_timeo_binary]
    rfl
  · rw [shrunk_state, (handle_raw_display _ _ _ _ _).2.2, shrink_state, handle_timeo_binary_gap]
    rfl

/-- C10, where it holds: `s` is a state whose entry `id` has a current frame no
longer than its previous frame, and `p` is a state with the same render mode
in which the previous frame is the current one and is rendered without
trailing blanks.  In binary mode, with or without gap, and in hex mode when the
previous frame has at most 8 bytes, the payload of the row of `s` takes as many
columns as the payload of the row of `p`. -/
theorem shrunk_row_columns (s p : State) (id : Nat)
    (hb : p.binary = s.binary) (hg : p.binary_gap = s.binary_gap)
    (hp : (p.sniftab id).last.len ≤ (p.sniftab id).current.len)
    (hL : (s.sniftab id).last.len = (p.sniftab id).current.len)
    (hl : (s.sniftab id).current.len ≤ (s.sniftab id).last.len)
    (h : s.binary ≠ 0 ∨ (s.sniftab id).last.len ≤ 8) :
    cols (print_snifline_data s id) = cols (print_snifline_data p id) := by
  rw [payload_cols, payload_cols, hb, hg, ← hL]
  generalize (s.sniftab id).last.len = L at *
  generalize (s.sniftab id).current.len = l at *
  generalize (p.sniftab id).last.len = L0 at *
  by_cases hbin : s.binary ≠ 0
  · rw [if_pos hbin, if_pos hbin]
    have e1 : l + (L - l) = L := by omega
    have e2 : L + (L0 - L) = L := by omega
    rw [e1, e2]
  · rw [if_neg hbin, if_neg hbin]
    have h8 : L ≤ 8 := h.resolve_left hbin
    split_ifs <;> omega

theorem shrunk_row_columns_witness :
    full_state.binary = shrunk_state.binary
    ∧ full_state.binary_gap = shrunk_state.binary_gap
    ∧ (full_state.sniftab 0x123).last.len ≤ (full_state.sniftab 0x123).current.len
    ∧ (shrunk_state.sniftab 0x123).last.len = (full_state.sniftab 0x123).current.len
    ∧ (shrunk_state.sniftab 0x123).current.len ≤ (shrunk_state.sniftab 0x123).last.len
    ∧ (shrunk_state.binary ≠ 0 ∨ (shrunk_state.sniftab 0x123).last.len ≤ 8)
    ∧ cols (print_snifline_data shrunk_state 0x123)
        = cols (print_snifline_data full_state 0x123) :=
  have h1 : (shrunk_state.sniftab 0x123).last.len = 8 := by
    rw [shrunk_state_entry]
    rfl
  have h2 : (shrunk_state.sniftab 0x123).current.len = 3 := by
    rw [shrunk_state_entry]
    rfl
  have hp : (full_state.sniftab 0x123).last.len ≤ (full_state.sniftab 0x123).current.len := by
    decide
  have hL : (shrunk_state.sniftab 0x123).last.len = (full_state.sniftab 0x123).current.len :=
    h1.trans rfl
  have hl : (shrunk_state.sniftab 0x123).current.len ≤ (shrunk_state.sniftab 0x123).last.len := by
    rw [h1, h2]
    decide
  have h8 : shrunk_state.binary ≠ 0 ∨ (shrunk_state.sniftab 0x123).last.len ≤ 8 :=
    Or.inr (le_of_eq h1)
  ⟨shrunk_state_display.1, shrunk_state_display.2, hp, hL, hl, h8,
    shrunk_row_columns shrunk_state full_state 0x123 shrunk_state_display.1
      shrunk_state_display.2 hp hL hl h8⟩

/-! ## C11: one frame, one table element -/

theorem handle_raw_other (s : State) (nbytes : Int) (cf : canfd_frame) (stamp : timeval)
    (currcms : Int) (k : Nat) (hk : k ≠ cf.can_id &&& 0x7FF) :
    (handle_raw s nbytes cf stamp currcms).2.sniftab k = s.sniftab k := by
  by_cases h2 : nbytes = CAN_MTU ∨ nbytes = CANFD_MTU
  · rw [handle_raw_sniftab s nbytes cf stamp currcms h2 k, if_neg hk]
  · have h1 : nbytes ≠ CAN_MTU ∧ nbytes ≠ CANFD_MTU := by tauto
    by_cases h0 : nbytes < 0
    · simp [handle_raw, h0]
    · by_cases hp : s.print_eff = 0 ∧ cf.can_id &&& CAN_EFF_FLAG ≠ 0 <;>
        simp [handle_raw, h0, h1, hk, hp, set_snif, emit]

theorem index_lt (id : Nat) : id &&& 0x7FF < 2048 :=
  Nat.lt_of_le_of_lt Nat.and_le_right (by decide)

/-- C11: for every state, every result of the read and every frame, the index
`can_id & 0x7FF` that `handle_raw` uses lies within the 2048 elements of the
table, and every table element at another index is after the call what it was
before, in all its fields. -/
theorem handle_raw_touches_one_entry (s : State) (nbytes : Int) (cf : canfd_frame)
    (stamp : timeval) (currcms : Int) (k : Nat) (hk : k ≠ cf.can_id &&& 0x7FF) :
    cf.can_id &&& 0x7FF < 2048
    ∧ (handle_raw s nbytes cf stamp currcms).2.sniftab k = s.sniftab k :=
  ⟨index_lt _, handle_raw_other s nbytes cf stamp currcms k hk⟩

theorem handle_raw_touches_one_entry_witness :
    0x124 ≠ frame8.can_id &&& 0x7FF
    ∧ frame8.can_id &&& 0x7FF < 2048
    ∧ (handle_raw (init default_config) CAN_MTU frame8 ⟨0, 0⟩ 0).2.sniftab 0x124
        = (init default_config).sniftab 0x124 :=
  ⟨by decide,
    handle_raw_touches_one_entry (init default_config) CAN_MTU frame8 ⟨0, 0⟩ 0 0x124 (by decide)⟩

/-! ## What a tick prints -/

theorem handle_timeo_expire_stdout (currcms : Int) (i : Nat) (s : State) :
    (handle_timeo_expire currcms i s).stdout = s.stdout := by
  unfold handle_timeo_expire
  split_ifs <;> rfl

theorem handle_timeo_draw_stdout (currcms : Int) (force_redraw i : Nat) (s : State) :
    (handle_timeo_draw currcms force_redraw i s).stdout
      = s.stdout ++
        (if is_set s i UPDATE = true ∨ force_redraw ≠ 0 then print_snifline_line s i
         else if (s.sniftab i).hold ≠ 0 ∧ (s.sniftab i).hold < currcms then
          print_snifline_line
            (set_snif s i { s.sniftab i with marker := U64_DATA_set (s.sniftab i).marker 0 }) i
         else [Item.ctl Ctl.CSR_DOWN]) := by
  unfold handle_timeo_draw
  by_cases h1 : is_set s i UPDATE = true ∨ force_redraw ≠ 0
  · rw [if_pos h1, if_pos h1]
    rfl
  · rw [if_neg h1, if_neg h1]
    by_cases h2 : (s.sniftab i).hold ≠ 0 ∧ (s.sniftab i).hold < currcms
    · rw [if_pos h2, if_pos h2]
      rfl
    · rw [if_neg h2, if_neg h2]
      rfl

theorem handle_timeo_body_stdout (currcms : Int) (force_redraw i : Nat) (s : State) :
    (handle_timeo_body currcms force_redraw i s).stdout
      = s.stdout ++ tick_row currcms force_redraw s i := by
  unfold handle_timeo_body tick_row
  by_cases hE : is_set s i ENABLE = true
  · rw [if_pos hE]
    by_cases hD : is_set s i DISPLAY = true
    · rw [if_pos hD, if_pos ⟨hE, hD⟩]
      show (handle_timeo_expire currcms i (handle_timeo_draw currcms force_redraw i s)).stdout = _
      rw [handle_timeo_expire_stdout, handle_timeo_draw_stdout]
    · rw [if_neg hD, if_neg (fun h => hD h.2)]
      exact (List.append_nil _).symm
  · rw [if_neg hE, if_neg (fun h => hE h.1)]
    exact (List.append_nil _).symm

theorem print_snifline_line_congr (s t : State) (id : Nat) (h1 : s.sniftab id = t.sniftab id)
    (h2 : display_of s = display_of t) : print_snifline_line s id = print_snifline_line t id := by
  obtain ⟨hc, hb, hg, hp⟩ := display_of_eq s t h2
  unfold print_snifline_line print_snifline_head print_snifline_data
  simp only [h1, hc, hb, hg, hp]

theorem tick_row_congr (currcms : Int) (force_redraw : Nat) (s t : State) (i : Nat)
    (h1 : s.sniftab i = t.sniftab i) (h2 : display_of s = display_of t) :
    tick_row currcms force_redraw s i = tick_row currcms force_redraw t i := by
  unfold tick_row is_set
  rw [h1, print_snifline_line_congr s t i h1 h2]
  rw [print_snifline_line_congr
    (set_snif s i { t.sniftab i with marker := U64_DATA_set (t.sniftab i).marker 0 })
    (set_snif t i { t.sniftab i with marker := U64_DATA_set (t.sniftab i).marker 0 }) i
    (by simp [set_snif]) h2]

theorem outLoop_succ {α : Type} (n : Nat) (f : Nat → List α) :
    outLoop (n + 1) f = outLoop n f ++ f n := rfl

theorem handle_timeo_loop_display (currcms : Int) (force_redraw n : Nat) (s : State) :
    display_of (forLoop n (handle_timeo_body currcms force_redraw) s) = display_of s :=
  forLoop_inv (fun st : State => display_of st = display_of s)
    (handle_timeo_body currcms force_redraw)
    (fun i st h => (handle_timeo_body_display _ _ i st).trans h) n s rfl

/-- The output of the loop of `handle_timeo`: the rows of the elements in the
order of their index, each as the state at the start of the loop has it. -/
theorem handle_timeo_loop_stdout (currcms : Int) (force_redraw n : Nat) (s : State) :
    (forLoop n (handle_timeo_body currcms force_redraw) s).stdout
      = s.stdout ++ outLoop n (tick_row currcms force_redraw s) := by
  induction n with
  | zero =>
    rw [forLoop_zero]
    exact (List.append_nil _).symm
  | succ n ih =>
    rw [forLoop_succ, handle_timeo_body_stdout, ih, outLoop_succ, List.append_assoc,
      tick_row_congr currcms force_redraw _ s n
        (by rw [handle_timeo_loop_sniftab, if_neg (Nat.lt_irrefl n)])
        (handle_timeo_loop_display currcms force_redraw n s)]

theorem handle_timeo_notch_stdout (s : State) : (handle_timeo_notch s).stdout = s.stdout := by
  unfold handle_timeo_notch
  split_ifs
  · apply forLoop_inv (fun st : State => st.stdout = s.stdout)
    · intro i st h
      exact h
    · rfl
  · rfl

theorem handle_timeo_notch_frame_count (s : State) :
    (handle_timeo_notch s).frame_count = s.frame_count := by
  unfold handle_timeo_notch
  split_ifs
  · apply forLoop_inv (fun st : State => st.frame_count = s.frame_count)
    · intro i st h
      exact h
    · rfl
  · rfl

theorem emit_stdout (s : State) (o : List Item) : (emit s o).stdout = s.stdout ++ o := rfl

theorem emit_frame_count (s : State) (o : List Item) :
    (emit s o).frame_count = s.frame_count := rfl

/-- What `handle_timeo` prints before its loop: the header on a cleared screen,
the cursor sent home and the update counter. -/
theorem handle_timeo_head_stdout (s : State) :
    (handle_timeo_head s).stdout
      = s.stdout ++ (if s.clearscreen ≠ 0 then print_header s else [])
          ++ [Item.ctl Ctl.CSR_HOME] ++ (fmt_ld 2 s.frame_count ++ [Item.chr '\n']) := by
  unfold handle_timeo_head
  simp only [emit_stdout, emit_frame_count, handle_timeo_notch_stdout,
    handle_timeo_notch_frame_count]
  by_cases hc : s.clearscreen ≠ 0
  · rw [if_pos hc, if_pos hc]
  · rw [if_neg hc, if_neg hc, List.append_nil]

/-- What a tick prints: the head, then the rows of the 2048 elements in the
order of their index, each as the table has it after the notch request is
served. -/
theorem handle_timeo_stdout (s : State) (currcms : Int) :
    (handle_timeo s currcms).2.stdout
      = (handle_timeo_head s).stdout
          ++ outLoop 2048 (tick_row currcms (if s.clearscreen ≠ 0 then 1 else 0)
              (handle_timeo_head s)) := by
  rw [handle_timeo_snd, handle_timeo_loop_stdout]

/-! ## C12: displayed and enabled -/

theorem handle_timeo_head_flags (s : State) (k : Nat) :
    ((handle_timeo_head s).sniftab k).flags = (s.sniftab k).flags := by
  rw [handle_timeo_head_sniftab]
  split_ifs <;> rfl

theorem is_set_head (s : State) (k flag : Nat) :
    is_set (handle_timeo_head s) k flag = is_set s k flag := by
  unfold is_set
  rw [handle_timeo_head_flags]

theorem tick_row_hidden (currcms : Int) (force_redraw : Nat) (s : State) (k : Nat)
    (h : ¬ (is_set s k ENABLE = true ∧ is_set s k DISPLAY = true)) :
    tick_row currcms force_redraw s k = [] := by
  unfold tick_row
  rw [if_neg h]

theorem timeo_entry_disabled (hold currcms : Int) (force_redraw : Nat) (e : snif)
    (h : e.flags &&& ENABLE = 0) : timeo_entry hold currcms force_redraw e = e := by
  unfold timeo_entry
  rw [if_neg (fun hn => hn h)]

theorem handle_timeo_disabled (s : State) (currcms : Int) (k : Nat)
    (h : is_set s k ENABLE = false) :
    (handle_timeo s currcms).2.sniftab k
      = if s.notch ≠ 0 ∧ k < 2048 then notch_fold (s.sniftab k) else s.sniftab k := by
  have hE : (s.sniftab k).flags &&& ENABLE = 0 := by
    by_contra hn
    rw [(is_set_iff s k ENABLE).mpr hn] at h
    exact absurd h (by decide)
  rw [handle_timeo_sniftab]
  by_cases hk : k < 2048
  · rw [if_pos hk]
    by_cases hn : s.notch ≠ 0
    · have hc : s.notch ≠ 0 ∧ k < 2048 := ⟨hn, hk⟩
      rw [if_pos hn, if_pos hc]
      exact timeo_entry_disabled _ _ _ (notch_fold (s.sniftab k)) hE
    · have hc : ¬ (s.notch ≠ 0 ∧ k < 2048) := fun h => hn h.1
      rw [if_neg hn, if_neg hc]
      exact timeo_entry_disabled _ _ _ (s.sniftab k) hE
  · have hc : ¬ (s.notch ≠ 0 ∧ k < 2048) := fun h => hk h.2
    rw [if_neg hk, if_neg hc]

theorem raw_entry_enable (timeout : Int) (cf : canfd_frame) (stamp : timeval)
    (currcms : Int) (e : snif) :
    (raw_entry timeout cf stamp currcms e).flags &&& ENABLE = e.flags &&& ENABLE := by
  unfold raw_entry
  simp only []
  rw [and_or_flag _ _ _ (by decide), and_or_flag _ _ _ (by decide)]

theorem raw_entry_flags (timeout : Int) (cf : canfd_frame) (stamp : timeval)
    (currcms : Int) (e : snif) :
    (raw_entry timeout cf stamp currcms e).flags = (e.flags ||| DISPLAY) ||| UPDATE := rfl

theorem hidden_flags : ((run (init default_config) hidden_events).sniftab 0x123).flags = 6 := by
  have hd : (cstr (c2b '-' :: digits_123 ++ [c2b '\n'])).dropLast = c2b '-' :: digits_123 := by
    decide
  rw [hidden_events, run_cons, run_cons, run_nil, step_raw, step_keyb,
    handle_raw_sniftab _ _ _ _ _ (Or.inl rfl), if_pos (by decide), raw_entry_flags,
    handle_keyb_cmd _ 3 keyb_minus_123 _ rfl (by decide), hd, clearscreen_sniftab,
    switch_filter _ _ _ _ _ (Or.inr rfl), filter_cmd_sniftab, if_pos (by decide),
    init_sniftab_lt _ _ (by decide)]
  rfl

/-- C12 (as stated) fails: from the initial state the operator types `-123`
and a frame arrives for 0x123; the entry then has its displayed flag set and
its enabled flag clear. -/
theorem displayed_without_enabled :
    is_set (run (init default_config) hidden_events) 0x123 DISPLAY = true
    ∧ is_set (run (init default_config) hidden_events) 0x123 ENABLE = false := by
  constructor
  · rw [is_set, hidden_flags]
    rfl
  · rw [is_set, hidden_flags]
    rfl

/-- C12 (as amended): the displayed flag goes its own way.  `handle_raw` sets
it on the entry of every accepted frame and leaves the enabled flag of that
entry as it is; a command and a settings file change no displayed flag; a tick
prints the head and then one row per entry, the row of an entry that is not
both enabled and displayed being empty, and it leaves an entry that is not
enabled as it is, but for a pending notch request. -/
theorem displayed_flag_and_enabled_flag (s : State) (fd : Int) (env : KeybEnv) (nbytes : Int)
    (cf : canfd_frame) (stamp : timeval) (currcms : Int) (name : List u8)
    (file : Option (List u8)) (force_redraw k : Nat)
    (hacc : nbytes = CAN_MTU ∨ nbytes = CANFD_MTU) :
    (is_set (handle_raw s nbytes cf stamp currcms).2 (cf.can_id &&& 0x7FF) DISPLAY = true
      ∧ is_set (handle_raw s nbytes cf stamp currcms).2 (cf.can_id &&& 0x7FF) ENABLE
          = is_set s (cf.can_id &&& 0x7FF) ENABLE)
    ∧ is_set (handle_keyb s fd env).2 k DISPLAY = is_set s k DISPLAY
    ∧ is_set (readsettings s name fd file) k DISPLAY = is_set s k DISPLAY
    ∧ (handle_timeo s currcms).2.stdout
        = (handle_timeo_head s).stdout
            ++ outLoop 2048 (tick_row currcms (if s.clearscreen ≠ 0 then 1 else 0)
                (handle_timeo_head s))
    ∧ (¬ (is_set s k ENABLE = true ∧ is_set s k DISPLAY = true) →
        tick_row currcms force_redraw (handle_timeo_head s) k = [])
    ∧ (is_set s k ENABLE = false →
        (handle_timeo s currcms).2.sniftab k
          = if s.notch ≠ 0 ∧ k < 2048 then notch_fold (s.sniftab k) else s.sniftab k) := by
  refine ⟨⟨?_, ?_⟩, ?_, ?_, handle_timeo_stdout s currcms, ?_, handle_timeo_disabled s currcms k⟩
  · rw [is_set_iff, handle_raw_sniftab _ _ _ _ _ hacc, if_pos rfl, raw_entry_display]
    decide
  · apply is_set_congr
    rw [handle_raw_sniftab _ _ _ _ _ hacc, if_pos rfl, raw_entry_enable]
  · exact is_set_congr _ _ _ _ (handle_keyb_rel s fd env k).2.1
  · exact is_set_congr _ _ _ _ (readsettings_rel s name fd file k).2.1
  · intro h
    apply tick_row_hidden
    rw [is_set_head, is_set_head]
    exact h

theorem displayed_flag_and_enabled_flag_witness :
    (CAN_MTU = CAN_MTU ∨ CAN_MTU = CANFD_MTU)
    ∧ (is_set (handle_raw (init default_config) CAN_MTU frame8 ⟨0, 0⟩ 0).2
          (frame8.can_id &&& 0x7FF) DISPLAY = true
      ∧ is_set (handle_raw (init default_config) CAN_MTU frame8 ⟨0, 0⟩ 0).2
          (frame8.can_id &&& 0x7FF) ENABLE
          = is_set (init default_config) (frame8.can_id &&& 0x7FF) ENABLE)
    ∧ is_set (handle_keyb (init default_config) 3 keyb_minus_123).2 0x123 DISPLAY
        = is_set (init default_config) 0x123 DISPLAY
    ∧ is_set (readsettings (init default_config) [] 3 none) 0x123 DISPLAY
        = is_set (init default_config) 0x123 DISPLAY
    ∧ (handle_timeo (init default_config) 1).2.stdout
        = (handle_timeo_head (init default_config)).stdout
            ++ outLoop 2048 (tick_row 1 (if (init default_config).clearscreen ≠ 0 then 1 else 0)
                (handle_timeo_head (init default_config)))
    ∧ (¬ (is_set (init default_config) 0x123 ENABLE = true
          ∧ is_set (init default_config) 0x123 DISPLAY = true) →
        tick_row 1 0 (handle_timeo_head (init default_config)) 0x123 = [])
    ∧ (is_set (init default_config) 0x123 ENABLE = false →
        (handle_timeo (init default_config) 1).2.sniftab 0x123
          = if (init default_config).notch ≠ 0 ∧ 0x123 < 2048 then
              notch_fold ((init default_config).sniftab 0x123)
            else (init default_config).sniftab 0x123) :=
  ⟨Or.inl rfl,
    displayed_flag_and_enabled_flag (init default_config) 3 keyb_minus_123 CAN_MTU frame8 ⟨0, 0⟩ 1
      [] none 0 0x123 (Or.inl rfl)⟩

/-! ## C13: the table element of an identifier -/

theorem sff_index (a : Nat) (h : a < 0x800) : a &&& 0x7FF = a := by
  have h1 : a &&& 0x7FF = a % 2 ^ 11 := Nat.and_pow_two_sub_one_eq_mod a 11
  rw [h1]
  exact Nat.mod_eq_of_lt h

/-- C13 (as stated) fails: an eight byte frame with the standard identifier
0x123 is stored, then a frame with the extended identifier 0x923 arrives; the
identifiers differ, both resolve to element 0x123, and the stored payload of
0x123 is overwritten. -/
theorem extended_identifier_shares_entry :
    frame8.can_id ≠ eff_frame.can_id
    ∧ eff_frame.can_id &&& CAN_EFF_FLAG ≠ 0
    ∧ frame8.can_id &&& 0x7FF = 0x123
    ∧ eff_frame.can_id &&& 0x7FF = 0x123
    ∧ (full_state.sniftab 0x123).current = frame8
    ∧ ((handle_raw full_state CAN_MTU eff_frame ⟨0, 0⟩ 1).2.sniftab 0x123).current
        = eff_frame := by
  refine ⟨by decide, by decide, by decide, by decide, ?_, ?_⟩
  · rw [full_state, handle_raw_sniftab _ _ _ _ _ (Or.inl rfl), if_pos (by decide)]
    rfl
  · rw [handle_raw_sniftab _ _ _ _ _ (Or.inl rfl), if_pos (by decide)]
    rfl

/-- C13 (as amended): `handle_raw` resolves a frame to the table element
`can_id & 0x7FF`.  Two different standard identifiers (below 0x800) differ in
these bits; an accepted frame leaves the element of every identifier `a` that
differs from its own in the low 11 bits as it is, in all its fields; and it
overwrites the element of every identifier `a` that agrees with its own in the
low 11 bits. -/
theorem one_entry_per_low_bits (s : State) (nbytes : Int) (cf : canfd_frame) (stamp : timeval)
    (currcms : Int) (a : Nat) (hacc : nbytes = CAN_MTU ∨ nbytes = CANFD_MTU) :
    (a < 0x800 → cf.can_id < 0x800 → a ≠ cf.can_id → a &&& 0x7FF ≠ cf.can_id &&& 0x7FF)
    ∧ (a &&& 0x7FF ≠ cf.can_id &&& 0x7FF →
        (handle_raw s nbytes cf stamp currcms).2.sniftab (a &&& 0x7FF) = s.sniftab (a &&& 0x7FF))
    ∧ (a &&& 0x7FF = cf.can_id &&& 0x7FF →
        (handle_raw s nbytes cf stamp currcms).2.sniftab (a &&& 0x7FF)
          = raw_entry s.timeout cf stamp currcms (s.sniftab (a &&& 0x7FF))) := by
  refine ⟨?_, ?_, ?_⟩
  · intro ha hb hab
    rw [sff_index a ha, sff_index _ hb]
    exact hab
  · intro h
    exact handle_raw_other s nbytes cf stamp currcms _ h
  · intro h
    rw [handle_raw_sniftab _ _ _ _ _ hacc, if_pos h]

theorem one_entry_per_low_bits_witness :
    (CAN_MTU = CAN_MTU ∨ CAN_MTU = CANFD_MTU)
    ∧ (0x124 < 0x800 → frame8.can_id < 0x800 → 0x124 ≠ frame8.can_id →
        0x124 &&& 0x7FF ≠ frame8.can_id &&& 0x7FF)
    ∧ (0x124 &&& 0x7FF ≠ frame8.can_id &&& 0x7FF →
        (handle_raw (init default_config) CAN_MTU frame8 ⟨0, 0⟩ 0).2.sniftab (0x124 &&& 0x7FF)
          = (init default_config).sniftab (0x124 &&& 0x7FF))
    ∧ (0x124 &&& 0x7FF = frame8.can_id &&& 0x7FF →
        (handle_raw (init default_config) CAN_MTU frame8 ⟨0, 0⟩ 0).2.sniftab (0x124 &&& 0x7FF)
          = raw_entry (init default_config).timeout frame8 ⟨0, 0⟩ 0
              ((init default_config).sniftab (0x124 &&& 0x7FF))) :=
  ⟨Or.inl rfl,
    one_entry_per_low_bits (init default_config) CAN_MTU frame8 ⟨0, 0⟩ 0 0x124 (Or.inl rfl)⟩

/-! ## C14: a read that fails -/

theorem handle_timeo_body_running (currcms : Int) (force_redraw i : Nat) (s : State) :
    (handle_timeo_body currcms force_redraw i s).running = s.running := by
  have h1 : (handle_timeo_draw currcms force_redraw i s).running = s.running := by
    unfold handle_timeo_draw
    split_ifs <;> rfl
  have h2 : ∀ t : State, (handle_timeo_expire currcms i t).running = t.running := by
    intro t
    unfold handle_timeo_expire
    split_ifs <;> rfl
  unfold handle_timeo_body
  split_ifs
  · exact (h2 _).trans h1
  · rfl
  · rfl

theorem handle_timeo_notch_running (s : State) : (handle_timeo_notch s).running = s.running := by
  unfold handle_timeo_notch
  split_ifs
  · apply forLoop_inv (fun st : State => st.running = s.running)
    · intro i st h
      exact h
    · rfl
  · rfl

theorem handle_timeo_head_running (s : State) : (handle_timeo_head s).running = s.running := by
  unfold handle_timeo_head
  simp only [emit]
  rw [handle_timeo_notch_running]
  split_ifs <;> rfl

theorem handle_timeo_running (s : State) (currcms : Int) :
    (handle_timeo s currcms).2.running = s.running := by
  rw [handle_timeo_snd]
  apply forLoop_inv (fun st : State => st.running = s.running)
  · intro i st h
    exact (handle_timeo_body_running _ _ i st).trans h
  · exact handle_timeo_head_running s

theorem handle_raw_fault (s : State) (nbytes : Int) (cf : canfd_frame) (stamp : timeval)
    (currcms : Int) (h : nbytes < 0 ∨ (nbytes ≠ CAN_MTU ∧ nbytes ≠ CANFD_MTU)) :
    (handle_raw s nbytes cf stamp currcms).1 = 0 := by
  by_cases h0 : nbytes < 0
  · simp [handle_raw, h0]
  · have h1 : nbytes ≠ CAN_MTU ∧ nbytes ≠ CANFD_MTU := h.resolve_left h0
    simp [handle_raw, h0, h1]

theorem handle_raw_fault_entry (s : State) (nbytes : Int) (cf : canfd_frame) (stamp : timeval)
    (currcms : Int) (h : nbytes < 0 ∨ (nbytes ≠ CAN_MTU ∧ nbytes ≠ CANFD_MTU)) (k : Nat) :
    (handle_raw s nbytes cf stamp currcms).2.sniftab k = s.sniftab k
      ∨ (handle_raw s nbytes cf stamp currcms).2.sniftab k
          = { s.sniftab k with currstamp := stamp } := by
  apply handle_raw_reject
  rintro (h2 | h2)
  · rcases h with h | h
    · rw [h2] at h
      exact absurd h (by decide)
    · exact h.1 h2
  · rcases h with h | h
    · rw [h2] at h
      exact absurd h (by decide)
    · exact h.2 h2

theorem cycle_fault_tail (s1 : State) (c : Cycle)
    (h : c.nbytes < 0 ∨ (c.nbytes ≠ CAN_MTU ∧ c.nbytes ≠ CANFD_MTU)) (s2 : State)
    (h2 : s2 = { (handle_raw s1 c.nbytes c.cf c.stamp c.currcms).2 with
      running := (handle_raw s1 c.nbytes c.cf c.stamp c.currcms).2.running
        &&& (handle_raw s1 c.nbytes c.cf c.stamp c.currcms).1 }) :
    (if c.currcms - s2.lastcms ≥ s2.loop then
      { (handle_timeo s2 c.currcms).2 with
        running := (handle_timeo s2 c.currcms).2.running &&& (handle_timeo s2 c.currcms).1,
        lastcms := c.currcms }
    else s2).running = 0 := by
  have hs2 : s2.running = 0 := by
    rw [h2]
    show _ &&& (handle_raw s1 c.nbytes c.cf c.stamp c.currcms).1 = 0
    rw [handle_raw_fault s1 _ _ _ _ h]
    exact Nat.and_zero _
  split_ifs
  · show (handle_timeo s2 c.currcms).2.running &&& (handle_timeo s2 c.currcms).1 = 0
    rw [handle_timeo_running, hs2]
    exact Nat.zero_and _
  · exact hs2

theorem main_cycle_fault (s : State) (fd : Int) (c : Cycle) (hr : c.raw_ready = true)
    (h : c.nbytes < 0 ∨ (c.nbytes ≠ CAN_MTU ∧ c.nbytes ≠ CANFD_MTU)) :
    (main_cycle s fd c).running = 0 := by
  unfold main_cycle
  by_cases h0 : s.running = 0
  · rw [if_pos h0]
    exact h0
  · rw [if_neg h0]
    by_cases h1 : c.select_ret < 0
    · rw [if_pos h1]
    · rw [if_neg h1]
      simp only [hr, if_true]
      exact cycle_fault_tail _ c h _ rfl

/-- C14: when the read gives a negative number of bytes, or a number that is
neither `CAN_MTU` nor `CANFD_MTU`, `handle_raw` returns 0; a turn of the loop
of `main` in which the socket is read this way ends with `running` 0; and the
call leaves `current`, `marker`, `flags` and `timeout` of every table element
as they were. -/
theorem transport_fault (s s1 : State) (fd : Int) (c : Cycle) (k : Nat)
    (h : c.nbytes < 0 ∨ (c.nbytes ≠ CAN_MTU ∧ c.nbytes ≠ CANFD_MTU)) :
    (handle_raw s1 c.nbytes c.cf c.stamp c.currcms).1 = 0
    ∧ (c.raw_ready = true → (main_cycle s fd c).running = 0)
    ∧ ((handle_raw s1 c.nbytes c.cf c.stamp c.currcms).2.sniftab k).current
        = (s1.sniftab k).current
    ∧ ((handle_raw s1 c.nbytes c.cf c.stamp c.currcms).2.sniftab k).marker
        = (s1.sniftab k).marker
    ∧ ((handle_raw s1 c.nbytes c.cf c.stamp c.currcms).2.sniftab k).flags
        = (s1.sniftab k).flags
    ∧ ((handle_raw s1 c.nbytes c.cf c.stamp c.currcms).2.sniftab k).timeout
        = (s1.sniftab k).timeout := by
  refine ⟨handle_raw_fault s1 _ _ _ _ h, fun hr => main_cycle_fault s fd c hr h, ?_⟩
  rcases handle_raw_fault_entry s1 _ c.cf c.stamp c.currcms h k with hc | hc <;> rw [hc] <;>
    exact ⟨rfl, rfl, rfl, rfl⟩

theorem transport_fault_witness :
    (fault_cycle.nbytes < 0 ∨ (fault_cycle.nbytes ≠ CAN_MTU ∧ fault_cycle.nbytes ≠ CANFD_MTU))
    ∧ (handle_raw full_state fault_cycle.nbytes fault_cycle.cf fault_cycle.stamp
        fault_cycle.currcms).1 = 0
    ∧ (fault_cycle.raw_ready = true → (main_cycle (init default_config) 3 fault_cycle).running = 0)
    ∧ ((handle_raw full_state fault_cycle.nbytes fault_cycle.cf fault_cycle.stamp
          fault_cycle.currcms).2.sniftab 0x123).current
        = (full_state.sniftab 0x123).current
    ∧ ((handle_raw full_state fault_cycle.nbytes fault_cycle.cf fault_cycle.stamp
          fault_cycle.currcms).2.sniftab 0x123).marker
        = (full_state.sniftab 0x123).marker
    ∧ ((handle_raw full_state fault_cycle.nbytes fault_cycle.cf fault_cycle.stamp
          fault_cycle.currcms).2.sniftab 0x123).flags
        = (full_state.sniftab 0x123).flags
    ∧ ((handle_raw full_state fault_cycle.nbytes fault_cycle.cf fault_cycle.stamp
          fault_cycle.currcms).2.sniftab 0x123).timeout
        = (full_state.sniftab 0x123).timeout :=
  ⟨Or.inr ⟨by decide, by decide⟩,
    transport_fault (init default_config) full_state 3 fault_cycle 0x123
      (Or.inr ⟨by decide, by decide⟩)⟩

/-! ## C15: the settings file -/

theorem tag_digits (i : Nat) (hi : i < 4096) :
    padZero 3 (digits 16 i)
      = [digitChar (i / 256), digitChar (i / 16 % 16), digitChar (i % 16)] := by
  unfold digits
  by_cases h : i / 16 = 0
  · unfold digitsAux
    rw [if_pos h]
    have e1 : i / 256 = 0 := by omega
    have e2 : i / 16 % 16 = 0 := by omega
    rw [e1, e2]
    rfl
  · unfold digitsAux
    rw [if_neg h]
    have hb1 : i = (i - 1) + 1 := by omega
    rw [hb1]
    unfold digitsAux
    by_cases h2 : (i - 1 + 1) / 16 / 16 = 0
    · rw [if_pos h2]
      have e1 : (i - 1 + 1) / 256 = 0 := by omega
      rw [e1]
      rfl
    · rw [if_neg h2]
      have hb2 : i - 1 = (i - 2) + 1 := by omega
      rw [hb2]
      unfold digitsAux
      have h3 : (i - 2 + 1 + 1) / 16 / 16 / 16 = 0 := by omega
      rw [if_pos h3]
      have e1 : (i - 2 + 1 + 1) / 16 / 16 % 16 = (i - 2 + 1 + 1) / 256 := by omega
      rw [e1]
      rfl

theorem settings_record_eq (s : State) (i : Nat) (hi : i < 2048) :
    settings_record s i
      = [c2b '<', c2b (digitChar (i / 256)), c2b (digitChar (i / 16 % 16)),
          c2b (digitChar (i % 16)), c2b '>',
          c2b (if is_set s i ENABLE = true then '1' else '0'), c2b '.']
        ++ (hexpair ((s.sniftab i).notch.data 0) ++ hexpair ((s.sniftab i).notch.data 1)
          ++ hexpair ((s.sniftab i).notch.data 2) ++ hexpair ((s.sniftab i).notch.data 3)
          ++ hexpair ((s.sniftab i).notch.data 4) ++ hexpair ((s.sniftab i).notch.data 5)
          ++ hexpair ((s.sniftab i).notch.data 6) ++ hexpair ((s.sniftab i).notch.data 7))
        ++ [c2b '\n'] := by
  unfold settings_record
  rw [tag_digits i (by omega)]
  simp only [outLoop, byte_digits _ (Fin.isLt _), hexpair, List.cons_append, List.nil_append,
    List.take_succ_cons, List.take_zero, List.map_cons, List.map_nil, List.append_assoc,
    List.take_nil]

theorem settings_bytes_record (s : State) (i : Nat) (hi : i < 2048) :
    ((settings_bytes s).drop (24 * i)).take 24 = settings_record s i := by
  rw [settings_bytes, outLoop_drop 2048 (settings_record s) 24 (settings_record_length s) i hi]
  conv_lhs => rw [← settings_record_length s i]
  exact List.take_left _ _

/-- C15: `writesettings` hands the file `2048 * 24` bytes; the 24 bytes from
offset `24 * i` on are the record of slot `i`: `<`, the three hex digits of
`i`, `>`, `1` when the slot is enabled and `0` when it is not, `.`, the two hex
digits of each of the notch bytes 0 to 7 in this order, and a newline. -/
theorem settings_format (s : State) (name : List u8) (i : Nat) (hi : i < 2048) :
    (writesettings s name true).written = s.written ++ [(fname name, settings_bytes s)]
    ∧ (settings_bytes s).length = 24 * 2048
    ∧ ((settings_bytes s).drop (24 * i)).take 24
        = [c2b '<', c2b (digitChar (i / 256)), c2b (digitChar (i / 16 % 16)),
            c2b (digitChar (i % 16)), c2b '>',
            c2b (if is_set s i ENABLE = true then '1' else '0'), c2b '.']
          ++ (hexpair ((s.sniftab i).notch.data 0) ++ hexpair ((s.sniftab i).notch.data 1)
            ++ hexpair ((s.sniftab i).notch.data 2) ++ hexpair ((s.sniftab i).notch.data 3)
            ++ hexpair ((s.sniftab i).notch.data 4) ++ hexpair ((s.sniftab i).notch.data 5)
            ++ hexpair ((s.sniftab i).notch.data 6) ++ hexpair ((s.sniftab i).notch.data 7))
          ++ [c2b '\n'] := by
  refine ⟨rfl, outLoop_length 2048 (settings_record s) 24 (settings_record_length s), ?_⟩
  rw [settings_bytes_record s i hi, settings_record_eq s i hi]

theorem settings_format_witness :
    0x123 < 2048
    ∧ (writesettings notched_state [] true).written
        = notched_state.written ++ [(fname [], settings_bytes notched_state)]
    ∧ (settings_bytes notched_state).length = 24 * 2048
    ∧ ((settings_bytes notched_state).drop (24 * 0x123)).take 24
        = [c2b '<', c2b (digitChar (0x123 / 256)), c2b (digitChar (0x123 / 16 % 16)),
            c2b (digitChar (0x123 % 16)), c2b '>',
            c2b (if is_set notched_state 0x123 ENABLE = true then '1' else '0'), c2b '.']
          ++ (hexpair ((notched_state.sniftab 0x123).notch.data 0)
            ++ hexpair ((notched_state.sniftab 0x123).notch.data 1)
            ++ hexpair ((notched_state.sniftab 0x123).notch.data 2)
            ++ hexpair ((notched_state.sniftab 0x123).notch.data 3)
            ++ hexpair ((notched_state.sniftab 0x123).notch.data 4)
            ++ hexpair ((notched_state.sniftab 0x123).notch.data 5)
            ++ hexpair ((notched_state.sniftab 0x123).notch.data 6)
            ++ hexpair ((notched_state.sniftab 0x123).notch.data 7))
          ++ [c2b '\n'] :=
  ⟨by decide, settings_format notched_state [] 0x123 (by decide)⟩

/-! ## C16: a settings file that ends early -/

theorem read_notch_byte_buf (j : Nat) (nb : canfd_frame × List u8) :
    (read_notch_byte j nb).2 = nb.2.set (2 * j + 7) 0 := rfl

theorem read_notch_drop (nb : canfd_frame × List u8) :
    (read_notch nb).2.drop 24 = nb.2.drop 24 := by
  unfold read_notch
  simp only [read_notch_byte_buf]
  rw [List.drop_set_of_lt _ _ (by decide), List.drop_set_of_lt _ _ (by decide),
    List.drop_set_of_lt _ _ (by decide), List.drop_set_of_lt _ _ (by decide),
    List.drop_set_of_lt _ _ (by decide), List.drop_set_of_lt _ _ (by decide),
    List.drop_set_of_lt _ _ (by decide), List.drop_set_of_lt _ _ (by decide)]

theorem readsettings_body_buf_drop (name : List u8) (sockfd : Int) (i : Nat) (r : ReadLoop) :
    (readsettings_body name sockfd i r).buf.drop 24 = r.buf.drop 24 := by
  by_cases h : (r.rest.take 24).length = 24
  · obtain ⟨n, hn⟩ := readsettings_body_buf name sockfd i r h
    rw [hn, read_notch_drop]
    have hd := List.drop_left (r.rest.take 24) (r.buf.drop 24)
    rw [h] at hd
    exact hd
  · have hg : (r.rest.take 24).length ≤ 24 := by
      rw [List.length_take]
      exact Nat.min_le_left _ _
    unfold readsettings_body
    simp only []
    rw [if_neg h]
    show (r.rest.take 24 ++ r.buf.drop (r.rest.take 24).length).drop 24 = _
    rw [List.drop_append_eq_append_drop, List.drop_eq_nil_of_le hg, List.drop_drop,
      List.nil_append]
    congr 1
    omega

/-- The loop of `readsettings` on any file content: turn `j` applies the 24
bytes from offset `24 * j` on when the content has that many, and leaves the
table element as it is when it has not. -/
theorem read_loop_blocks (name : List u8) (sockfd : Int) (content : List u8) (r0 : ReadLoop)
    (h1 : r0.rest = content) (h2 : r0.buf.drop 24 = [0]) (n : Nat) :
    (forLoop n (readsettings_body name sockfd) r0).rest = content.drop (24 * n)
    ∧ (forLoop n (readsettings_body name sockfd) r0).buf.drop 24 = [0]
    ∧ ∀ j, (forLoop n (readsettings_body name sockfd) r0).st.sniftab j
      = if j < n ∧ 24 * (j + 1) ≤ content.length then
          read_entry ((content.drop (24 * j)).take 24 ++ [0]) (r0.st.sniftab j)
        else r0.st.sniftab j := by
  induction n with
  | zero =>
    rw [forLoop_zero]
    refine ⟨h1, h2, fun j => ?_⟩
    rw [if_neg (fun h => absurd h.1 (Nat.not_lt_zero j))]
  | succ n ih =>
    obtain ⟨hrest, hbuf, htab⟩ := ih
    rw [forLoop_succ]
    generalize forLoop n (readsettings_body name sockfd) r0 = r at *
    have hlen : (r.rest.take 24).length = 24 ↔ 24 * (n + 1) ≤ content.length := by
      rw [hrest, List.length_take, List.length_drop]
      omega
    refine ⟨?_, ?_, ?_⟩
    · rw [readsettings_body_rest, hrest, List.drop_drop, Nat.mul_succ]
    · rw [readsettings_body_buf_drop, hbuf]
    · intro j
      rw [readsettings_body_sniftab]
      have hn : r.st.sniftab n = r0.st.sniftab n := by
        rw [htab n, if_neg (fun h => absurd h.1 (Nat.lt_irrefl n))]
      by_cases hj : j = n
      · by_cases hf : 24 * (n + 1) ≤ content.length
        · have c1 : j = n ∧ (r.rest.take 24).length = 24 := ⟨hj, hlen.2 hf⟩
          have c2 : j < n + 1 ∧ 24 * (j + 1) ≤ content.length := by
            rw [hj]
            exact ⟨Nat.lt_succ_self n, hf⟩
          rw [if_pos c1, if_pos c2, hlen.2 hf, hbuf, hn, hrest, hj]
        · have c1 : ¬ (j = n ∧ (r.rest.take 24).length = 24) := fun h => hf (hlen.1 h.2)
          have c2 : ¬ (j < n + 1 ∧ 24 * (j + 1) ≤ content.length) := by
            rw [hj]
            exact fun h => hf h.2
          rw [if_neg c1, if_neg c2, hj, hn]
      · have c1 : ¬ (j = n ∧ (r.rest.take 24).length = 24) := fun h => hj h.1
        rw [if_neg c1, htab j]
        by_cases hc : j < n ∧ 24 * (j + 1) ≤ content.length
        · have c2 : j < n + 1 ∧ 24 * (j + 1) ≤ content.length := ⟨by omega, hc.2⟩
          rw [if_pos hc, if_pos c2]
        · have c2 : ¬ (j < n + 1 ∧ 24 * (j + 1) ≤ content.length) :=
            fun h => hc ⟨by omega, h.2⟩
          rw [if_neg hc, if_neg c2]

/-- The table after `readsettings` on any file content. -/
theorem readsettings_blocks (s : State) (name : List u8) (sockfd : Int) (content : List u8)
    (j : Nat) :
    (readsettings s name sockfd (some content)).sniftab j
      = if j < 2048 ∧ 24 * (j + 1) ≤ content.length then
          read_entry ((content.drop (24 * j)).take 24 ++ [0]) (s.sniftab j)
        else s.sniftab j := by
  obtain ⟨st0, o, h0, h⟩ := readsettings_loop_form s name sockfd content
  rw [h, emit_sniftab,
    (read_loop_blocks name sockfd content { st := st0, rest := content, buf := List.replicate 25 0 }
      rfl rfl 2048).2.2 j]
  simp only [h0]

theorem truncated_records (s : State) (k n : Nat) (hk : k ≤ 2048) (hn : n < k) :
    ((((settings_bytes s).take (24 * k)).drop (24 * n)).take 24) = settings_record s n := by
  rw [List.drop_take, List.take_take, ← settings_bytes_record s n (by omega)]
  congr 1
  omega

theorem truncated_length (s : State) (k : Nat) (hk : k ≤ 2048) :
    ((settings_bytes s).take (24 * k)).length = 24 * k := by
  rw [List.length_take, settings_bytes,
    outLoop_length 2048 (settings_record s) 24 (settings_record_length s)]
  omega

/-- C16: the file holds the records that `writesettings` makes of `s` for the
slots below `k`, and no further complete record.  Then `readsettings`, from any
state `t` and for any `sockfd`, gives each slot below `k` the enabled flag and
the eight notch bytes it has in `s`, and leaves each slot from `k` on as it is
in `t`, in all its fields. -/
theorem short_settings_read (s t : State) (name : List u8) (sockfd : Int) (content : List u8)
    (k j b : Nat) (hk : k < 2048)
    (hrec : ∀ n, n < k → (content.drop (24 * n)).take 24 = settings_record s n)
    (hlen : content.length < 24 * (k + 1)) :
    (j < k →
      is_set (readsettings t name sockfd (some content)) j ENABLE = is_set s j ENABLE
      ∧ (b < 8 → ((readsettings t name sockfd (some content)).sniftab j).notch.data b
                  = (s.sniftab j).notch.data b))
    ∧ (k ≤ j → (readsettings t name sockfd (some content)).sniftab j = t.sniftab j) := by
  rw [readsettings_blocks]
  constructor
  · intro hj
    have hfull : 24 * (j + 1) ≤ content.length := by
      have h := congrArg List.length (hrec j hj)
      rw [settings_record_length, List.length_take, List.length_drop] at h
      omega
    have hc : j < 2048 ∧ 24 * (j + 1) ≤ content.length := ⟨by omega, hfull⟩
    have hr := read_entry_record s j (by omega) (t.sniftab j)
    constructor
    · rw [Bool.eq_iff_iff, is_set_iff, readsettings_blocks, if_pos hc, hrec j hj]
      exact hr.1
    · intro hb
      rw [if_pos hc, hrec j hj]
      exact hr.2 b hb
  · intro hj
    have hc : ¬ (j < 2048 ∧ 24 * (j + 1) ≤ content.length) := by
      intro h
      have := h.2
      have : 24 * (k + 1) ≤ 24 * (j + 1) := by omega
      omega
    rw [if_neg hc]

theorem short_settings_read_witness :
    512 < 2048
    ∧ (∀ n, n < 512 →
        (((settings_bytes notched_state).take (24 * 512)).drop (24 * n)).take 24
          = settings_record notched_state n)
    ∧ ((settings_bytes notched_state).take (24 * 512)).length < 24 * (512 + 1)
    ∧ (0x123 < 512 →
        is_set (readsettings (init default_config) [] 3
            (some ((settings_bytes notched_state).take (24 * 512)))) 0x123 ENABLE
          = is_set notched_state 0x123 ENABLE
        ∧ (0 < 8 → ((readsettings (init default_config) [] 3
              (some ((settings_bytes notched_state).take (24 * 512)))).sniftab 0x123).notch.data 0
                  = (notched_state.sniftab 0x123).notch.data 0))
    ∧ (512 ≤ 0x123 → (readsettings (init default_config) [] 3
          (some ((settings_bytes notched_state).take (24 * 512)))).sniftab 0x123
        = (init default_config).sniftab 0x123) :=
  have hrec : ∀ n, n < 512 →
      (((settings_bytes notched_state).take (24 * 512)).drop (24 * n)).take 24
        = settings_record notched_state n :=
    fun n hn => truncated_records notched_state 512 n (by decide) hn
  have hlen : ((settings_bytes notched_state).take (24 * 512)).length < 24 * (512 + 1) := by
    rw [truncated_length notched_state 512 (by decide)]
    decide
  ⟨by decide, hrec, hlen,
    short_settings_read notched_state (init default_config) [] 3
      ((settings_bytes notched_state).take (24 * 512)) 512 0x123 0 (by decide) hrec hlen⟩

/-! ## C17: what a tick does with a row -/

theorem timeo_expire_hold (currcms : Int) (e : snif) : (timeo_expire currcms e).hold = e.hold := by
  unfold timeo_expire
  split_ifs <;> rfl

theorem timeo_entry_shown (hold currcms : Int) (force_redraw : Nat) (e : snif)
    (hE : e.flags &&& ENABLE ≠ 0) (hD : e.flags &&& DISPLAY ≠ 0) :
    (timeo_entry hold currcms force_redraw e).hold = (timeo_render hold currcms force_redraw e).hold
    ∧ (timeo_entry hold currcms force_redraw e).marker
        = (timeo_render hold currcms force_redraw e).marker
    ∧ (timeo_entry hold currcms force_redraw e).flags
        = (timeo_expire currcms (timeo_render hold currcms force_redraw e)).flags := by
  unfold timeo_entry
  rw [if_pos hE]
  simp only []
  rw [if_pos hD]
  exact ⟨timeo_expire_hold _ _, timeo_expire_marker _ _, rfl⟩

theorem handle_timeo_head_entry (s : State) (k : Nat) :
    ((handle_timeo_head s).sniftab k).hold = (s.sniftab k).hold
    ∧ ((handle_timeo_head s).sniftab k).marker = (s.sniftab k).marker
    ∧ ((handle_timeo_head s).sniftab k).timeout = (s.sniftab k).timeout
    ∧ ((handle_timeo_head s).sniftab k).current = (s.sniftab k).current
    ∧ ((handle_timeo_head s).sniftab k).currstamp = (s.sniftab k).currstamp
    ∧ ((handle_timeo_head s).sniftab k).last = (s.sniftab k).last
    ∧ ((handle_timeo_head s).sniftab k).laststamp = (s.sniftab k).laststamp := by
  rw [handle_timeo_head_sniftab]
  split_ifs <;> exact ⟨rfl, rfl, rfl, rfl, rfl, rfl, rfl⟩

/-- The table element `k < 2048` after a tick: `timeo_entry` on the element as
the part before the loop leaves it. -/
theorem handle_timeo_entry (s : State) (currcms : Int) (k : Nat) (hk : k < 2048) :
    (handle_timeo s currcms).2.sniftab k
      = timeo_entry s.hold currcms (if s.clearscreen ≠ 0 then 1 else 0)
          ((handle_timeo_head s).sniftab k) := by
  rw [handle_timeo_sniftab, if_pos hk, handle_timeo_head_sniftab]
  by_cases hn : s.notch ≠ 0
  · have hc : s.notch ≠ 0 ∧ k < 2048 := ⟨hn, hk⟩
    rw [if_pos hn, if_pos hc]
  · have hc : ¬ (s.notch ≠ 0 ∧ k < 2048) := fun h => hn h.1
    rw [if_neg hn, if_neg hc]

theorem force_redraw_iff (n : Nat) : (if n ≠ 0 then 1 else 0) ≠ 0 ↔ n ≠ 0 := by
  by_cases h : n ≠ 0
  · rw [if_pos h]
    exact ⟨fun _ => h, fun _ => Nat.one_ne_zero⟩
  · rw [if_neg h]
    exact ⟨fun h0 => absurd rfl h0, fun h1 => absurd h1 h⟩

/-- The row that a tick prints for an element that is enabled and displayed. -/
theorem tick_row_shown (s : State) (currcms : Int) (k : Nat)
    (hE : is_set s k ENABLE = true) (hD : is_set s k DISPLAY = true) :
    tick_row currcms (if s.clearscreen ≠ 0 then 1 else 0) (handle_timeo_head s) k
      = if is_set s k UPDATE = true ∨ s.clearscreen ≠ 0 then
          print_snifline_line (handle_timeo_head s) k
        else if (s.sniftab k).hold ≠ 0 ∧ (s.sniftab k).hold < currcms then
          print_snifline_line
            (set_snif (handle_timeo_head s) k { (handle_timeo_head s).sniftab k with
              marker := U64_DATA_set ((handle_timeo_head s).sniftab k).marker 0 }) k
        else [Item.ctl Ctl.CSR_DOWN] := by
  unfold tick_row
  rw [is_set_head, is_set_head, is_set_head, (handle_timeo_head_entry s k).1,
    if_pos ⟨hE, hD⟩]
  by_cases hA : is_set s k UPDATE = true ∨ s.clearscreen ≠ 0
  · have hA2 : is_set s k UPDATE = true ∨ (if s.clearscreen ≠ 0 then 1 else 0) ≠ 0 :=
      hA.imp id (force_redraw_iff _).2
    rw [if_pos hA, if_pos hA2]
  · have hA2 : ¬ (is_set s k UPDATE = true ∨ (if s.clearscreen ≠ 0 then 1 else 0) ≠ 0) :=
      fun h => hA (h.imp id (force_redraw_iff _).1)
    rw [if_neg hA, if_neg hA2]

theorem display_after_clr (f : Nat) :
    ((f &&& (0xFFFFFFFF ^^^ DISPLAY)) &&& (0xFFFFFFFF ^^^ UPDATE)) &&& DISPLAY = 0 := by
  rw [and_clr_flag _ _ _ (by decide)]
  exact and_clr_same _ _ (by decide)

/-- Lines 581-585 on a table element that is enabled and displayed, after the
whole turn of the loop. -/
theorem timeo_entry_expiry (hold currcms : Int) (force_redraw : Nat) (e : snif)
    (hE : e.flags &&& ENABLE ≠ 0) (hD : e.flags &&& DISPLAY ≠ 0) :
    if e.timeout ≠ 0 ∧ e.timeout < currcms then
      (timeo_entry hold currcms force_redraw e).flags &&& DISPLAY = 0
      ∧ (timeo_entry hold currcms force_redraw e).flags &&& UPDATE = 0
    else (timeo_entry hold currcms force_redraw e).flags &&& DISPLAY ≠ 0 := by
  rw [(timeo_entry_shown hold currcms force_redraw e hE hD).2.2]
  unfold timeo_expire
  rw [timeo_render_timeout]
  by_cases hT : e.timeout ≠ 0 ∧ e.timeout < currcms
  · rw [if_pos hT, if_pos hT]
    exact ⟨display_after_clr _, and_clr_same _ _ (by decide)⟩
  · rw [if_neg hT, if_neg hT, timeo_render_display]
    exact hD

theorem handle_timeo_draw_clearscreen (currcms : Int) (force_redraw i : Nat) (s : State) :
    (handle_timeo_draw currcms force_redraw i s).clearscreen = s.clearscreen := by
  unfold handle_timeo_draw
  split_ifs <;> rfl

theorem handle_timeo_expire_clearscreen (currcms : Int) (i : Nat) (s : State) :
    (handle_timeo_expire currcms i s).clearscreen
      = if (s.sniftab i).timeout ≠ 0 ∧ (s.sniftab i).timeout < currcms then 1
        else s.clearscreen := by
  unfold handle_timeo_expire
  split_ifs <;> rfl

/-- The body of the loop of `handle_timeo` never takes a request to clear the
screen back, and makes one for an element whose timeout is over. -/
theorem handle_timeo_body_clearscreen (currcms : Int) (force_redraw i : Nat) (s : State) :
    (handle_timeo_body currcms force_redraw i s).clearscreen
      = if is_set s i ENABLE = true ∧ is_set s i DISPLAY = true
          ∧ (s.sniftab i).timeout ≠ 0 ∧ (s.sniftab i).timeout < currcms then 1
        else s.clearscreen := by
  unfold handle_timeo_body
  by_cases hE : is_set s i ENABLE = true
  · rw [if_pos hE]
    by_cases hD : is_set s i DISPLAY = true
    · rw [if_pos hD]
      show (handle_timeo_expire currcms i (handle_timeo_draw currcms force_redraw i s)).clearscreen
        = _
      rw [handle_timeo_expire_clearscreen, handle_timeo_draw_clearscreen,
        handle_timeo_draw_sniftab, if_pos rfl, timeo_render_timeout]
      by_cases hT : (s.sniftab i).timeout ≠ 0 ∧ (s.sniftab i).timeout < currcms
      · rw [if_pos hT, if_pos ⟨hE, hD, hT⟩]
      · rw [if_neg hT, if_neg (fun h => hT h.2.2)]
    · rw [if_neg hD, if_neg (fun h => hD h.2.1)]
      rfl
  · rw [if_neg hE, if_neg (fun h => hE h.1)]

theorem handle_timeo_loop_clearscreen (currcms : Int) (force_redraw : Nat) (s : State) (k : Nat)
    (hE : is_set s k ENABLE = true) (hD : is_set s k DISPLAY = true)
    (hT : (s.sniftab k).timeout ≠ 0 ∧ (s.sniftab k).timeout < currcms) (n : Nat) (hn : k < n) :
    (forLoop n (handle_timeo_body currcms force_redraw) s).clearscreen = 1 := by
  induction n with
  | zero => exact absurd hn (Nat.not_lt_zero k)
  | succ n ih =>
    rw [forLoop_succ, handle_timeo_body_clearscreen]
    by_cases hk : k = n
    · have hs : (forLoop n (handle_timeo_body currcms force_redraw) s).sniftab n = s.sniftab n := by
        rw [handle_timeo_loop_sniftab, if_neg (Nat.lt_irrefl n)]
      have hc : is_set (forLoop n (handle_timeo_body currcms force_redraw) s) n ENABLE = true
          ∧ is_set (forLoop n (handle_timeo_body currcms force_redraw) s) n DISPLAY = true
          ∧ ((forLoop n (handle_timeo_body currcms force_redraw) s).sniftab n).timeout ≠ 0
          ∧ ((forLoop n (handle_timeo_body currcms force_redraw) s).sniftab n).timeout
              < currcms := by
        unfold is_set
        rw [hs, ← hk]
        exact ⟨hE, hD, hT⟩
      rw [if_pos hc]
    · have h1 := ih (by omega)
      rw [h1]
      split_ifs <;> rfl

theorem handle_timeo_clearscreen (s : State) (currcms : Int) (k : Nat) (hk : k < 2048)
    (hE : is_set s k ENABLE = true) (hD : is_set s k DISPLAY = true)
    (hT : (s.sniftab k).timeout ≠ 0 ∧ (s.sniftab k).timeout < currcms) :
    (handle_timeo s currcms).2.clearscreen = 1 := by
  rw [handle_timeo_snd]
  apply handle_timeo_loop_clearscreen _ _ _ k _ _ _ 2048 hk
  · rw [is_set_head]
    exact hE
  · rw [is_set_head]
    exact hD
  · rw [(handle_timeo_head_entry s k).2.2.1]
    exact hT

theorem tick_expiry (s : State) (currcms : Int) (k : Nat) (hk : k < 2048)
    (hE : is_set s k ENABLE = true) (hD : is_set s k DISPLAY = true) :
    if (s.sniftab k).timeout ≠ 0 ∧ (s.sniftab k).timeout < currcms then
      is_set (handle_timeo s currcms).2 k DISPLAY = false
      ∧ is_set (handle_timeo s currcms).2 k UPDATE = false
      ∧ (handle_timeo s currcms).2.clearscreen = 1
    else is_set (handle_timeo s currcms).2 k DISPLAY = true := by
  have hf := handle_timeo_head_flags s k
  have hE0 : ((handle_timeo_head s).sniftab k).flags &&& ENABLE ≠ 0 := by
    rw [hf]
    exact (is_set_iff s k ENABLE).1 hE
  have hD0 : ((handle_timeo_head s).sniftab k).flags &&& DISPLAY ≠ 0 := by
    rw [hf]
    exact (is_set_iff s k DISPLAY).1 hD
  have key := timeo_entry_expiry s.hold currcms (if s.clearscreen ≠ 0 then 1 else 0)
    ((handle_timeo_head s).sniftab k) hE0 hD0
  rw [← handle_timeo_entry s currcms k hk, (handle_timeo_head_entry s k).2.2.1] at key
  by_cases hT : (s.sniftab k).timeout ≠ 0 ∧ (s.sniftab k).timeout < currcms
  · rw [if_pos hT] at key
    rw [if_pos hT]
    refine ⟨?_, ?_, handle_timeo_clearscreen s currcms k hk hE hD hT⟩
    · cases hb : is_set (handle_timeo s currcms).2 k DISPLAY
      · rfl
      · exact absurd key.1 ((is_set_iff _ k DISPLAY).1 hb)
    · cases hb : is_set (handle_timeo s currcms).2 k UPDATE
      · rfl
      · exact absurd key.2 ((is_set_iff _ k UPDATE).1 hb)
  · rw [if_neg hT] at key
    rw [if_neg hT]
    exact (is_set_iff _ k DISPLAY).2 key

/-- C18: for a tick at time `currcms` in any state, and a table element `k`
that is enabled and displayed: the tick ends with `DISPLAY` and `UPDATE` of
`k` clear and `clearscreen` set if and only if the timeout of `k` is set and
over; when it is not, `k` keeps `DISPLAY`; and the row of `k` is printed by the
rule of the render step whatever the timeout says, so that a row can be
rendered and leave the screen in the same tick. -/
theorem tick_expiry_after_render (s : State) (currcms : Int) (k : Nat) (hk : k < 2048)
    (hE : is_set s k ENABLE = true) (hD : is_set s k DISPLAY = true) :
    ((is_set (handle_timeo s currcms).2 k DISPLAY = false
        ∧ is_set (handle_timeo s currcms).2 k UPDATE = false
        ∧ (handle_timeo s currcms).2.clearscreen = 1)
      ↔ ((s.sniftab k).timeout ≠ 0 ∧ (s.sniftab k).timeout < currcms))
    ∧ (¬ ((s.sniftab k).timeout ≠ 0 ∧ (s.sniftab k).timeout < currcms) →
        is_set (handle_timeo s currcms).2 k DISPLAY = true)
    ∧ (handle_timeo s currcms).2.stdout
        = (handle_timeo_head s).stdout
          ++ outLoop 2048 (tick_row currcms (if s.clearscreen ≠ 0 then 1 else 0)
              (handle_timeo_head s))
    ∧ tick_row currcms (if s.clearscreen ≠ 0 then 1 else 0) (handle_timeo_head s) k
        = (if is_set s k UPDATE = true ∨ s.clearscreen ≠ 0 then
            print_snifline_line (handle_timeo_head s) k
          else if (s.sniftab k).hold ≠ 0 ∧ (s.sniftab k).hold < currcms then
            print_snifline_line
              (set_snif (handle_timeo_head s) k { (handle_timeo_head s).sniftab k with
                marker := U64_DATA_set ((handle_timeo_head s).sniftab k).marker 0 }) k
          else [Item.ctl Ctl.CSR_DOWN]) := by
  have key := tick_expiry s currcms k hk hE hD
  refine ⟨?_, ?_, handle_timeo_stdout s currcms, tick_row_shown s currcms k hE hD⟩
  · constructor
    · intro h
      by_contra hT
      rw [if_neg hT] at key
      rw [key] at h
      exact absurd h.1 (by decide)
    · intro hT
      rw [if_pos hT] at key
      exact key
  · intro hT
    rw [if_neg hT] at key
    exact key

theorem tick_expiry_after_render_witness :
    0x123 < 2048
    ∧ is_set full_state 0x123 ENABLE = true
    ∧ is_set full_state 0x123 DISPLAY = true
    ∧ (((is_set (handle_timeo full_state 1000).2 0x123 DISPLAY = false
        ∧ is_set (handle_timeo full_state 1000).2 0x123 UPDATE = false
        ∧ (handle_timeo full_state 1000).2.clearscreen = 1)
      ↔ ((full_state.sniftab 0x123).timeout ≠ 0 ∧ (full_state.sniftab 0x123).timeout < 1000))
    ∧ (¬ ((full_state.sniftab 0x123).timeout ≠ 0 ∧ (full_state.sniftab 0x123).timeout < 1000) →
        is_set (handle_timeo full_state 1000).2 0x123 DISPLAY = true)
    ∧ (handle_timeo full_state 1000).2.stdout
        = (handle_timeo_head full_state).stdout
          ++ outLoop 2048 (tick_row 1000 (if full_state.clearscreen ≠ 0 then 1 else 0)
              (handle_timeo_head full_state))
    ∧ tick_row 1000 (if full_state.clearscreen ≠ 0 then 1 else 0) (handle_timeo_head full_state) 0x123
        = (if is_set full_state 0x123 UPDATE = true ∨ full_state.clearscreen ≠ 0 then
            print_snifline_line (handle_timeo_head full_state) 0x123
          else if (full_state.sniftab 0x123).hold ≠ 0 ∧ (full_state.sniftab 0x123).hold < 1000 then
            print_snifline_line
              (set_snif (handle_timeo_head full_state) 0x123 { (handle_timeo_head full_state).sniftab 0x123 with
                marker := U64_DATA_set ((handle_timeo_head full_state).sniftab 0x123).marker 0 }) 0x123
          else [Item.ctl Ctl.CSR_DOWN])) :=
  ⟨by decide, by decide, by decide,
    tick_expiry_after_render full_state 1000 0x123 (by decide) (by decide) (by decide)⟩

/-! ## C20: the snapshot at the end of a turn -/

theorem timeo_render_current (hold currcms : Int) (force_redraw : Nat) (e : snif) :
    (timeo_render hold currcms force_redraw e).current = e.current
    ∧ (timeo_render hold currcms force_redraw e).currstamp = e.currstamp := by
  unfold timeo_render
  split_ifs <;> exact ⟨rfl, rfl⟩

theorem timeo_expire_current (currcms : Int) (e : snif) :
    (timeo_expire currcms e).current = e.current
    ∧ (timeo_expire currcms e).currstamp = e.currstamp := by
  unfold timeo_expire
  split_ifs <;> exact ⟨rfl, rfl⟩

theorem timeo_entry_snapshot (hold currcms : Int) (force_redraw : Nat) (e : snif)
    (hE : e.flags &&& ENABLE ≠ 0) :
    (timeo_entry hold currcms force_redraw e).last = e.current
    ∧ (timeo_entry hold currcms force_redraw e).laststamp = e.currstamp
    ∧ (timeo_entry hold currcms force_redraw e).current = e.current
    ∧ (timeo_entry hold currcms force_redraw e).currstamp = e.currstamp := by
  unfold timeo_entry
  rw [if_pos hE]
  simp only []
  by_cases hD : e.flags &&& DISPLAY ≠ 0
  · rw [if_pos hD, (timeo_expire_current _ _).1, (timeo_expire_current _ _).2,
      (timeo_render_current _ _ _ _).1, (timeo_render_current _ _ _ _).2]
    exact ⟨rfl, rfl, rfl, rfl⟩
  · rw [if_neg hD]
    exact ⟨rfl, rfl, rfl, rfl⟩

/-- C20: after a tick in any state, a table element `k < 2048` that is enabled,
displayed or not, has `last` equal to `current` and `laststamp` equal to
`currstamp`, the tick leaving `current` and `currstamp` as they were; an
element that is not enabled keeps `last`, `laststamp`, `flags`, `marker`,
`hold` and `timeout`. -/
theorem tick_snapshot (s : State) (currcms : Int) (k : Nat) (hk : k < 2048) :
    (is_set s k ENABLE = true →
      ((handle_timeo s currcms).2.sniftab k).last = ((handle_timeo s currcms).2.sniftab k).current
      ∧ ((handle_timeo s currcms).2.sniftab k).laststamp
          = ((handle_timeo s currcms).2.sniftab k).currstamp
      ∧ ((handle_timeo s currcms).2.sniftab k).current = (s.sniftab k).current
      ∧ ((handle_timeo s currcms).2.sniftab k).currstamp = (s.sniftab k).currstamp)
    ∧ (is_set s k ENABLE = false →
      ((handle_timeo s currcms).2.sniftab k).last = (s.sniftab k).last
      ∧ ((handle_timeo s currcms).2.sniftab k).laststamp = (s.sniftab k).laststamp
      ∧ ((handle_timeo s currcms).2.sniftab k).flags = (s.sniftab k).flags
      ∧ ((handle_timeo s currcms).2.sniftab k).marker = (s.sniftab k).marker
      ∧ ((handle_timeo s currcms).2.sniftab k).hold = (s.sniftab k).hold
      ∧ ((handle_timeo s currcms).2.sniftab k).timeout = (s.sniftab k).timeout) := by
  constructor
  · intro hE
    have hE0 : ((handle_timeo_head s).sniftab k).flags &&& ENABLE ≠ 0 := by
      rw [handle_timeo_head_flags]
      exact (is_set_iff s k ENABLE).1 hE
    obtain ⟨h1, h2, h3, h4⟩ := timeo_entry_snapshot s.hold currcms
      (if s.clearscreen ≠ 0 then 1 else 0) ((handle_timeo_head s).sniftab k) hE0
    obtain ⟨-, -, -, hc, hs, -, -⟩ := handle_timeo_head_entry s k
    rw [handle_timeo_entry s currcms k hk, h1, h2, h3, h4, hc, hs]
    exact ⟨rfl, rfl, rfl, rfl⟩
  · intro hE
    rw [handle_timeo_disabled s currcms k hE]
    split_ifs <;> exact ⟨rfl, rfl, rfl, rfl, rfl, rfl⟩

theorem tick_snapshot_witness :
    0x123 < 2048
    ∧ ((is_set full_state 0x123 ENABLE = true →
      ((handle_timeo full_state 1).2.sniftab 0x123).last = ((handle_timeo full_state 1).2.sniftab 0x123).current
      ∧ ((handle_timeo full_state 1).2.sniftab 0x123).laststamp
          = ((handle_timeo full_state 1).2.sniftab 0x123).currstamp
      ∧ ((handle_timeo full_state 1).2.sniftab 0x123).current = (full_state.sniftab 0x123).current
      ∧ ((handle_timeo full_state 1).2.sniftab 0x123).currstamp = (full_state.sniftab 0x123).currstamp)
    ∧ (is_set full_state 0x123 ENABLE = false →
      ((handle_timeo full_state 1).2.sniftab 0x123).last = (full_state.sniftab 0x123).last
      ∧ ((handle_timeo full_state 1).2.sniftab 0x123).laststamp = (full_state.sniftab 0x123).laststamp
      ∧ ((handle_timeo full_state 1).2.sniftab 0x123).flags = (full_state.sniftab 0x123).flags
      ∧ ((handle_timeo full_state 1).2.sniftab 0x123).marker = (full_state.sniftab 0x123).marker
      ∧ ((handle_timeo full_state 1).2.sniftab 0x123).hold = (full_state.sniftab 0x123).hold
      ∧ ((handle_timeo full_state 1).2.sniftab 0x123).timeout = (full_state.sniftab 0x123).timeout)) :=
  ⟨by decide,
    tick_snapshot full_state 1 0x123 (by decide)⟩

/-! ## C19: the hold time -/

theorem digitChar_decimal (d : Nat) (h : d < 10) : digitChar d = Char.ofNat (48 + d) := by
  unfold digitChar
  rw [if_pos h]

theorem dec2_digits (n : Nat) (hn : n < 100) :
    padZero 2 (digits 10 n) = [digitChar (n / 10), digitChar (n % 10)] := by
  unfold digits
  by_cases h : n / 10 = 0
  · unfold digitsAux
    rw [if_pos h]
    have : digitChar 0 = '0' := by decide
    rw [h, this]
    rfl
  · unfold digitsAux
    rw [if_neg h]
    have hb1 : n = (n - 1) + 1 := by omega
    rw [hb1]
    unfold digitsAux
    have h2 : (n - 1 + 1) / 10 / 10 = 0 := by omega
    rw [if_pos h2]
    have h3 : (n - 1 + 1) / 10 % 10 = (n - 1 + 1) / 10 := by omega
    rw [h3]
    rfl

theorem dec3_digits (n : Nat) (hn : n < 1000) :
    padZero 3 (digits 10 n)
      = [digitChar (n / 100), digitChar (n / 10 % 10), digitChar (n % 10)] := by
  unfold digits
  by_cases h : n / 10 = 0
  · unfold digitsAux
    rw [if_pos h]
    have e1 : n / 100 = 0 := by omega
    have e2 : n / 10 % 10 = 0 := by omega
    rw [e1, e2]
    rfl
  · unfold digitsAux
    rw [if_neg h]
    have hb1 : n = (n - 1) + 1 := by omega
    rw [hb1]
    unfold digitsAux
    by_cases h2 : (n - 1 + 1) / 10 / 10 = 0
    · rw [if_pos h2]
      have e1 : (n - 1 + 1) / 100 = 0 := by omega
      rw [e1]
      rfl
    · rw [if_neg h2]
      have hb2 : n - 1 = (n - 2) + 1 := by omega
      rw [hb2]
      unfold digitsAux
      have h3 : (n - 2 + 1 + 1) / 10 / 10 / 10 = 0 := by omega
      rw [if_pos h3]
      have e1 : (n - 2 + 1 + 1) / 10 / 10 % 10 = (n - 2 + 1 + 1) / 100 := by omega
      rw [e1]
      rfl

theorem fmt_ld_nonneg (w : Nat) (v : Int) (h : 0 ≤ v) :
    fmt_ld w v = (padZero w (digits 10 v.toNat)).map Item.chr := by
  unfold fmt_ld
  rw [if_neg (by omega)]
  have : v.natAbs = v.toNat := by omega
  rw [this]

/-- What `%02ld%03ld` prints for seconds below 100 and milliseconds below
1000. -/
theorem time_field_chars (sec ms : Int) (hs : 0 ≤ sec ∧ sec < 100) (hm : 0 ≤ ms ∧ ms < 1000) :
    visible (fmt_ld 2 sec ++ fmt_ld 3 ms) = time_digits sec.toNat ms.toNat := by
  rw [fmt_ld_nonneg 2 sec hs.1, fmt_ld_nonneg 3 ms hm.1, ← List.map_append, visible_chars,
    dec2_digits _ (by omega), dec3_digits _ (by omega)]
  unfold time_digits
  rw [digitChar_decimal (sec.toNat / 10) (by omega), digitChar_decimal (sec.toNat % 10) (by omega),
    digitChar_decimal (ms.toNat / 100) (by omega),
    digitChar_decimal (ms.toNat / 10 % 10) (by omega),
    digitChar_decimal (ms.toNat % 10) (by omega)]
  rfl

/-- The head of a row starts with the time field. -/
theorem print_snifline_head_time (s : State) (id : Nat) :
    ∃ rest : List Item, print_snifline_head s id
      = [Item.ctl Ctl.colorstr]
        ++ ((fmt_ld 2 (diff_sec (s.sniftab id).laststamp (s.sniftab id).currstamp)
            ++ fmt_ld 3 ((diff_usec (s.sniftab id).laststamp (s.sniftab id).currstamp).tdiv 1000))
          ++ rest) := by
  unfold print_snifline_head diff_sec diff_usec
  simp only []
  by_cases h1 : id &&& CAN_EFF_FLAG ≠ 0
  · rw [if_pos h1]
    exact ⟨blanks 2 ++ fmt_X 8 (id &&& CAN_EFF_MASK) ++ blanks 2 ++ [Item.ctl Ctl.ATTRESET],
      by simp only [List.append_assoc]⟩
  · rw [if_neg h1]
    by_cases h2 : s.print_eff ≠ 0
    · rw [if_pos h2]
      exact ⟨blanks 2 ++ fmt_X 8 ((s.sniftab id).current.can_id &&& CAN_EFF_MASK) ++ blanks 2
        ++ [Item.ctl Ctl.ATTRESET], by simp only [List.append_assoc]⟩
    · rw [if_neg h2]
      exact ⟨blanks 2 ++ fmt_X 3 (id &&& CAN_SFF_MASK) ++ blanks 2 ++ [Item.ctl Ctl.ATTRESET],
        by simp only [List.append_assoc]⟩

/-- The result is a `long`, and differs from the argument by a multiple of
2^64. -/
theorem wrap_long_range (x : Int) :
    -9223372036854775808 ≤ wrap_long x ∧ wrap_long x ≤ 9223372036854775807
    ∧ (wrap_long x - x) % 18446744073709551616 = 0 := by
  unfold wrap_long
  omega

/-- A value in the range of a `long` is not changed. -/
theorem wrap_long_id (x : Int) (h : -9223372036854775808 ≤ x ∧ x ≤ 9223372036854775807) :
    wrap_long x = x := by
  unfold wrap_long
  omega

/-- Lines 603-610 on stamps whose microseconds are below a second and whose
seconds are subtracted within the range of a `long`: nothing for a negative
time, 99.999999 s for 100 s and more, else the time itself. -/
theorem time_values (last curr : timeval)
    (hl : 0 ≤ last.tv_usec ∧ last.tv_usec ≤ 999999)
    (hc : 0 ≤ curr.tv_usec ∧ curr.tv_usec ≤ 999999)
    (hs : -9223372036854775808 ≤ curr.tv_sec - last.tv_sec
      ∧ curr.tv_sec - last.tv_sec ≤ 9223372036854775807)
    (hb : curr.tv_usec < last.tv_usec → -9223372036854775808 < curr.tv_sec - last.tv_sec) :
    (elapsed_usec last curr < 0 → diff_sec last curr = 0 ∧ diff_usec last curr = 0)
    ∧ (100000000 ≤ elapsed_usec last curr →
        diff_sec last curr = 99 ∧ diff_usec last curr = 999999)
    ∧ (0 ≤ elapsed_usec last curr → elapsed_usec last curr < 100000000 →
        diff_sec last curr = elapsed_usec last curr / 1000000
        ∧ diff_usec last curr = elapsed_usec last curr % 1000000) := by
  unfold diff_sec diff_usec elapsed_usec
  simp only []
  rw [wrap_long_id (curr.tv_sec - last.tv_sec) hs,
    wrap_long_id (curr.tv_usec - last.tv_usec) (by omega)]
  by_cases hneg : curr.tv_usec - last.tv_usec < 0
  · simp only [if_pos hneg]
    have hb1 := hb (by omega)
    rw [wrap_long_id (curr.tv_sec - last.tv_sec - 1) (by omega),
      wrap_long_id (curr.tv_usec - last.tv_usec + 1000000) (by omega)]
    split_ifs <;>
      refine ⟨fun _ => ⟨?_, ?_⟩, fun _ => ⟨?_, ?_⟩, fun _ _ => ⟨?_, ?_⟩⟩ <;> omega
  · simp only [if_neg hneg]
    split_ifs <;>
      refine ⟨fun _ => ⟨?_, ?_⟩, fun _ => ⟨?_, ?_⟩, fun _ _ => ⟨?_, ?_⟩⟩ <;> omega

theorem line_time_field (s : State) (id : Nat) (sec ms : Int)
    (hs : 0 ≤ sec ∧ sec < 100) (hm : 0 ≤ ms ∧ ms < 1000)
    (h1 : diff_sec (s.sniftab id).laststamp (s.sniftab id).currstamp = sec)
    (h2 : (diff_usec (s.sniftab id).laststamp (s.sniftab id).currstamp).tdiv 1000 = ms) :
    (visible (print_snifline_line s id)).take 5 = time_digits sec.toNat ms.toNat := by
  obtain ⟨rest, hrest⟩ := print_snifline_head_time s id
  unfold print_snifline_line
  rw [hrest, h1, h2, visible_append, visible_append, visible_append, visible_append,
    time_field_chars sec ms hs hm]
  have h0 : visible [Item.ctl Ctl.colorstr] = [] := rfl
  rw [h0, List.nil_append, List.append_assoc, List.append_assoc]
  exact List.take_left' rfl

/-- C21 (as amended): `print_snifline` prints the row of `id`, and when the
microseconds of `laststamp` and `currstamp` of the entry lie in 0..999999 and
the seconds of `laststamp` are subtracted from the seconds of `currstamp`
within the range of a 64 bit `long` (the difference lies in -2^63 .. 2^63 - 1,
and is above -2^63 when line 604 borrows a second), the first five characters
of the row are decimal digits, two for the seconds and three for the
milliseconds of the time from `laststamp` to `currstamp`: `00000` when the time
is negative, `99999` when it is 100 s or more, and the digits of the whole
seconds and of the whole milliseconds of the rest otherwise. -/
theorem time_field (s : State) (id : Nat)
    (hl : 0 ≤ (s.sniftab id).laststamp.tv_usec ∧ (s.sniftab id).laststamp.tv_usec ≤ 999999)
    (hc : 0 ≤ (s.sniftab id).currstamp.tv_usec ∧ (s.sniftab id).currstamp.tv_usec ≤ 999999)
    (hs : -9223372036854775808 ≤ (s.sniftab id).currstamp.tv_sec - (s.sniftab id).laststamp.tv_sec
      ∧ (s.sniftab id).currstamp.tv_sec - (s.sniftab id).laststamp.tv_sec ≤ 9223372036854775807)
    (hb : (s.sniftab id).currstamp.tv_usec < (s.sniftab id).laststamp.tv_usec →
      -9223372036854775808 < (s.sniftab id).currstamp.tv_sec - (s.sniftab id).laststamp.tv_sec) :
    (print_snifline s id).stdout = s.stdout ++ print_snifline_line s id
    ∧ (visible (print_snifline_line s id)).take 5
        = (if elapsed_usec (s.sniftab id).laststamp (s.sniftab id).currstamp < 0 then
            ['0', '0', '0', '0', '0']
          else if 100000000 ≤ elapsed_usec (s.sniftab id).laststamp (s.sniftab id).currstamp then
            ['9', '9', '9', '9', '9']
          else
            time_digits
              (elapsed_usec (s.sniftab id).laststamp (s.sniftab id).currstamp / 1000000).toNat
              (elapsed_usec (s.sniftab id).laststamp (s.sniftab id).currstamp
                % 1000000 / 1000).toNat)
    ∧ (0 ≤ elapsed_usec (s.sniftab id).laststamp (s.sniftab id).currstamp →
        elapsed_usec (s.sniftab id).laststamp (s.sniftab id).currstamp < 100000000 →
        (elapsed_usec (s.sniftab id).laststamp (s.sniftab id).currstamp / 1000000).toNat < 100
        ∧ (elapsed_usec (s.sniftab id).laststamp (s.sniftab id).currstamp
            % 1000000 / 1000).toNat < 1000) := by
  obtain ⟨hneg, hsat, hmid⟩ := time_values _ _ hl hc hs hb
  refine ⟨print_snifline_stdout s id, ?_, fun h0 h1 => by omega⟩
  by_cases h0 : elapsed_usec (s.sniftab id).laststamp (s.sniftab id).currstamp < 0
  · rw [if_pos h0]
    obtain ⟨e1, e2⟩ := hneg h0
    exact line_time_field s id 0 0 (by decide) (by decide) e1 (by rw [e2]; rfl)
  · rw [if_neg h0]
    by_cases h1 : 100000000 ≤ elapsed_usec (s.sniftab id).laststamp (s.sniftab id).currstamp
    · rw [if_pos h1]
      obtain ⟨e1, e2⟩ := hsat h1
      exact line_time_field s id 99 999 (by decide) (by decide) e1 (by rw [e2]; rfl)
    · rw [if_neg h1]
      obtain ⟨e1, e2⟩ := hmid (by omega) (by omega)
      refine line_time_field s id _ _ (by omega) (by omega) e1 ?_
      rw [e2]
      exact Int.tdiv_eq_ediv (by omega) (by decide)

theorem shrunk_state_stamps :
    (0 ≤ (shrunk_state.sniftab 0x123).laststamp.tv_usec
      ∧ (shrunk_state.sniftab 0x123).laststamp.tv_usec ≤ 999999)
    ∧ (0 ≤ (shrunk_state.sniftab 0x123).currstamp.tv_usec
      ∧ (shrunk_state.sniftab 0x123).currstamp.tv_usec ≤ 999999) := by
  rw [shrunk_state_entry]
  decide

theorem shrunk_state_seconds :
    (-9223372036854775808
        ≤ (shrunk_state.sniftab 0x123).currstamp.tv_sec - (shrunk_state.sniftab 0x123).laststamp.tv_sec
      ∧ (shrunk_state.sniftab 0x123).currstamp.tv_sec - (shrunk_state.sniftab 0x123).laststamp.tv_sec
        ≤ 9223372036854775807)
    ∧ ((shrunk_state.sniftab 0x123).currstamp.tv_usec < (shrunk_state.sniftab 0x123).laststamp.tv_usec →
      -9223372036854775808
        < (shrunk_state.sniftab 0x123).currstamp.tv_sec - (shrunk_state.sniftab 0x123).laststamp.tv_sec) := by
  rw [shrunk_state_entry]
  decide

/-- The row of 0x123 one second after the previous frame starts with `01000`. -/
theorem time_field_example :
    (visible (print_snifline_line shrunk_state 0x123)).take 5 = ['0', '1', '0', '0', '0'] := by
  refine line_time_field shrunk_state 0x123 1 0 (by decide) (by decide) ?_ ?_
  · rw [shrunk_state_entry]
    rfl
  · rw [shrunk_state_entry]
    rfl

theorem time_field_witness :
    (0 ≤ (shrunk_state.sniftab 0x123).laststamp.tv_usec
      ∧ (shrunk_state.sniftab 0x123).laststamp.tv_usec ≤ 999999)
    ∧ (0 ≤ (shrunk_state.sniftab 0x123).currstamp.tv_usec
      ∧ (shrunk_state.sniftab 0x123).currstamp.tv_usec ≤ 999999)
    ∧ (-9223372036854775808
        ≤ (shrunk_state.sniftab 0x123).currstamp.tv_sec - (shrunk_state.sniftab 0x123).laststamp.tv_sec
      ∧ (shrunk_state.sniftab 0x123).currstamp.tv_sec - (shrunk_state.sniftab 0x123).laststamp.tv_sec
        ≤ 9223372036854775807)
    ∧ ((shrunk_state.sniftab 0x123).currstamp.tv_usec < (shrunk_state.sniftab 0x123).laststamp.tv_usec →
      -9223372036854775808
        < (shrunk_state.sniftab 0x123).currstamp.tv_sec - (shrunk_state.sniftab 0x123).laststamp.tv_sec)
    ∧ ((print_snifline shrunk_state 0x123).stdout = shrunk_state.stdout ++ print_snifline_line shrunk_state 0x123
    ∧ (visible (print_snifline_line shrunk_state 0x123)).take 5
        = (if elapsed_usec (shrunk_state.sniftab 0x123).laststamp (shrunk_state.sniftab 0x123).currstamp < 0 then
            ['0', '0', '0', '0', '0']
          else if 100000000 ≤ elapsed_usec (shrunk_state.sniftab 0x123).laststamp (shrunk_state.sniftab 0x123).currstamp then
            ['9', '9', '9', '9', '9']
          else
            time_digits
              (elapsed_usec (shrunk_state.sniftab 0x123).laststamp (shrunk_state.sniftab 0x123).currstamp / 1000000).toNat
              (elapsed_usec (shrunk_state.sniftab 0x123).laststamp (shrunk_state.sniftab 0x123).currstamp
                % 1000000 / 1000).toNat)
    ∧ (0 ≤ elapsed_usec (shrunk_state.sniftab 0x123).laststamp (shrunk_state.sniftab 0x123).currstamp →
        elapsed_usec (shrunk_state.sniftab 0x123).laststamp (shrunk_state.sniftab 0x123).currstamp < 100000000 →
        (elapsed_usec (shrunk_state.sniftab 0x123).laststamp (shrunk_state.sniftab 0x123).currstamp / 1000000).toNat < 100
        ∧ (elapsed_usec (shrunk_state.sniftab 0x123).laststamp (shrunk_state.sniftab 0x123).currstamp
            % 1000000 / 1000).toNat < 1000)) :=
  ⟨shrunk_state_stamps.1, shrunk_state_stamps.2, shrunk_state_seconds.1, shrunk_state_seconds.2,
    time_field shrunk_state 0x123 shrunk_state_stamps.1 shrunk_state_stamps.2
      shrunk_state_seconds.1 shrunk_state_seconds.2⟩

theorem wrapped_state_entry :
    wrapped_state.sniftab 0x123
      = raw_entry TIMEOUT frame3 ⟨-9223372036854775808, 0⟩ 2
          (timeo_entry HOLD 1 1
            (raw_entry TIMEOUT frame8 ⟨1, 0⟩ 0 { zero_snif with flags := ENABLE })) := by
  rw [wrapped_state, handle_raw_sniftab _ _ _ _ _ (Or.inl rfl), handle_timeo_timeout,
    handle_timeo_sniftab, handle_raw_timeout, handle_raw_sniftab _ _ _ _ _ (Or.inl rfl),
    init_sniftab_lt _ _ (by decide)]
  rfl

/-- C21 (as stated) fails: the stamps of the entry of 0x123 are 1 s and -2^63 s,
both with 0 microseconds, the time from `laststamp` to `currstamp` is negative,
and the row that `print_snifline` prints starts with `99999`, not with `00000`:
the subtraction of line 598 leaves the range of a `long`. -/
theorem time_field_wraps :
    (wrapped_state.sniftab 0x123).laststamp = ⟨1, 0⟩
    ∧ (wrapped_state.sniftab 0x123).currstamp = ⟨-9223372036854775808, 0⟩
    ∧ elapsed_usec (wrapped_state.sniftab 0x123).laststamp (wrapped_state.sniftab 0x123).currstamp
        < 0
    ∧ (print_snifline wrapped_state 0x123).stdout
        = wrapped_state.stdout ++ print_snifline_line wrapped_state 0x123
    ∧ (visible (print_snifline_line wrapped_state 0x123)).take 5 = ['9', '9', '9', '9', '9'] := by
  refine ⟨?_, ?_, ?_, print_snifline_stdout wrapped_state 0x123,
    line_time_field wrapped_state 0x123 99 999 (by decide) (by decide) ?_ ?_⟩
  · rw [wrapped_state_entry]
    rfl
  · rw [wrapped_state_entry]
    rfl
  · rw [wrapped_state_entry]
    decide
  · rw [wrapped_state_entry]
    rfl
  · rw [wrapped_state_entry]
    rfl

end Cansniffer
